import Mathlib

/-!
# tinyraytracer: a shallow embedding of `src/raytracing/raytracing.cpp`

The C++ `float`/`double` values are modelled by an arbitrary linearly ordered
field `α` (instantiated at `ℝ` for the geometric theorems), that is, by exact
real arithmetic.  Two refinements cover the places where IEEE 754 arithmetic
is visible in the result: the reciprocals `invdir` of a ray and the slab
parameters of `Cube::ray_intersect` are values of `XFloat α` (a number, an
infinity or NaN), and `Triangle::ray_intersect` and the accumulation of
`anti_aliasing` are also evaluated in binary32 with every operation rounded
(section "IEEE 754 binary32 arithmetic").  The library functions `sqrtf` and
`powf` are explicit parameters of the definitions that call them.  Functions
with a `bool` result and a `float &t0` output parameter return an `Option`:
`none` is `false`, `some t0` is `true` together with the value written to `t0`.
-/

namespace Raytracer

/-! ## Vectors, materials, lights, rays (declared in the headers) -/

/-- Modelled from the spec: the 3-component vector type `Vec3f` of the missing
`geometry.h` ("3-component float vectors with dot/cross/normalize"). -/
structure Vec3f (α : Type) where
  x : α
  y : α
  z : α
deriving DecidableEq

/-- Modelled from the spec: the four shading coefficients `albedo[0..3]` of a
material (diffuse, specular, reflect, refract weights). -/
structure Vec4f (α : Type) where
  a0 : α
  a1 : α
  a2 : α
  a3 : α
deriving DecidableEq

/-- Modelled from the spec: `Material` of the missing `raytracing.h`
(diffuse colour, albedo, specular exponent, refractive index). -/
structure Material (α : Type) where
  diffuse_color : Vec3f α
  albedo : Vec4f α
  specular_exponent : α
  refractive_index : α
deriving DecidableEq

/-- Modelled from the spec: `Light` of the missing `raytracing.h`
(position and intensity). -/
structure Light (α : Type) where
  position : Vec3f α
  intensity : α
deriving DecidableEq

/-- Modelled from the spec: a `float` that may hold an IEEE infinity or NaN,
as the reciprocal of a direction component and every product with it can: a
number, `+∞`, `-∞` or NaN. -/
inductive XFloat (α : Type) where
  | fin : α → XFloat α
  | pinf : XFloat α
  | ninf : XFloat α
  | nan : XFloat α
deriving DecidableEq

/-- Modelled from the spec: the geometric fields of `Ray` of the missing
`raytracing.h`: origin, direction, cached inverse direction (whose components
may be infinite) and the sign index per axis (`sign.x`, `sign.y`, `sign.z`
stand for `sign[0]`, `sign[1]`, `sign[2]`). -/
structure Ray (α : Type) where
  orig : Vec3f α
  dir : Vec3f α
  invdir : Vec3f (XFloat α)
  sign : Vec3f Nat
deriving DecidableEq

/-- `Sphere` as used by `Sphere::ray_intersect`. -/
structure Sphere (α : Type) where
  center : Vec3f α
  radius : α
  material : Material α
deriving DecidableEq

/-- `Cube` as used by `Cube::ray_intersect`: `bounds[0]` and `bounds[1]`. -/
structure Cube (α : Type) where
  bounds0 : Vec3f α
  bounds1 : Vec3f α
  material : Material α
deriving DecidableEq

/-- `Triangle` as used by `Triangle::ray_intersect`. -/
structure Triangle (α : Type) where
  p0 : Vec3f α
  p1 : Vec3f α
  p2 : Vec3f α
  material : Material α
deriving DecidableEq

/-- The closed set of primitives behind the `Figure` interface. -/
inductive Figure (α : Type) where
  | sphere : Sphere α → Figure α
  | triangle : Triangle α → Figure α
  | cube : Cube α → Figure α
deriving DecidableEq

section VectorOps

variable {α : Type}

/-- Componentwise sum `a + b`. -/
def Vec3f.add [Add α] (a b : Vec3f α) : Vec3f α := ⟨a.x + b.x, a.y + b.y, a.z + b.z⟩

/-- Componentwise difference `a - b`. -/
def Vec3f.sub [Sub α] (a b : Vec3f α) : Vec3f α := ⟨a.x - b.x, a.y - b.y, a.z - b.z⟩

/-- Unary minus `-a`. -/
def Vec3f.neg [Neg α] (a : Vec3f α) : Vec3f α := ⟨-a.x, -a.y, -a.z⟩

/-- Scaling by a scalar on the right, `a * f`. -/
def Vec3f.scale [Mul α] (a : Vec3f α) (f : α) : Vec3f α := ⟨a.x * f, a.y * f, a.z * f⟩

/-- Dot product, written `a * b` in the source. -/
def Vec3f.dot [Add α] [Mul α] (a b : Vec3f α) : α := a.x * b.x + a.y * b.y + a.z * b.z

/-- Cross product `cross(a, b)`. -/
def cross [Sub α] [Mul α] (a b : Vec3f α) : Vec3f α :=
  ⟨a.y * b.z - a.z * b.y, a.z * b.x - a.x * b.z, a.x * b.y - a.y * b.x⟩

/-- Euclidean length `a.norm()`. -/
def Vec3f.norm [Add α] [Mul α] (sqrtf : α → α) (a : Vec3f α) : α := sqrtf (a.dot a)

/-- Rescaling to unit length, `a.normalize()`: `a * (1 / a.norm())`. -/
def Vec3f.normalize [Add α] [Mul α] [One α] [Div α] (sqrtf : α → α) (a : Vec3f α) : Vec3f α :=
  a.scale (1 / a.norm sqrtf)

/-- The point `orig + dir * t` of a ray. -/
def Ray.point_at [Add α] [Mul α] (ray : Ray α) (t : α) : Vec3f α :=
  ray.orig.add (ray.dir.scale t)

/-- Indexing `bounds[i]` of a cube. -/
def Cube.bounds (c : Cube α) (i : Nat) : Vec3f α := if i = 0 then c.bounds0 else c.bounds1

end VectorOps

/-! ## IEEE infinities and NaN -/

section XFloatOps

variable {α : Type} [LinearOrderedField α]

/-- The IEEE reciprocal `1 / x` of a number: `+∞` at zero (the sign of a zero
is not modelled: every zero is `+0`). -/
def XFloat.recip (x : α) : XFloat α := if x = 0 then XFloat.pinf else XFloat.fin (1 / x)

/-- The IEEE product: exact on numbers, `0 * ±∞` is NaN, NaN is absorbing. -/
def XFloat.mul (a b : XFloat α) : XFloat α :=
  match a, b with
  | XFloat.fin x, XFloat.fin y => XFloat.fin (x * y)
  | XFloat.fin x, XFloat.pinf =>
    if 0 < x then XFloat.pinf else if x < 0 then XFloat.ninf else XFloat.nan
  | XFloat.fin x, XFloat.ninf =>
    if 0 < x then XFloat.ninf else if x < 0 then XFloat.pinf else XFloat.nan
  | XFloat.pinf, XFloat.fin y =>
    if 0 < y then XFloat.pinf else if y < 0 then XFloat.ninf else XFloat.nan
  | XFloat.ninf, XFloat.fin y =>
    if 0 < y then XFloat.ninf else if y < 0 then XFloat.pinf else XFloat.nan
  | XFloat.pinf, XFloat.pinf => XFloat.pinf
  | XFloat.pinf, XFloat.ninf => XFloat.ninf
  | XFloat.ninf, XFloat.pinf => XFloat.ninf
  | XFloat.ninf, XFloat.ninf => XFloat.pinf
  | XFloat.nan, _ => XFloat.nan
  | _, XFloat.nan => XFloat.nan

/-- The IEEE comparison `a < b`: false as soon as one side is NaN. -/
def XFloat.lt (a b : XFloat α) : Prop :=
  match a, b with
  | XFloat.fin x, XFloat.fin y => x < y
  | XFloat.fin _, XFloat.pinf => True
  | XFloat.ninf, XFloat.fin _ => True
  | XFloat.ninf, XFloat.pinf => True
  | _, _ => False

instance XFloat.instMul : Mul (XFloat α) := ⟨XFloat.mul⟩

instance XFloat.instLT : LT (XFloat α) := ⟨XFloat.lt⟩

instance XFloat.instZero : Zero (XFloat α) := ⟨XFloat.fin 0⟩

instance XFloat.decidableLT (a b : XFloat α) : Decidable (a < b) :=
  match a, b with
  | XFloat.fin x, XFloat.fin y => inferInstanceAs (Decidable (x < y))
  | XFloat.fin _, XFloat.pinf => isTrue trivial
  | XFloat.fin _, XFloat.ninf => isFalse (fun h => h)
  | XFloat.fin _, XFloat.nan => isFalse (fun h => h)
  | XFloat.pinf, _ => isFalse (fun h => by cases h)
  | XFloat.ninf, XFloat.fin _ => isTrue trivial
  | XFloat.ninf, XFloat.pinf => isTrue trivial
  | XFloat.ninf, XFloat.ninf => isFalse (fun h => h)
  | XFloat.ninf, XFloat.nan => isFalse (fun h => h)
  | XFloat.nan, _ => isFalse (fun h => by cases h)

/-- Modelled from the spec: the two-argument `Ray` constructor of the missing
`raytracing.h`: the inverse direction is the componentwise IEEE reciprocal of
`dir` and `sign[k]` is 1 exactly when `invdir[k] < 0`. -/
def Ray.make (orig dir : Vec3f α) : Ray α :=
  let invdir : Vec3f (XFloat α) :=
    ⟨XFloat.recip dir.x, XFloat.recip dir.y, XFloat.recip dir.z⟩
  { orig := orig
    dir := dir
    invdir := invdir
    sign := ⟨if invdir.x < 0 then 1 else 0, if invdir.y < 0 then 1 else 0,
             if invdir.z < 0 then 1 else 0⟩ }

end XFloatOps

/-! ## Primitive intersection tests -/

section Intersections

variable {α : Type}

/-- `Sphere::ray_intersect` (raytracing.cpp:118-129). -/
def Sphere.ray_intersect [LinearOrderedField α] (sqrtf : α → α) (s : Sphere α) (ray : Ray α) :
    Option α :=
  let L := s.center.sub ray.orig
  let tca := L.dot ray.dir
  let d2 := L.dot L - tca * tca
  if d2 > s.radius * s.radius then none
  else
    let thc := sqrtf (s.radius * s.radius - d2)
    let t0 := tca - thc
    let t1 := tca + thc
    let t0 := if t0 < 0 then t1 else t0
    if t0 < 0 then none else some t0

/-- `Cube::ray_intersect` (raytracing.cpp:132-165), the slab method.  The
differences `bounds - orig` are numbers; their products with the components of
`invdir`, the six slab parameters and the reported `t0` are IEEE values, and
the comparisons are the IEEE ones (false on NaN). -/
def Cube.ray_intersect [LinearOrderedField α] (c : Cube α) (ray : Ray α) : Option (XFloat α) :=
  let t_min := XFloat.fin ((c.bounds ray.sign.x).x - ray.orig.x) * ray.invdir.x
  let t_max := XFloat.fin ((c.bounds (1 - ray.sign.x)).x - ray.orig.x) * ray.invdir.x
  let t_y_min := XFloat.fin ((c.bounds ray.sign.y).y - ray.orig.y) * ray.invdir.y
  let t_y_max := XFloat.fin ((c.bounds (1 - ray.sign.y)).y - ray.orig.y) * ray.invdir.y
  if t_min > t_y_max ∨ t_y_min > t_max then none
  else
    let t_min := if t_y_min > t_min then t_y_min else t_min
    let t_max := if t_y_max < t_max then t_y_max else t_max
    let t_z_min := XFloat.fin ((c.bounds ray.sign.z).z - ray.orig.z) * ray.invdir.z
    let t_z_max := XFloat.fin ((c.bounds (1 - ray.sign.z)).z - ray.orig.z) * ray.invdir.z
    if t_min > t_z_max ∨ t_z_min > t_max then none
    else
      let t_min := if t_z_min > t_min then t_z_min else t_min
      let t_max := if t_z_max < t_max then t_z_max else t_max
      let t0 := t_min
      if t0 < 0 then
        let t0 := t_max
        if t0 < 0 then none else some t0
      else some t0

/-- The constant `EPSILON = 0.0000001` of `Triangle::ray_intersect`. -/
def EPSILON [LinearOrderedField α] : α := 1 / 10000000

/-- `Triangle::ray_intersect` (raytracing.cpp:167-198), Moller-Trumbore. -/
def Triangle.ray_intersect [LinearOrderedField α] (tr : Triangle α) (ray : Ray α) : Option α :=
  let vertex0 := tr.p0
  let vertex1 := tr.p1
  let vertex2 := tr.p2
  let edge1 := vertex1.sub vertex0
  let edge2 := vertex2.sub vertex0
  let h := cross ray.dir edge2
  let a := edge1.dot h
  if a > -EPSILON ∧ a < EPSILON then none
  else
    let f := 1 / a
    let s := ray.orig.sub vertex0
    let u := f * s.dot h
    if u < 0 ∨ u > 1 then none
    else
      let q := cross s edge1
      let v := f * ray.dir.dot q
      if v < 0 ∨ u + v > 1 then none
      else
        let t := f * edge2.dot q
        if t > EPSILON then some t else none

end Intersections

/-! ## Scene intersection and the recursive ray caster -/

/-- The parts of the environment that `raytracing.cpp` uses but does not define:
the C library functions `sqrtf` and `powf`, the surface normal that
`SetNeededNormHitMaterial` computes, and the default-constructed `Vec3f` and
`Material` values. -/
structure Env (α : Type) where
  sqrtf : α → α
  powf : α → α → α
  normal : Figure α → Ray α → α → Vec3f α
  vec_default : Vec3f α
  material_default : Material α

/-- The local state of the loop of `scene_intersect`: the three running minima
and the three output parameters. -/
structure SceneState (α : Type) where
  spheres_dist : α
  triangles_dist : α
  cubes_dist : α
  hit : Vec3f α
  N : Vec3f α
  material : Material α
deriving DecidableEq

/-- The result of `scene_intersect`: the returned `bool` and the final values
of the output parameters `hit`, `N`, `material`. -/
structure SceneResult (α : Type) where
  found : Bool
  hit : Vec3f α
  N : Vec3f α
  material : Material α
deriving DecidableEq

section Scene

variable {α : Type} [LinearOrderedField α]

/-- The constant `std::numeric_limits<float>::max()`. -/
def FLT_MAX : α := 340282346638528859811704183484516925440

/-- Virtual dispatch of `p->ray_intersect(ray, dist_i)` as the caller
`scene_intersect` sees it.  A cube result `dist_i` that is `+∞` or NaN is
reported as `none`: the caller only tests `dist_i < figure_dist`, which is
false for both, so the iteration leaves the state unchanged exactly as after
`false` (`-∞` is never returned; see `cube_dist_not_lt`). -/
def Figure.ray_intersect (sqrtf : α → α) (p : Figure α) (ray : Ray α) : Option α :=
  match p with
  | Figure.sphere s => s.ray_intersect sqrtf ray
  | Figure.triangle t => t.ray_intersect ray
  | Figure.cube c =>
    match c.ray_intersect ray with
    | some (XFloat.fin t) => some t
    | _ => none

/-- The material stored in a primitive. -/
def Figure.material (p : Figure α) : Material α :=
  match p with
  | Figure.sphere s => s.material
  | Figure.triangle t => t.material
  | Figure.cube c => c.material

/-- Modelled from the spec: `Figure::NeededDist` of the missing `raytracing.h`,
which selects the running minimum of the primitive's own category
("keep the minimum distance per primitive category (sphere/triangle/cube)"). -/
def Figure.NeededDist (p : Figure α) (st : SceneState α) : α :=
  match p with
  | Figure.sphere _ => st.spheres_dist
  | Figure.triangle _ => st.triangles_dist
  | Figure.cube _ => st.cubes_dist

/-- The assignment `figure_dist = dist_i` through the reference returned by
`NeededDist`. -/
def Figure.setNeededDist (p : Figure α) (st : SceneState α) (d : α) : SceneState α :=
  match p with
  | Figure.sphere _ => { st with spheres_dist := d }
  | Figure.triangle _ => { st with triangles_dist := d }
  | Figure.cube _ => { st with cubes_dist := d }

/-- Modelled from the spec: `Figure::SetNeededNormHitMaterial` of the missing
`raytracing.h` ("given a hit distance, resolve surface normal, hit point, and
material"): the hit point is `orig + dir * dist`, the material is the
primitive's own, and the normal is the one supplied by the environment. -/
def Figure.SetNeededNormHitMaterial (E : Env α) (p : Figure α) (ray : Ray α) (dist : α)
    (st : SceneState α) : SceneState α :=
  { st with
    N := E.normal p ray dist
    hit := ray.orig.add (ray.dir.scale dist)
    material := p.material }

/-- One iteration of the loop over `figures` in `scene_intersect`
(raytracing.cpp:44-53). -/
def scene_step (E : Env α) (ray : Ray α) (st : SceneState α) (p : Figure α) : SceneState α :=
  match p.ray_intersect E.sqrtf ray with
  | none => st
  | some dist_i =>
    if dist_i < p.NeededDist st then
      p.SetNeededNormHitMaterial E ray dist_i (p.setNeededDist st dist_i)
    else st

/-- The state of `scene_intersect` after the loop over `figures`. -/
def scene_loop (E : Env α) (ray : Ray α) (figures : List (Figure α))
    (hit N : Vec3f α) (material : Material α) : SceneState α :=
  figures.foldl (scene_step E ray)
    { spheres_dist := FLT_MAX, triangles_dist := FLT_MAX, cubes_dist := FLT_MAX,
      hit := hit, N := N, material := material }

/-- Conversion `int(x)` of a floating value: truncation toward zero. -/
def toInt [FloorRing α] (x : α) : Int := if 0 ≤ x then Int.floor x else Int.ceil x

/-- The diffuse colour of the checkerboard at a hit point
(raytracing.cpp:63-64). -/
def checkerboard_color [FloorRing α] (hit : Vec3f α) : Vec3f α :=
  if (toInt (1 / 2 * hit.x + 1000) + toInt (1 / 2 * hit.z)) % 2 ≠ 0
  then ⟨1 / 10, 1 / 10, 1 / 10⟩ else ⟨3 / 10, 2 / 10, 1 / 10⟩

/-- `scene_intersect` (raytracing.cpp:37-68).  The arguments `hit`, `N`,
`material` are the values of the reference parameters on entry. -/
def scene_intersect [FloorRing α] (E : Env α) (ray : Ray α) (figures : List (Figure α))
    (hit N : Vec3f α) (material : Material α) : SceneResult α :=
  let st := scene_loop E ray figures hit N material
  let checkerboard_dist : α := FLT_MAX
  if |ray.dir.y| > 1 / 1000 then
    let d := -(ray.orig.y + 4) / ray.dir.y
    let pt := ray.orig.add (ray.dir.scale d)
    if d > 0 ∧ d < st.spheres_dist ∧ d < st.triangles_dist then
      let checkerboard_dist := d
      { found := decide
          (min (min (min st.spheres_dist checkerboard_dist) st.cubes_dist) st.triangles_dist
            < 1000)
        hit := pt
        N := ⟨0, 1, 0⟩
        material := { st.material with diffuse_color := checkerboard_color pt } }
    else
      { found := decide
          (min (min (min st.spheres_dist checkerboard_dist) st.cubes_dist) st.triangles_dist
            < 1000)
        hit := st.hit, N := st.N, material := st.material }
  else
    { found := decide
        (min (min (min st.spheres_dist checkerboard_dist) st.cubes_dist) st.triangles_dist
          < 1000)
      hit := st.hit, N := st.N, material := st.material }

/-- `reflect` (raytracing.cpp:16-18): `I - N * 2 * (I * N)`. -/
def reflect (I N : Vec3f α) : Vec3f α := I.sub ((N.scale 2).scale (I.dot N))

/-- `refract` (raytracing.cpp:27-35).  The source's default argument
`eta_i = 1` is passed explicitly by the callers. -/
def refract (sqrtf : α → α) (I N : Vec3f α) (eta_t eta_i : α) : Vec3f α :=
  let cosi := -(max (-1) (min 1 (I.dot N)))
  if cosi < 0 then refract sqrtf I N.neg eta_i eta_t
  else
    let eta := eta_i / eta_t
    let k := 1 - eta * eta * (1 - cosi * cosi)
    if k < 0 then ⟨1, 0, 0⟩ else (I.scale eta).add (N.scale (eta * cosi - sqrtf k))
termination_by (if 0 < I.dot N then 1 else 0 : Nat)
decreasing_by
  rename_i hc
  have hc2 : -(max (-1) (min 1 (I.dot N))) < 0 := hc
  have h1 : 0 < I.dot N := by
    by_contra hn
    have hle : I.dot N ≤ 0 := not_lt.mp hn
    have h2 : min 1 (I.dot N) ≤ 0 := le_trans (min_le_right _ _) hle
    have h3 : max (-1) (min 1 (I.dot N)) ≤ 0 := max_le (by norm_num) h2
    linarith
  have h4 : I.dot N.neg = -(I.dot N) := by
    simp only [Vec3f.dot, Vec3f.neg]; ring
  have h5 : ¬ (0 < I.dot N.neg) := by rw [h4]; linarith
  simp [h1, h5]

/-- The background colour returned by `cast_ray` (raytracing.cpp:82). -/
def background : Vec3f α := ⟨0, 127 / 255, 255 / 255⟩

/-- The origin offset `dir * N < 0 ? point - N * 1e-3 : point + N * 1e-3`
used for the reflection, refraction and shadow rays. -/
def offset_orig (dir point N : Vec3f α) : Vec3f α :=
  if dir.dot N < 0 then point.sub (N.scale (1 / 1000)) else point.add (N.scale (1 / 1000))

/-- The geometry of `reflect_ray` for a hit `r` of `ray` (raytracing.cpp:86-90). -/
def reflect_ray (E : Env α) (ray : Ray α) (r : SceneResult α) : Ray α :=
  let reflect_dir := (reflect ray.dir r.N).normalize E.sqrtf
  Ray.make (offset_orig reflect_dir r.hit r.N) reflect_dir

/-- The geometry of `refract_ray` for a hit `r` of `ray` (raytracing.cpp:87-92). -/
def refract_ray (E : Env α) (ray : Ray α) (r : SceneResult α) : Ray α :=
  let refract_dir := (refract E.sqrtf ray.dir r.N r.material.refractive_index 1).normalize E.sqrtf
  Ray.make (offset_orig refract_dir r.hit r.N) refract_dir

/-- The shadow test of one light in `cast_ray` (raytracing.cpp:96-106): `true`
when the loop executes `continue`. -/
def in_shadow [FloorRing α] (E : Env α) (figures : List (Figure α)) (point N : Vec3f α)
    (l : Light α) : Bool :=
  let light_dir := (l.position.sub point).normalize E.sqrtf
  let light_distance := (l.position.sub point).norm E.sqrtf
  let shadow_orig := offset_orig light_dir point N
  let sh := scene_intersect E (Ray.make shadow_orig light_dir) figures
    E.vec_default E.vec_default E.material_default
  sh.found && decide ((sh.hit.sub shadow_orig).norm E.sqrtf < light_distance)

/-- One iteration of the loop over `lights` in `cast_ray` (raytracing.cpp:95-111),
acting on the pair `(diffuse_light_intensity, specular_light_intensity)`. -/
def light_step [FloorRing α] (E : Env α) (ray : Ray α) (figures : List (Figure α))
    (point N : Vec3f α) (material : Material α) (acc : α × α) (l : Light α) : α × α :=
  let light_dir := (l.position.sub point).normalize E.sqrtf
  if in_shadow E figures point N l then acc
  else
    (acc.1 + l.intensity * max 0 (light_dir.dot N),
     acc.2 + E.powf (max 0 ((reflect light_dir.neg N).neg.dot ray.dir))
        material.specular_exponent * l.intensity)

/-- The shading of a hit `r` in `cast_ray` (raytracing.cpp:94-115): the loop
over the lights and the final weighted sum, given the colours returned for the
reflection and the refraction ray. -/
def shade [FloorRing α] (E : Env α) (ray : Ray α) (figures : List (Figure α))
    (lights : List (Light α)) (r : SceneResult α) (reflect_color refract_color : Vec3f α) :
    Vec3f α :=
  let acc := lights.foldl (light_step E ray figures r.hit r.N r.material) (0, 0)
  ((((r.material.diffuse_color.scale acc.1).scale r.material.albedo.a0).add
      (((Vec3f.mk 1 1 1).scale acc.2).scale r.material.albedo.a1)).add
      (reflect_color.scale r.material.albedo.a2)).add
    (refract_color.scale r.material.albedo.a3)

/-- `casting_ray::cast_ray` (raytracing.cpp:75-116).  The five-argument `Ray`
constructor of the missing header casts the new ray at `depth + 1` and stores
the colour read back as `reflect_ray.color.value()`. -/
def cast_ray [FloorRing α] (E : Env α) (ray : Ray α) (figures : List (Figure α))
    (lights : List (Light α)) (depth : Nat) : Vec3f α :=
  if depth > 4 then background
  else
    let r := scene_intersect E ray figures E.vec_default E.vec_default E.material_default
    if !r.found then background
    else
      let reflect_color := cast_ray E (reflect_ray E ray r) figures lights (depth + 1)
      let refract_color := cast_ray E (refract_ray E ray r) figures lights (depth + 1)
      shade E ray figures lights r reflect_color refract_color
termination_by 5 - depth
decreasing_by all_goals omega

/-- The recursive calls made by the activation `cast_ray(ray, ..., depth)`:
the list of `(ray, depth)` arguments of the nested `cast_ray` calls, read off
the body of `cast_ray`. -/
def cast_ray_calls [FloorRing α] (E : Env α) (figures : List (Figure α)) (p : Ray α × Nat) :
    List (Ray α × Nat) :=
  if p.2 > 4 then []
  else
    let r := scene_intersect E p.1 figures E.vec_default E.vec_default E.material_default
    if !r.found then []
    else [(reflect_ray E p.1 r, p.2 + 1), (refract_ray E p.1 r, p.2 + 1)]

/-- The call relation of `cast_ray`: activation `p` directly calls activation `c`. -/
def CastRayCall [FloorRing α] (E : Env α) (figures : List (Figure α)) (p c : Ray α × Nat) : Prop :=
  c ∈ cast_ray_calls E figures p

end Scene

/-! ## Auxiliary notions used to state the properties of the cube test -/

section CubeNotions

variable {α : Type}

/-- The closed axis-aligned box of a cube contains the point `p`. -/
def Cube.contains [LE α] (c : Cube α) (p : Vec3f α) : Prop :=
  (c.bounds0.x ≤ p.x ∧ p.x ≤ c.bounds1.x) ∧ (c.bounds0.y ≤ p.y ∧ p.y ≤ c.bounds1.y) ∧
    (c.bounds0.z ≤ p.z ∧ p.z ≤ c.bounds1.z)

/-- The point `p` lies strictly inside the box of a cube. -/
def Cube.contains_strictly [LT α] (c : Cube α) (p : Vec3f α) : Prop :=
  (c.bounds0.x < p.x ∧ p.x < c.bounds1.x) ∧ (c.bounds0.y < p.y ∧ p.y < c.bounds1.y) ∧
    (c.bounds0.z < p.z ∧ p.z < c.bounds1.z)

/-- The control flow of `Cube::ray_intersect` on the six slab parameters. -/
def slab_core [Zero α] [LT α] [DecidableRel (fun a b : α => a < b)]
    (t_min t_max t_y_min t_y_max t_z_min t_z_max : α) : Option α :=
  if t_min > t_y_max ∨ t_y_min > t_max then none
  else
    let t_min := if t_y_min > t_min then t_y_min else t_min
    let t_max := if t_y_max < t_max then t_y_max else t_max
    if t_min > t_z_max ∨ t_z_min > t_max then none
    else
      let t_min := if t_z_min > t_min then t_z_min else t_min
      let t_max := if t_z_max < t_max then t_z_max else t_max
      let t0 := t_min
      if t0 < 0 then
        let t0 := t_max
        if t0 < 0 then none else some t0
      else some t0

end CubeNotions

section CubeAxisNotions

/-- The position of an IEEE value on the extended real line (a NaN has none
and is sent to `⊥`). -/
def XFloat.toEReal (a : XFloat ℝ) : EReal :=
  match a with
  | XFloat.fin x => (x : EReal)
  | XFloat.pinf => ⊤
  | XFloat.ninf => ⊥
  | XFloat.nan => ⊥

/-- A lower slab parameter with NaN replaced by `-∞`. -/
def XFloat.lo_norm {α : Type} (a : XFloat α) : XFloat α :=
  match a with
  | XFloat.nan => XFloat.ninf
  | b => b

/-- An upper slab parameter with NaN replaced by `+∞`. -/
def XFloat.hi_norm {α : Type} (a : XFloat α) : XFloat α :=
  match a with
  | XFloat.nan => XFloat.pinf
  | b => b

end CubeAxisNotions

/-! ## Auxiliary notions used to state the properties of the triangle test -/

section TriangleNotions

variable {α : Type} [LinearOrderedField α]

/-- The determinant `a = edge1 * cross(dir, edge2)` of `Triangle::ray_intersect`. -/
def Triangle.det (tr : Triangle α) (ray : Ray α) : α :=
  (tr.p1.sub tr.p0).dot (cross ray.dir (tr.p2.sub tr.p0))

/-- The barycentric coordinate `u = f * (s * h)` of `Triangle::ray_intersect`. -/
def Triangle.u (tr : Triangle α) (ray : Ray α) : α :=
  1 / tr.det ray * (ray.orig.sub tr.p0).dot (cross ray.dir (tr.p2.sub tr.p0))

/-- The barycentric coordinate `v = f * (dir * q)` of `Triangle::ray_intersect`. -/
def Triangle.v (tr : Triangle α) (ray : Ray α) : α :=
  1 / tr.det ray * ray.dir.dot (cross (ray.orig.sub tr.p0) (tr.p1.sub tr.p0))

/-- The point `p0 + (p1 - p0) * u + (p2 - p0) * v` of the triangle's plane. -/
def Triangle.bary (tr : Triangle α) (u v : α) : Vec3f α :=
  (tr.p0.add ((tr.p1.sub tr.p0).scale u)).add ((tr.p2.sub tr.p0).scale v)


/-- The centroid `(p0 + p1 + p2) / 3` of a triangle. -/
def Triangle.centroid (tr : Triangle α) : Vec3f α :=
  ((tr.p0.add tr.p1).add tr.p2).scale (1 / 3)

end TriangleNotions

/-! ## Auxiliary notions used to state the properties of the scene loop -/

section SceneNotions

variable {α : Type} [LinearOrderedField α]

/-- The category of a primitive: 0 for spheres, 1 for triangles, 2 for cubes. -/
def Figure.category (p : Figure α) : Nat :=
  match p with
  | Figure.sphere _ => 0
  | Figure.triangle _ => 1
  | Figure.cube _ => 2

/-- The running minimum of category `c` in a state of `scene_intersect`
(0 for an index that is no category). -/
def SceneState.dist (st : SceneState α) (c : Nat) : α :=
  if c = 0 then st.spheres_dist else if c = 1 then st.triangles_dist
  else if c = 2 then st.cubes_dist else 0

/-- The shadow ray that `cast_ray` casts from the hit `point` with normal `N`
toward the light `l` (raytracing.cpp:96-103). -/
def shadow_ray (E : Env α) (point N : Vec3f α) (l : Light α) : Ray α :=
  Ray.make (offset_orig ((l.position.sub point).normalize E.sqrtf) point N)
    ((l.position.sub point).normalize E.sqrtf)

end SceneNotions

/-! ## Auxiliary notions used to state the properties of `reflect` and `refract` -/

section RefractNotions

variable {α : Type} [LinearOrderedField α]

/-- The component of `v` tangential to the plane with normal `N`:
`v - N * (v * N)`. -/
def tangential (v N : Vec3f α) : Vec3f α := v.sub (N.scale (v.dot N))

/-- The non-recursive part of `refract` (raytracing.cpp:28, 31-34): the value
returned when the test `cosi < 0` fails. -/
def refract_body (sqrtf : α → α) (I N : Vec3f α) (eta_t eta_i : α) : Vec3f α :=
  let cosi := -(max (-1) (min 1 (I.dot N)))
  let eta := eta_i / eta_t
  let k := 1 - eta * eta * (1 - cosi * cosi)
  if k < 0 then ⟨1, 0, 0⟩ else (I.scale eta).add (N.scale (eta * cosi - sqrtf k))

/-- The discriminant `k = 1 - eta * eta * (1 - cosi * cosi)` that `refract`
computes for the arguments `I`, `N`, `eta_t`, `eta_i` (raytracing.cpp:28-32). -/
def refract_k (I N : Vec3f α) (eta_t eta_i : α) : α :=
  let cosi := -(max (-1) (min 1 (I.dot N)))
  let eta := eta_i / eta_t
  1 - eta * eta * (1 - cosi * cosi)

/-- The number of nested recursive calls that `refract` makes on `I`, `N`
(raytracing.cpp:29-30). -/
def refract_calls (I N : Vec3f α) : Nat :=
  let cosi := -(max (-1) (min 1 (I.dot N)))
  if cosi < 0 then refract_calls I N.neg + 1 else 0
termination_by (if 0 < I.dot N then 1 else 0 : Nat)
decreasing_by
  rename_i hc
  have hc2 : -(max (-1) (min 1 (I.dot N))) < 0 := hc
  have h1 : 0 < I.dot N := by
    by_contra hn
    have hle : I.dot N ≤ 0 := not_lt.mp hn
    have h2 : min 1 (I.dot N) ≤ 0 := le_trans (min_le_right _ _) hle
    have h3 : max (-1) (min 1 (I.dot N)) ≤ 0 := max_le (by norm_num) h2
    linarith
  have h4 : I.dot N.neg = -(I.dot N) := by
    simp only [Vec3f.dot, Vec3f.neg]; ring
  have h5 : ¬ (0 < I.dot N.neg) := by rw [h4]; linarith
  simp [h1, h5]

/-- The normal turned toward the incoming ray: `-N` when `I * N > 0` (the ray
comes from inside), `N` otherwise. -/
def facing_normal (I N : Vec3f α) : Vec3f α := if 0 < I.dot N then N.neg else N

/-- The ratio `eta = eta_i / eta_t` after the inside/outside normalisation: the
two indices are swapped when `I * N > 0`. -/
def relative_index (I N : Vec3f α) (eta_t eta_i : α) : α :=
  if 0 < I.dot N then eta_t / eta_i else eta_i / eta_t

/-- Snell's discriminant `1 - eta^2 (1 - cos_i^2)` with `cos_i = -(I * N')` for
the facing normal `N'` and the normalised ratio `eta`. -/
def snell_k (I N : Vec3f α) (eta_t eta_i : α) : α :=
  1 - relative_index I N eta_t eta_i * relative_index I N eta_t eta_i
    * (1 - I.dot (facing_normal I N) * I.dot (facing_normal I N))

end RefractNotions

/-! ## Auxiliary notions used to state the horizon test of `scene_intersect` -/

section HorizonNotions

variable {α : Type} [LinearOrderedField α]

/-- The distance `d = -(orig.y + 4) / dir.y` at which a ray meets the
checkerboard plane `y = -4` (raytracing.cpp:57). -/
def plane_dist (ray : Ray α) : α := -(ray.orig.y + 4) / ray.dir.y

/-- The test under which `scene_intersect` accepts the checkerboard plane as
the hit (raytracing.cpp:56, 59), after the loop over `figures`. -/
def plane_accepted (E : Env α) (ray : Ray α) (figures : List (Figure α))
    (hit N : Vec3f α) (material : Material α) : Prop :=
  |ray.dir.y| > 1 / 1000 ∧ plane_dist ray > 0 ∧
    plane_dist ray < (scene_loop E ray figures hit N material).spheres_dist ∧
    plane_dist ray < (scene_loop E ray figures hit N material).triangles_dist

/-- The plane test is decidable. -/
instance plane_accepted_decidable (E : Env α) (ray : Ray α) (figures : List (Figure α))
    (hit N : Vec3f α) (material : Material α) :
    Decidable (plane_accepted E ray figures hit N material) := by
  unfold plane_accepted
  infer_instance

/-- The hit distances of all candidates of `scene_intersect`: every primitive
that reports a hit, in list order, followed by the plane when it is accepted. -/
def candidates (E : Env α) (ray : Ray α) (figures : List (Figure α))
    (hit N : Vec3f α) (material : Material α) : List α :=
  figures.filterMap (fun p => p.ray_intersect E.sqrtf ray) ++
    (if plane_accepted E ray figures hit N material then [plane_dist ray] else [])

end HorizonNotions

/-! ## The renderer: row partition and tone mapping -/

section Render

/-- The partition loop of `render` (raytracing.cpp:238): the list of the
`(start, finish)` pairs captured by the tasks, from the loop state
`start, finish, index`.  The step is `++index, start = finish,
finish = index == amount_of_threads - 1 ? height : finish + portion`. -/
def partition_loop (amount_of_threads height portion : Nat) (start finish index : Nat) :
    List (Nat × Nat) :=
  if index < amount_of_threads then
    (start, finish) :: partition_loop amount_of_threads height portion finish
      (if index + 1 = amount_of_threads - 1 then height else finish + portion) (index + 1)
  else []
termination_by amount_of_threads - index

/-- The row ranges `[start, finish)` that `render` hands to its workers
(raytracing.cpp:237-238). -/
def row_ranges (amount_of_threads height : Nat) : List (Nat × Nat) :=
  partition_loop amount_of_threads height (height / amount_of_threads) 0
    (height / amount_of_threads) 0

/-- The framebuffer indices `i + j * width` written by the worker of the row
range `r`, in the order of its two loops (raytracing.cpp:240-246). -/
def worker_writes (width : Nat) (r : Nat × Nat) : List Nat :=
  (List.range' r.1 (r.2 - r.1)).flatMap (fun j => (List.range width).map (fun i => i + j * width))

end Render

section ToneMapping

variable {α : Type} [LinearOrderedField α]

/-- The tone mapping of one framebuffer colour in `render`
(raytracing.cpp:259-260). -/
def tone_map (c : Vec3f α) : Vec3f α :=
  let max := max c.x (max c.y c.z)
  if max > 1 then c.scale (1 / max) else c

/-- The quantisation `(char) (255 * max(0, min(1, x)))` of one channel
(raytracing.cpp:262); the byte written is the truncated value as an integer. -/
def quantise [FloorRing α] (x : α) : Int := toInt (255 * max 0 (min 1 x))

end ToneMapping

/-! ## The per-pixel work of `render`: `anti_aliasing` -/

section AntiAliasing
variable {α : Type} [LinearOrderedField α]

/-- Modelled from the spec: division of a vector by a scalar (`operator/` of the
missing `geometry.h`, used to average the five samples), componentwise. -/
def Vec3f.div (a : Vec3f α) (f : α) : Vec3f α := ⟨a.x / f, a.y / f, a.z / f⟩

/-- The direction of the `k`-th sample of `anti_aliasing` before normalisation
(the `switch (k % 5)` of raytracing.cpp:207-223). -/
def aa_dir (k : Nat) (dir_x dir_y dir_z : α) : Vec3f α :=
  match k % 5 with
  | 0 => ⟨dir_x, dir_y, dir_z⟩
  | 1 => ⟨dir_x + 1 / 2, dir_y, dir_z⟩
  | 2 => ⟨dir_x, dir_y + 1 / 2, dir_z⟩
  | 3 => ⟨dir_x, dir_y, dir_z + 1 / 2⟩
  | _ => ⟨dir_x, dir_y, dir_z - 1 / 2⟩

/-- The ray of the `k`-th sample of `anti_aliasing`:
`Ray(Vec3f(0, 0, 0), Vec3f(...).normalize())`. -/
def aa_ray (E : Env α) (k : Nat) (dir_x dir_y dir_z : α) : Ray α :=
  Ray.make ⟨0, 0, 0⟩ ((aa_dir k dir_x dir_y dir_z).normalize E.sqrtf)

/-- The accumulation of `anti_aliasing` (raytracing.cpp:205-225) for a given
vector sum `add`, division by five `div`, zero vector and colour `sample k` of
the `k`-th sample: `anti_alias = anti_alias + sample k` for `k = 0, ..., 4`,
then `anti_alias / 5`. -/
def anti_aliasing_sum {β : Type} (add : β → β → β) (div : β → β) (zero : β)
    (sample : Nat → β) : β :=
  div ((List.range 5).foldl (fun anti_alias k => add anti_alias (sample k)) zero)

/-- `anti_aliasing` (raytracing.cpp:202-226) in exact arithmetic.  `cast_ray`
is called without a depth; the default argument of the missing header is
modelled from the spec as depth 0. -/
def anti_aliasing [FloorRing α] (E : Env α) (dir_x dir_y dir_z : α)
    (figures : List (Figure α)) (lights : List (Light α)) : Vec3f α :=
  anti_aliasing_sum Vec3f.add (fun anti_alias => anti_alias.div 5) ⟨0, 0, 0⟩
    (fun k => cast_ray E (aa_ray E k dir_x dir_y dir_z) figures lights 0)

/-- The direction `(dir_x, dir_y, dir_z)` that a worker of `render` computes
for the pixel `(i, j)` (raytracing.cpp:231-233, 242-244), with the library
function `tan` and the constant `M_PI` as parameters. -/
def pixel_dir (tanf : α → α) (M_PI : α) (i j : Nat) : Vec3f α :=
  let width : α := 1920
  let height : α := 1080
  let fov : α := M_PI / 3
  let dir_x := ((i : α) + 1 / 2) - width / 2
  let dir_y := -((j : α) + 1 / 2) + height / 2
  let dir_z := -height / (2 * tanf (fov / 2))
  ⟨dir_x, dir_y, dir_z⟩

/-- The colour that a worker of `render` stores in `framebuffer[i + j * width]`
(raytracing.cpp:245). -/
def render_pixel [FloorRing α] (E : Env α) (tanf : α → α) (M_PI : α) (i j : Nat)
    (figures : List (Figure α)) (lights : List (Light α)) : Vec3f α :=
  anti_aliasing E (pixel_dir tanf M_PI i j).x (pixel_dir tanf M_PI i j).y
    (pixel_dir tanf M_PI i j).z figures lights

end AntiAliasing

/-! ## IEEE 754 binary32 arithmetic

Every finite binary32 number is an integer multiple of `2^-149`; it is
represented here by that integer.  Each operation computes the exact result and
rounds it to the nearest binary32 number, ties to even.  Overflow to infinity
is not modelled: the evaluations below stay far inside the finite range. -/

section Binary32

/-- The quotient `n / d` rounded to the nearest integer, ties to the even one. -/
def rne (n d : Nat) : Nat :=
  if 2 * (n % d) < d then n / d
  else if d < 2 * (n % d) then n / d + 1
  else if (n / d) % 2 = 0 then n / d else n / d + 1

/-- The position of the leading bit of `n` (0 for `n < 2`), by at most `fuel`
halvings. -/
def bit_pos : Nat → Nat → Nat
  | 0, _ => 0
  | fuel + 1, n => if n < 2 then 0 else bit_pos fuel (n / 2) + 1

/-- Rounding to binary32 of the non-negative rational `n / d`, both it and the
result counted in units of `2^-149`: a quotient below `2^24` units (a subnormal
number or one of the lowest binade) is rounded to a whole number of units, a
larger one to 24 significant bits. -/
def round32_nat (n d : Nat) : Nat :=
  rne n (d * 2 ^ (bit_pos 1024 (n / d) - 23)) * 2 ^ (bit_pos 1024 (n / d) - 23)

/-- Rounding to binary32 of the rational `p / d` (in units of `2^-149`), to
nearest, ties to even. -/
def round32 (p : Int) (d : Nat) : Int :=
  if p < 0 then -(round32_nat p.natAbs d : Int) else (round32_nat p.natAbs d : Int)

/-- A finite binary32 number (`float`), stored as its value in units of
`2^-149`. -/
structure F32 where
  units : Int
deriving DecidableEq

/-- The `float` nearest to the rational `p / q`, as a literal `p / q` of the source is read. -/
def F32.ofRat (p : Int) (q : Nat) : F32 := ⟨round32 (p * 2 ^ 149) q⟩

/-- The `float` of a whole number. -/
def F32.ofInt (n : Int) : F32 := F32.ofRat n 1

/-- The sum `a + b` in binary32. -/
def F32.add (a b : F32) : F32 := ⟨round32 (a.units + b.units) 1⟩

/-- The difference `a - b` in binary32. -/
def F32.sub (a b : F32) : F32 := ⟨round32 (a.units - b.units) 1⟩

/-- The product `a * b` in binary32. -/
def F32.mul (a b : F32) : F32 := ⟨round32 (a.units * b.units) (2 ^ 149)⟩

/-- The quotient `a / b` in binary32, for `b ≠ 0`. -/
def F32.div (a b : F32) : F32 :=
  if b.units < 0 then ⟨round32 (-(a.units * 2 ^ 149)) b.units.natAbs⟩
  else ⟨round32 (a.units * 2 ^ 149) b.units.natAbs⟩

/-- The comparison `a < b` of two `float`s. -/
def F32.lt (a b : F32) : Prop := a.units < b.units

instance F32.instLT : LT F32 := ⟨F32.lt⟩

instance F32.decidableLT (a b : F32) : Decidable (a < b) :=
  inferInstanceAs (Decidable (a.units < b.units))

/-- Componentwise difference `a - b` in binary32. -/
def Vec3f.sub32 (a b : Vec3f F32) : Vec3f F32 := ⟨a.x.sub b.x, a.y.sub b.y, a.z.sub b.z⟩

/-- Componentwise sum `a + b` in binary32. -/
def Vec3f.add32 (a b : Vec3f F32) : Vec3f F32 := ⟨a.x.add b.x, a.y.add b.y, a.z.add b.z⟩

/-- Componentwise quotient `a / f` in binary32. -/
def Vec3f.div32 (a : Vec3f F32) (f : F32) : Vec3f F32 := ⟨a.x.div f, a.y.div f, a.z.div f⟩

/-- Cross product `cross(a, b)` in binary32. -/
def cross32 (a b : Vec3f F32) : Vec3f F32 :=
  ⟨(a.y.mul b.z).sub (a.z.mul b.y), (a.z.mul b.x).sub (a.x.mul b.z),
    (a.x.mul b.y).sub (a.y.mul b.x)⟩

/-- Modelled from the spec: the dot product `a * b` of the missing `geometry.h`
in binary32.  The order in which the three products are added is not fixed by
the source: they are added from `z` down to `x` onto `0` when `zfirst`, and
from `x` up to `z` otherwise. -/
def dot32 (zfirst : Bool) (a b : Vec3f F32) : F32 :=
  if zfirst then (((F32.ofInt 0).add (a.z.mul b.z)).add (a.y.mul b.y)).add (a.x.mul b.x)
  else ((a.x.mul b.x).add (a.y.mul b.y)).add (a.z.mul b.z)

/-- The constant `EPSILON = 0.0000001` as a `float`. -/
def EPSILON32 : F32 := F32.ofRat 1 10000000

/-- `Triangle::ray_intersect` (raytracing.cpp:167-198) evaluated in binary32:
the same statements as `Triangle.ray_intersect` with every operation rounded. -/
def Triangle.ray_intersect32 (zfirst : Bool) (tr : Triangle F32) (orig dir : Vec3f F32) :
    Option F32 :=
  let vertex0 := tr.p0
  let vertex1 := tr.p1
  let vertex2 := tr.p2
  let edge1 := vertex1.sub32 vertex0
  let edge2 := vertex2.sub32 vertex0
  let h := cross32 dir edge2
  let a := dot32 zfirst edge1 h
  if a > (F32.ofInt 0).sub EPSILON32 ∧ a < EPSILON32 then none
  else
    let f := (F32.ofInt 1).div a
    let s := orig.sub32 vertex0
    let u := f.mul (dot32 zfirst s h)
    if u < F32.ofInt 0 ∨ u > F32.ofInt 1 then none
    else
      let q := cross32 s edge1
      let v := f.mul (dot32 zfirst dir q)
      if v < F32.ofInt 0 ∨ u.add v > F32.ofInt 1 then none
      else
        let t := f.mul (dot32 zfirst edge2 q)
        if t > EPSILON32 then some t else none

/-- The background colour `Vec3f(0, float(127.0 / 255), float(255.0 / 255))` of
`cast_ray` as `float`s. -/
def background32 : Vec3f F32 := ⟨F32.ofInt 0, F32.ofRat 127 255, F32.ofRat 255 255⟩

/-- The accumulation of `anti_aliasing` (raytracing.cpp:205-225) in binary32,
for the colours `sample k` that `cast_ray` returns for the five samples. -/
def anti_aliasing32 (sample : Nat → Vec3f F32) : Vec3f F32 :=
  anti_aliasing_sum Vec3f.add32 (fun anti_alias => anti_alias.div32 (F32.ofInt 5))
    ⟨F32.ofInt 0, F32.ofInt 0, F32.ofInt 0⟩ sample

end Binary32

/-! ## Concrete data used to evaluate the definitions -/

section Examples

variable {α : Type} [LinearOrderedField α]

/-- Modelled from the spec: the outward surface normal resolved by
`SetNeededNormHitMaterial` of the missing `raytracing.h`: for a sphere the
normalised vector from the centre to the hit point, for a triangle the
normalised cross product of its edges, for a cube the axis direction of the
face that contains the hit point. -/
def outward_normal (sqrtf : α → α) (p : Figure α) (ray : Ray α) (dist : α) : Vec3f α :=
  let hit := ray.orig.add (ray.dir.scale dist)
  match p with
  | Figure.sphere s => (hit.sub s.center).normalize sqrtf
  | Figure.triangle t => (cross (t.p1.sub t.p0) (t.p2.sub t.p0)).normalize sqrtf
  | Figure.cube c =>
    if hit.x = c.bounds0.x then ⟨-1, 0, 0⟩
    else if hit.x = c.bounds1.x then ⟨1, 0, 0⟩
    else if hit.y = c.bounds0.y then ⟨0, -1, 0⟩
    else if hit.y = c.bounds1.y then ⟨0, 1, 0⟩
    else if hit.z = c.bounds0.z then ⟨0, 0, -1⟩
    else ⟨0, 0, 1⟩

/-- Modelled from the spec: a default-constructed `Material` (zero colour and
exponent, albedo `(1, 0, 0, 0)`, refractive index 1). -/
def plain : Material α := ⟨⟨0, 0, 0⟩, ⟨1, 0, 0, 0⟩, 0, 1⟩

/-- A matte material. -/
def matte : Material α := ⟨⟨4 / 10, 4 / 10, 3 / 10⟩, ⟨1, 0, 0, 0⟩, 50, 1⟩

/-- A second matte material, to tell two primitives apart. -/
def clay : Material α := ⟨⟨3 / 10, 1 / 10, 1 / 10⟩, ⟨1, 0, 0, 0⟩, 10, 1⟩

/-- The evaluation environment for given `sqrtf` and `powf`: outward normals,
zero default vector, default material. -/
def envOf (sqrtf : α → α) (powf : α → α → α) : Env α :=
  { sqrtf := sqrtf
    powf := powf
    normal := outward_normal sqrtf
    vec_default := ⟨0, 0, 0⟩
    material_default := plain }

/-- The ray from the origin straight up, which meets neither primitive nor plane. -/
def rayUp : Ray α := Ray.make ⟨0, 0, 0⟩ ⟨0, 1, 0⟩

/-- The ray from the origin along the negative z axis. -/
def rayZ : Ray α := Ray.make ⟨0, 0, 0⟩ ⟨0, 0, -1⟩

/-- The unit sphere centred at `(0, 0, -5)`. -/
def sphereZ : Sphere α := ⟨⟨0, 0, -5⟩, 1, matte⟩

/-- An axis-aligned box around the point `(1, -3/2, -3)`. -/
def cubeA : Cube α := ⟨⟨1 / 2, -2, -7 / 2⟩, ⟨3 / 2, -1, -5 / 2⟩, clay⟩

/-- The unit box `[0, 1]^3`. -/
def cubeU : Cube α := ⟨⟨0, 0, 0⟩, ⟨1, 1, 1⟩, clay⟩

/-- The ray along the z axis through the centre of `cubeU`, from outside. -/
def rayAxis : Ray α := Ray.make ⟨1 / 2, 1 / 2, -2⟩ ⟨0, 0, 1⟩

/-- A ray along the z axis in the plane `x = 1` of a face of `cubeU`, at height
`y = 5`: it passes the box at distance 4 from it and never meets it. -/
def rayFace : Ray α := Ray.make ⟨1, 5, -2⟩ ⟨0, 0, 1⟩

/-- The sibling of `rayFace` in the plane `y = 1` of a face of `cubeU`, at
`x = 5`: it never meets the box either. -/
def rayFaceY : Ray α := Ray.make ⟨5, 1, -2⟩ ⟨0, 0, 1⟩

/-- A ray along the z axis in the plane `x = 0` of a face of `cubeU` that starts
beyond the box and leads away from it. -/
def rayBehind : Ray α := Ray.make ⟨0, 1 / 2, 2⟩ ⟨0, 0, 1⟩

/-- A ray from the origin with unit direction `(2/7, -3/7, -6/7)`, which passes
through `cubeA` and then meets the plane `y = -4`. -/
def rayA : Ray α := Ray.make ⟨0, 0, 0⟩ ⟨2 / 7, -3 / 7, -6 / 7⟩

/-- A triangle in the plane `z = -10` that contains the point `(0, 0, -10)`. -/
def triZ : Triangle α := ⟨⟨-1, -1, -10⟩, ⟨1, -1, -10⟩, ⟨0, 1, -10⟩, clay⟩

/-- A non-degenerate triangle with legs of length `1/10000`. -/
def tinyTri : Triangle α := ⟨⟨0, 0, 0⟩, ⟨1 / 10000, 0, 0⟩, ⟨0, 1 / 10000, 0⟩, clay⟩

/-- The ray from one unit above the centroid of `tinyTri` straight down at it. -/
def rayTiny : Ray α := Ray.make ⟨1 / 30000, 1 / 30000, 1⟩ ⟨0, 0, -1⟩

/-- A triangle with legs of length 3 and centroid `(1, 1, 0)`. -/
def bigTri : Triangle α := ⟨⟨0, 0, 0⟩, ⟨3, 0, 0⟩, ⟨0, 3, 0⟩, clay⟩

/-- The ray from `1e-8` above the centroid of `bigTri` straight down at it. -/
def rayNear : Ray α := Ray.make ⟨1, 1, 1 / 100000000⟩ ⟨0, 0, -1⟩

/-- A point of the checkerboard plane `y = -4`. -/
def pointP : Vec3f α := ⟨0, -4, 0⟩

/-- The upward normal of the checkerboard plane. -/
def normalUp : Vec3f α := ⟨0, 1, 0⟩

/-- A primary ray with unit direction `(-3/5, -4/5, 0)` that reaches the plane at `pointP`. -/
def rayDown : Ray α := Ray.make ⟨3, 0, 0⟩ ⟨-3 / 5, -4 / 5, 0⟩

/-- The shadow ray from the offset point `pointP + normalUp * 1e-3` straight up. -/
def rayShadow : Ray α := Ray.make ⟨0, -3999 / 1000, 0⟩ ⟨0, 1, 0⟩

/-- A light 10 units above `pointP`. -/
def lightNear : Light α := ⟨⟨0, 6, 0⟩, 1⟩

/-- A light 3000 units above `pointP`. -/
def lightFar : Light α := ⟨⟨0, 2996, 0⟩, 1⟩

/-- A unit sphere between `pointP` and `lightNear`, 5 units above the origin of `rayShadow`. -/
def sphereY : Sphere α := ⟨⟨0, 1001 / 1000, 0⟩, 1, matte⟩

/-- A unit sphere between `pointP` and `lightFar`, 2000 units above the origin of `rayShadow`. -/
def sphereFar : Sphere α := ⟨⟨0, 1996001 / 1000, 0⟩, 1, matte⟩

/-- A horizontal triangle beyond `lightNear`, 50 units above the origin of `rayShadow`. -/
def triFar : Triangle α :=
  ⟨⟨-1, 46001 / 1000, -1⟩, ⟨1, 46001 / 1000, -1⟩, ⟨0, 46001 / 1000, 1⟩, clay⟩

/-- A ray from the origin with unit direction `(3/7, -6/7, -2/7)`; it meets the
plane `y = -4` at `(2, -4, -4/3)`. -/
def rayBack : Ray α := Ray.make ⟨0, 0, 0⟩ ⟨3 / 7, -6 / 7, -2 / 7⟩

/-- A ray from the origin with unit direction `(3/7, -6/7, 2/7)`; it meets the
plane `y = -4` at `(2, -4, 4/3)`. -/
def rayFront : Ray α := Ray.make ⟨0, 0, 0⟩ ⟨3 / 7, -6 / 7, 2 / 7⟩

/-- The ray from the origin straight down. -/
def rayDownY : Ray α := Ray.make ⟨0, 0, 0⟩ ⟨0, -1, 0⟩

/-- A mirror material. -/
def mirror : Material α := ⟨⟨1, 1, 1⟩, ⟨0, 10, 8 / 10, 0⟩, 1425, 1⟩

/-- A mirror sphere below the plane `y = -4`, straight under the origin. -/
def sphereBelow : Sphere α := ⟨⟨0, -10, 0⟩, 1, mirror⟩

/-- The sphere of the end-to-end scene: centre `(0, 0, -10)`, radius 2, matte. -/
def sphereE2E : Sphere α := ⟨⟨0, 0, -10⟩, 2, matte⟩

/-- The light of the end-to-end scene: position `(-20, 20, 20)`, intensity 1.5. -/
def lightE2E : Light α := ⟨⟨-20, 20, 20⟩, 3 / 2⟩

/-- A vertical triangle in the plane `x = 1`, facing the positive x axis. -/
def triWall : Triangle α := ⟨⟨1, -1, -1⟩, ⟨1, 2, -1⟩, ⟨1, -1, 2⟩, matte⟩

/-- The box `[2, 5] x [-2, -1] x [0, 2]`, between `pointW` and `lightLow`. -/
def cubeB : Cube α := ⟨⟨2, -2, 0⟩, ⟨5, -1, 2⟩, clay⟩

/-- The ray from `(5, 0, 0)` along the negative x axis, which hits `triWall`
at `pointW`. -/
def rayWall : Ray α := Ray.make ⟨5, 0, 0⟩ ⟨-1, 0, 0⟩

/-- The point `(1, 0, 0)` of `triWall`. -/
def pointW : Vec3f α := ⟨1, 0, 0⟩

/-- The normal `(1, 0, 0)` of `triWall`. -/
def normalX : Vec3f α := ⟨1, 0, 0⟩

/-- A light at `(7, -3, 2)`, at distance 7 from `pointW` and above the plane
`y = -4`, of intensity 1. -/
def lightLow : Light α := ⟨⟨7, -3, 2⟩, 1⟩

/-- The shadow ray from `pointW` toward `lightLow`. -/
def rayLow : Ray α := Ray.make ⟨1001 / 1000, 0, 0⟩ ⟨6 / 7, -3 / 7, 2 / 7⟩

/-- A triangle with integer vertices, all of them binary32 numbers. -/
def triInt : Triangle α := ⟨⟨0, 0, 0⟩, ⟨2503, -3965, 2082⟩, ⟨4309, -1347, 2890⟩, matte⟩

/-- A ray in the plane of `triInt`: its origin is the point
`(1703, -1328, 1243) = (p1 + p2) / 4` and its direction is the edge `p1 - p0`. -/
def rayInt : Ray α := Ray.make ⟨1703, -1328, 1243⟩ ⟨2503, -3965, 2082⟩

/-- A material of `float` zeros (the material plays no part in the test). -/
def material32 : Material F32 :=
  ⟨⟨F32.ofInt 0, F32.ofInt 0, F32.ofInt 0⟩, ⟨F32.ofInt 0, F32.ofInt 0, F32.ofInt 0, F32.ofInt 0⟩,
    F32.ofInt 0, F32.ofInt 0⟩

/-- The triangle `triInt` as `float`s. -/
def triInt32 : Triangle F32 :=
  ⟨⟨F32.ofInt 0, F32.ofInt 0, F32.ofInt 0⟩, ⟨F32.ofInt 2503, F32.ofInt (-3965), F32.ofInt 2082⟩,
    ⟨F32.ofInt 4309, F32.ofInt (-1347), F32.ofInt 2890⟩, material32⟩

/-- The origin of `rayInt` as `float`s. -/
def origInt32 : Vec3f F32 := ⟨F32.ofInt 1703, F32.ofInt (-1328), F32.ofInt 1243⟩

/-- A direction of length 1 up to rounding (the squared length is
`1 - 2.7e-8`), as `normalize()` returns them. -/
def dirUnit32 : Vec3f F32 :=
  ⟨F32.ofRat 12195843 33554432, F32.ofRat (-6700721) 8388608, F32.ofRat 16086227 33554432⟩

/-- A triangle with `p0 = 0`, `p1 = 4 * dirUnit32` and `p2 = (-1/2, -11/4, -1)`. -/
def triUnit32 : Triangle F32 :=
  ⟨⟨F32.ofInt 0, F32.ofInt 0, F32.ofInt 0⟩,
    ⟨F32.ofRat 12195843 8388608, F32.ofRat (-6700721) 2097152, F32.ofRat 16086227 8388608⟩,
    ⟨F32.ofRat (-1) 2, F32.ofRat (-11) 4, F32.ofInt (-1)⟩, material32⟩

/-- The point `p1 / 2 + p2 / 4` of the plane of `triUnit32`, a triple of
binary32 numbers. -/
def origUnit32 : Vec3f F32 :=
  ⟨F32.ofRat 10098691 16777216, F32.ofRat (-9584305) 4194304, F32.ofRat 11891923 16777216⟩

end Examples

/-! ## Theorems -/

section CastRay

variable {α : Type} [LinearOrderedField α] [FloorRing α]

theorem castRayCall_depth (E : Env α) (figures : List (Figure α)) (p c : Ray α × Nat)
    (h : CastRayCall E figures p c) : c.2 = p.2 + 1 ∧ p.2 ≤ 4 := by
  unfold CastRayCall cast_ray_calls at h
  by_cases hd : p.2 > 4
  · simp [hd] at h
  · simp only [hd, if_false] at h
    split at h
    · simp at h
    · simp only [List.mem_cons, List.mem_singleton, List.mem_nil_iff, or_false] at h
      rcases h with h | h <;> (subst h; exact ⟨rfl, by omega⟩)

theorem castRayCall_chain (E : Env α) (figures : List (Figure α)) :
    ∀ (l : List (Ray α × Nat)) (p : Ray α × Nat), List.Chain (CastRayCall E figures) p l →
      p.2 ≤ 5 → l.length + p.2 ≤ 5 ∧ ∀ q ∈ l, q.2 ≤ 5 := by
  intro l
  induction l with
  | nil => intro p _ hp; exact ⟨by simpa using hp, by simp⟩
  | cons c l ih =>
    intro p hch hp
    rw [List.chain_cons] at hch
    obtain ⟨hc1, hc2⟩ := castRayCall_depth E figures p c hch.1
    obtain ⟨h1, h2⟩ := ih c hch.2 (by omega)
    refine ⟨by simp only [List.length_cons]; omega, ?_⟩
    intro q hq
    rcases List.mem_cons.mp hq with h | h
    · subst h; omega
    · exact h2 q h

/-- C4: `cast_ray` called with any depth greater than 4 (in particular 5)
returns exactly the background colour `(0, 127/255, 1)` for every ray, primitive
list and light list, and for depth at most 4 it returns that colour whenever
`scene_intersect` reports no hit. -/
theorem cast_ray_background (E : Env α) (ray : Ray α) (figures : List (Figure α))
    (lights : List (Light α)) (depth : Nat)
    (h : 4 < depth ∨
      (scene_intersect E ray figures E.vec_default E.vec_default E.material_default).found
        = false) :
    cast_ray E ray figures lights depth = ⟨0, 127 / 255, 1⟩ := by
  have hb : (background : Vec3f α) = ⟨0, 127 / 255, 1⟩ := by
    simp [background]
  rw [cast_ray]
  by_cases hd : depth > 4
  · simp [hd, hb]
  · rcases h with h | h
    · exact absurd h hd
    · simp [hd, h, hb]

/-- Witness for C4 at depth 5 and at depth 0 with an empty scene and a ray
that misses the plane. -/
theorem cast_ray_background_witness :
    cast_ray (envOf Real.sqrt (fun x y => x ^ y)) rayUp [Figure.sphere sphereZ]
        [⟨⟨0, 9, 0⟩, 1⟩] 5 = ⟨0, 127 / 255, 1⟩ ∧
      cast_ray (envOf Real.sqrt (fun x y => x ^ y)) rayUp [] [⟨⟨0, 9, 0⟩, 1⟩] 0
        = ⟨0, 127 / 255, 1⟩ :=
  ⟨cast_ray_background _ rayUp _ _ 5 (Or.inl (by decide)),
   cast_ray_background _ rayUp [] _ 0 (Or.inr (by
      norm_num [scene_intersect, scene_loop, rayUp, Ray.make, FLT_MAX]))⟩

/-- The nested calls listed by `cast_ray_calls` are exactly the calls whose
results `cast_ray` combines: without calls it returns the background colour,
otherwise it shades the hit with the colours of its two calls. -/
theorem cast_ray_eq_calls (E : Env α) (ray : Ray α) (figures : List (Figure α))
    (lights : List (Light α)) (depth : Nat) :
    cast_ray E ray figures lights depth =
      match cast_ray_calls E figures (ray, depth) with
      | [a, b] =>
        shade E ray figures lights
          (scene_intersect E ray figures E.vec_default E.vec_default E.material_default)
          (cast_ray E a.1 figures lights a.2) (cast_ray E b.1 figures lights b.2)
      | _ => background := by
  rw [cast_ray]
  unfold cast_ray_calls
  by_cases hd : depth > 4
  · simp [hd]
  · by_cases hf : (scene_intersect E ray figures E.vec_default E.vec_default
        E.material_default).found = true
    · simp [hd, hf]
    · simp [hd, hf]

/-- C5: `cast_ray` terminates.  The function is total (defined by recursion on
the measure `5 - depth`); its call relation is well founded; every nested call
is made at `depth + 1` by an activation of depth at most 4, so the measure
`5 - depth` strictly decreases; every chain of nested calls below an
activation of depth 0 has at most 5 links, all at depth at most 5, whatever the
scene; and the calls of the relation are exactly the two whose colours
`cast_ray` combines. -/
theorem cast_ray_terminates (E : Env α) (figures : List (Figure α)) (ray : Ray α)
    (l : List (Ray α × Nat)) (hl : List.Chain (CastRayCall E figures) (ray, 0) l) :
    WellFounded (fun c p => CastRayCall E figures p c) ∧
      (∀ p c, CastRayCall E figures p c → c.2 = p.2 + 1 ∧ 5 - c.2 < 5 - p.2) ∧
      l.length ≤ 5 ∧ (∀ q ∈ l, q.2 ≤ 5) ∧
      (∀ (r : Ray α) (lights : List (Light α)) (depth : Nat),
        cast_ray E r figures lights depth =
          match cast_ray_calls E figures (r, depth) with
          | [a, b] =>
            shade E r figures lights
              (scene_intersect E r figures E.vec_default E.vec_default E.material_default)
              (cast_ray E a.1 figures lights a.2) (cast_ray E b.1 figures lights b.2)
          | _ => background) := by
  have hstep : ∀ p c, CastRayCall E figures p c → c.2 = p.2 + 1 ∧ 5 - c.2 < 5 - p.2 := by
    intro p c h
    obtain ⟨h1, h2⟩ := castRayCall_depth E figures p c h
    exact ⟨h1, by omega⟩
  refine ⟨?_, hstep, ?_, ?_, fun r lights depth => cast_ray_eq_calls E r figures lights depth⟩
  · refine Subrelation.wf ?_ (measure (fun p : Ray α × Nat => 5 - p.2)).wf
    intro c p h
    exact (hstep p c h).2
  · have := castRayCall_chain E figures l (ray, 0) hl (by simp)
    simpa using this.1
  · exact (castRayCall_chain E figures l (ray, 0) hl (by simp)).2

/-- Witness for C5: the primary ray along `-z` hits the unit sphere at
`(0, 0, -4)` and calls `cast_ray` on the reflected ray at depth 1. -/
theorem cast_ray_terminates_witness :
    List.Chain (CastRayCall (envOf Real.sqrt (fun x y => x ^ y)) [Figure.sphere sphereZ])
        ((rayZ : Ray ℝ), 0) [(Ray.make ⟨0, 0, -3999 / 1000⟩ ⟨0, 0, 1⟩, 1)] ∧
      [((Ray.make ⟨0, 0, -3999 / 1000⟩ ⟨0, 0, 1⟩ : Ray ℝ), 1)].length ≤ 5 :=
  have hc : List.Chain (CastRayCall (envOf Real.sqrt (fun x y => x ^ y)) [Figure.sphere sphereZ])
      ((rayZ : Ray ℝ), 0) [(Ray.make ⟨0, 0, -3999 / 1000⟩ ⟨0, 0, 1⟩, 1)] := by
    refine List.Chain.cons ?_ List.Chain.nil
    norm_num [CastRayCall, cast_ray_calls, scene_intersect, scene_loop, scene_step,
      Figure.ray_intersect, Sphere.ray_intersect, sphereZ, rayZ, Ray.make, Vec3f.sub,
      Vec3f.dot, envOf, outward_normal, FLT_MAX, Figure.NeededDist, Figure.setNeededDist,
      Figure.SetNeededNormHitMaterial, reflect_ray, reflect, Vec3f.normalize, Vec3f.norm,
      Vec3f.scale, Vec3f.add, offset_orig]
  ⟨hc, (cast_ray_terminates _ _ _ _ hc).2.2.1⟩

end CastRay

section SphereTheorems


theorem dot_self_nonneg (v : Vec3f ℝ) : 0 ≤ v.dot v := by
  simp only [Vec3f.dot]
  nlinarith [mul_self_nonneg v.x, mul_self_nonneg v.y, mul_self_nonneg v.z]

theorem sphere_dist_sq (s : Sphere ℝ) (ray : Ray ℝ) (t : ℝ) (hdir : ray.dir.dot ray.dir = 1) :
    ((ray.point_at t).sub s.center).dot ((ray.point_at t).sub s.center)
      = (t - (s.center.sub ray.orig).dot ray.dir) ^ 2
        + ((s.center.sub ray.orig).dot (s.center.sub ray.orig)
            - (s.center.sub ray.orig).dot ray.dir * (s.center.sub ray.orig).dot ray.dir) := by
  simp only [Vec3f.dot, Vec3f.sub, Vec3f.add, Vec3f.scale, Ray.point_at] at hdir ⊢
  linear_combination (t ^ 2) * hdir

theorem norm_eq_iff (v : Vec3f ℝ) (r : ℝ) (hr : 0 ≤ r) :
    v.norm Real.sqrt = r ↔ v.dot v = r * r := by
  unfold Vec3f.norm
  constructor
  · intro h
    rw [← h]
    exact (Real.mul_self_sqrt (dot_self_nonneg v)).symm
  · intro h
    rw [h]
    exact Real.sqrt_mul_self hr

/-- The code of `Sphere::ray_intersect` as a case table over the two roots. -/
theorem sphere_ray_intersect_cases (s : Sphere ℝ) (ray : Ray ℝ) :
    s.ray_intersect Real.sqrt ray =
      if (s.center.sub ray.orig).dot (s.center.sub ray.orig)
          - (s.center.sub ray.orig).dot ray.dir * (s.center.sub ray.orig).dot ray.dir
          > s.radius * s.radius then none
      else if 0 ≤ (s.center.sub ray.orig).dot ray.dir
          - Real.sqrt (s.radius * s.radius
            - ((s.center.sub ray.orig).dot (s.center.sub ray.orig)
              - (s.center.sub ray.orig).dot ray.dir * (s.center.sub ray.orig).dot ray.dir))
        then some ((s.center.sub ray.orig).dot ray.dir
          - Real.sqrt (s.radius * s.radius
            - ((s.center.sub ray.orig).dot (s.center.sub ray.orig)
              - (s.center.sub ray.orig).dot ray.dir * (s.center.sub ray.orig).dot ray.dir)))
      else if (s.center.sub ray.orig).dot ray.dir
          + Real.sqrt (s.radius * s.radius
            - ((s.center.sub ray.orig).dot (s.center.sub ray.orig)
              - (s.center.sub ray.orig).dot ray.dir * (s.center.sub ray.orig).dot ray.dir)) < 0
        then none
      else some ((s.center.sub ray.orig).dot ray.dir
          + Real.sqrt (s.radius * s.radius
            - ((s.center.sub ray.orig).dot (s.center.sub ray.orig)
              - (s.center.sub ray.orig).dot ray.dir * (s.center.sub ray.orig).dot ray.dir))) := by
  unfold Sphere.ray_intersect
  simp only
  split_ifs <;> first | rfl | (exfalso; linarith)


theorem quadratic_root_cases (t T thc d2 r : ℝ) (h : (t - T) ^ 2 + d2 = r * r)
    (hth : thc * thc = r * r - d2) : t = T - thc ∨ t = T + thc := by
  have h0 : (t - (T + thc)) * (t - (T - thc)) = 0 := by
    linear_combination h - hth
  rcases mul_eq_zero.mp h0 with h1 | h1
  · right; linarith
  · left; linarith

/-- The arithmetic core of `Sphere::ray_intersect`: the result as a function of
`tca = T`, `L * L = LL` and `radius = r`. -/
theorem sphere_roots (T LL r t0 : ℝ)
    (h : (if LL - T * T > r * r then none
      else if 0 ≤ T - Real.sqrt (r * r - (LL - T * T))
        then some (T - Real.sqrt (r * r - (LL - T * T)))
      else if T + Real.sqrt (r * r - (LL - T * T)) < 0 then none
      else some (T + Real.sqrt (r * r - (LL - T * T)))) = some t0) :
    0 ≤ t0 ∧ (t0 - T) ^ 2 + (LL - T * T) = r * r ∧
      (∀ t, 0 ≤ t → (t - T) ^ 2 + (LL - T * T) = r * r → t0 ≤ t) ∧
      (r * r < LL → ∀ t, (t - T) ^ 2 + (LL - T * T) = r * r → t0 ≤ t) ∧
      (LL < r * r → ∀ t, (t - T) ^ 2 + (LL - T * T) = r * r → t ≤ t0) := by
  have hs0 : 0 ≤ Real.sqrt (r * r - (LL - T * T)) := Real.sqrt_nonneg _
  by_cases h1 : LL - T * T > r * r
  · simp [h1] at h
  · have hs2 : Real.sqrt (r * r - (LL - T * T)) * Real.sqrt (r * r - (LL - T * T))
        = r * r - (LL - T * T) := Real.mul_self_sqrt (by linarith)
    rw [if_neg h1] at h
    by_cases h2 : 0 ≤ T - Real.sqrt (r * r - (LL - T * T))
    · rw [if_pos h2] at h
      have ht0 : T - Real.sqrt (r * r - (LL - T * T)) = t0 := Option.some.inj h
      refine ⟨by linarith, by rw [← ht0]; linear_combination hs2, ?_, ?_, ?_⟩
      · intro t _ ht
        rcases quadratic_root_cases t T _ _ r ht hs2 with h3 | h3 <;> linarith
      · intro _ t ht
        rcases quadratic_root_cases t T _ _ r ht hs2 with h3 | h3 <;> linarith
      · intro hin t ht
        exfalso
        nlinarith [mul_nonneg h2 (by linarith : (0:ℝ) ≤ T + Real.sqrt (r * r - (LL - T * T)))]
    · rw [if_neg h2] at h
      by_cases h3 : T + Real.sqrt (r * r - (LL - T * T)) < 0
      · simp [h3] at h
      · rw [if_neg h3] at h
        have ht0 : T + Real.sqrt (r * r - (LL - T * T)) = t0 := Option.some.inj h
        refine ⟨by linarith, by rw [← ht0]; linear_combination hs2, ?_, ?_, ?_⟩
        · intro t htn ht
          rcases quadratic_root_cases t T _ _ r ht hs2 with h4 | h4 <;> linarith
        · intro hout t ht
          exfalso
          nlinarith [mul_nonneg (by linarith : (0:ℝ) ≤ -(T - Real.sqrt (r * r - (LL - T * T))))
            (by linarith : (0:ℝ) ≤ T + Real.sqrt (r * r - (LL - T * T)))]
        · intro _ t ht
          rcases quadratic_root_cases t T _ _ r ht hs2 with h4 | h4 <;> linarith

theorem sphere_roots_none (T LL r : ℝ)
    (h : (if LL - T * T > r * r then none
      else if 0 ≤ T - Real.sqrt (r * r - (LL - T * T))
        then some (T - Real.sqrt (r * r - (LL - T * T)))
      else if T + Real.sqrt (r * r - (LL - T * T)) < 0 then none
      else some (T + Real.sqrt (r * r - (LL - T * T)))) = none) :
    ∀ t, 0 ≤ t → (t - T) ^ 2 + (LL - T * T) ≠ r * r := by
  intro t ht0 ht
  by_cases h1 : LL - T * T > r * r
  · nlinarith [sq_nonneg (t - T)]
  · have hs2 : Real.sqrt (r * r - (LL - T * T)) * Real.sqrt (r * r - (LL - T * T))
        = r * r - (LL - T * T) := Real.mul_self_sqrt (by linarith)
    have hs0 : 0 ≤ Real.sqrt (r * r - (LL - T * T)) := Real.sqrt_nonneg _
    rw [if_neg h1] at h
    by_cases h2 : 0 ≤ T - Real.sqrt (r * r - (LL - T * T))
    · simp [h2] at h
    · rw [if_neg h2] at h
      by_cases h3 : T + Real.sqrt (r * r - (LL - T * T)) < 0
      · rcases quadratic_root_cases t T _ _ r ht hs2 with h4 | h4 <;> linarith
      · simp [h3] at h

theorem sphere_on_iff (s : Sphere ℝ) (ray : Ray ℝ) (hr : 0 ≤ s.radius)
    (hdir : ray.dir.dot ray.dir = 1) (t : ℝ) :
    ((ray.point_at t).sub s.center).norm Real.sqrt = s.radius ↔
      (t - (s.center.sub ray.orig).dot ray.dir) ^ 2
        + ((s.center.sub ray.orig).dot (s.center.sub ray.orig)
            - (s.center.sub ray.orig).dot ray.dir * (s.center.sub ray.orig).dot ray.dir)
        = s.radius * s.radius := by
  rw [norm_eq_iff _ _ hr, sphere_dist_sq s ray t hdir]

theorem sphere_outside_iff (s : Sphere ℝ) (ray : Ray ℝ) (hr : 0 ≤ s.radius) :
    s.radius < (s.center.sub ray.orig).norm Real.sqrt ↔
      s.radius * s.radius < (s.center.sub ray.orig).dot (s.center.sub ray.orig) := by
  unfold Vec3f.norm
  rw [Real.lt_sqrt hr, sq]

theorem sphere_inside_iff (s : Sphere ℝ) (ray : Ray ℝ) (hr : 0 ≤ s.radius) :
    (s.center.sub ray.orig).norm Real.sqrt < s.radius ↔
      (s.center.sub ray.orig).dot (s.center.sub ray.orig) < s.radius * s.radius := by
  unfold Vec3f.norm
  rw [Real.sqrt_lt (dot_self_nonneg _) hr, sq]

/-- C6: over the reals, for a sphere of radius at least 0 and a ray of unit
direction, `Sphere::ray_intersect` returns true iff some `t >= 0` puts
`orig + t * dir` on the sphere; the reported `t0` is such a `t` and the smallest
one; it is the near root (smallest root on the whole line) when the origin is
outside and the far root (largest root) when the origin is inside; and it
returns false when the whole line stays farther than the radius from the
centre or when the closed ball lies entirely behind the origin. -/
theorem sphere_ray_intersect_correct (s : Sphere ℝ) (ray : Ray ℝ) (hr : 0 ≤ s.radius)
    (hdir : ray.dir.dot ray.dir = 1) :
    ((s.ray_intersect Real.sqrt ray).isSome ↔
        ∃ t, 0 ≤ t ∧ ((ray.point_at t).sub s.center).norm Real.sqrt = s.radius) ∧
      (∀ t0, s.ray_intersect Real.sqrt ray = some t0 →
        0 ≤ t0 ∧ ((ray.point_at t0).sub s.center).norm Real.sqrt = s.radius ∧
        (∀ t, 0 ≤ t → ((ray.point_at t).sub s.center).norm Real.sqrt = s.radius → t0 ≤ t) ∧
        (s.radius < (s.center.sub ray.orig).norm Real.sqrt →
          ∀ t, ((ray.point_at t).sub s.center).norm Real.sqrt = s.radius → t0 ≤ t) ∧
        ((s.center.sub ray.orig).norm Real.sqrt < s.radius →
          ∀ t, ((ray.point_at t).sub s.center).norm Real.sqrt = s.radius → t ≤ t0)) ∧
      ((∀ t, s.radius < ((ray.point_at t).sub s.center).norm Real.sqrt) →
        s.ray_intersect Real.sqrt ray = none) ∧
      ((∀ p : Vec3f ℝ, (p.sub s.center).norm Real.sqrt ≤ s.radius →
          (p.sub ray.orig).dot ray.dir < 0) →
        s.ray_intersect Real.sqrt ray = none) := by
  have hiff : (s.ray_intersect Real.sqrt ray).isSome ↔
        ∃ t, 0 ≤ t ∧ ((ray.point_at t).sub s.center).norm Real.sqrt = s.radius := by
    simp only [sphere_on_iff s ray hr hdir]
    cases hres : s.ray_intersect Real.sqrt ray with
    | none =>
      rw [sphere_ray_intersect_cases] at hres
      have := sphere_roots_none _ _ _ hres
      simp only [Option.isSome_none, Bool.false_eq_true, false_iff, not_exists, not_and]
      exact this
    | some t0 =>
      rw [sphere_ray_intersect_cases] at hres
      have := sphere_roots _ _ _ t0 hres
      simp only [Option.isSome_some, true_iff]
      exact ⟨t0, this.1, this.2.1⟩
  have hnone : (¬ ∃ t, 0 ≤ t ∧ ((ray.point_at t).sub s.center).norm Real.sqrt = s.radius) →
      s.ray_intersect Real.sqrt ray = none := by
    intro h
    rw [← hiff] at h
    simpa using h
  refine ⟨hiff, ?_, ?_, ?_⟩
  · intro t0 hres
    rw [sphere_ray_intersect_cases] at hres
    have := sphere_roots _ _ _ t0 hres
    simp only [sphere_on_iff s ray hr hdir, sphere_outside_iff s ray hr,
      sphere_inside_iff s ray hr]
    exact this
  · intro h
    apply hnone
    rintro ⟨t, _, ht⟩
    exact absurd ht (ne_of_gt (h t))
  · intro h
    apply hnone
    rintro ⟨t, ht0, ht⟩
    have h1 := h (ray.point_at t) (le_of_eq ht)
    have h2 : ((ray.point_at t).sub ray.orig).dot ray.dir = t := by
      simp only [Vec3f.dot, Vec3f.sub, Vec3f.add, Vec3f.scale, Ray.point_at] at hdir ⊢
      linear_combination t * hdir
    linarith

end SphereTheorems

section SphereCenter

/-- Witness for C6: the unit sphere at `(0, 0, -5)` and the ray from the origin
along `-z`. -/
theorem sphere_ray_intersect_correct_witness :
    (0 : ℝ) ≤ (sphereZ : Sphere ℝ).radius ∧ (rayZ : Ray ℝ).dir.dot rayZ.dir = 1 ∧
      ((sphereZ.ray_intersect Real.sqrt (rayZ : Ray ℝ)).isSome ↔
        ∃ t, 0 ≤ t ∧ ((rayZ.point_at t).sub sphereZ.center).norm Real.sqrt = sphereZ.radius) :=
  ⟨by norm_num [sphereZ], by norm_num [rayZ, Ray.make, Vec3f.dot],
   (sphere_ray_intersect_correct sphereZ rayZ (by norm_num [sphereZ])
      (by norm_num [rayZ, Ray.make, Vec3f.dot])).1⟩

/-- C7: for a sphere of radius `r > 0`, an origin strictly outside it and the
unit direction pointing from the origin exactly at the centre (the normalised
vector `center - orig`), `Sphere::ray_intersect` returns true with
`t0 = |center - orig| - r`. -/
theorem sphere_center_hit (s : Sphere ℝ) (ray : Ray ℝ) (hr : 0 < s.radius)
    (hout : s.radius < (s.center.sub ray.orig).norm Real.sqrt)
    (hdir : ray.dir = (s.center.sub ray.orig).normalize Real.sqrt) :
    s.ray_intersect Real.sqrt ray = some ((s.center.sub ray.orig).norm Real.sqrt - s.radius) := by
  have hLL : 0 ≤ (s.center.sub ray.orig).dot (s.center.sub ray.orig) := dot_self_nonneg _
  have hn : (s.center.sub ray.orig).norm Real.sqrt * (s.center.sub ray.orig).norm Real.sqrt
      = (s.center.sub ray.orig).dot (s.center.sub ray.orig) := Real.mul_self_sqrt hLL
  have hnpos : 0 < (s.center.sub ray.orig).norm Real.sqrt := lt_trans hr hout
  have htca : (s.center.sub ray.orig).dot ray.dir = (s.center.sub ray.orig).norm Real.sqrt := by
    rw [hdir]
    have h1 : (s.center.sub ray.orig).dot ((s.center.sub ray.orig).normalize Real.sqrt)
        = (s.center.sub ray.orig).dot (s.center.sub ray.orig)
          * (1 / (s.center.sub ray.orig).norm Real.sqrt) := by
      simp only [Vec3f.normalize, Vec3f.dot, Vec3f.scale]
      ring
    rw [h1, ← hn]
    field_simp
  rw [sphere_ray_intersect_cases, htca, hn]
  have hz : (s.center.sub ray.orig).dot (s.center.sub ray.orig)
      - (s.center.sub ray.orig).dot (s.center.sub ray.orig) = 0 := sub_self _
  rw [hz, sub_zero, Real.sqrt_mul_self hr.le]
  have h1 : ¬ ((0 : ℝ) > s.radius * s.radius) := by nlinarith
  have h2 : 0 ≤ (s.center.sub ray.orig).norm Real.sqrt - s.radius := by linarith
  rw [if_neg h1, if_pos h2]

/-- Witness for C7: the unit sphere at `(0, 0, -5)` seen from the origin. -/
theorem sphere_center_hit_witness :
    (sphereZ : Sphere ℝ).ray_intersect Real.sqrt
        (Ray.make ⟨0, 0, 0⟩ ((sphereZ.center.sub ⟨0, 0, 0⟩).normalize Real.sqrt))
      = some ((sphereZ.center.sub (⟨0, 0, 0⟩ : Vec3f ℝ)).norm Real.sqrt - sphereZ.radius) :=
  sphere_center_hit sphereZ (Ray.make ⟨0, 0, 0⟩ ((sphereZ.center.sub ⟨0, 0, 0⟩).normalize Real.sqrt))
    (by norm_num [sphereZ])
    (by
      have h : (1 : ℝ) < Real.sqrt 25 := by
        rw [Real.lt_sqrt (by norm_num)]; norm_num
      norm_num [sphereZ, Ray.make, Vec3f.norm, Vec3f.sub, Vec3f.dot]
      exact h)
    rfl

end SphereCenter

section CubeTheorems

variable {α : Type} [LinearOrderedField α]

variable {α : Type} [LinearOrderedField α]

theorem cube_ray_intersect_eq_core (c : Cube α) (ray : Ray α) :
    c.ray_intersect ray =
      slab_core (XFloat.fin ((c.bounds ray.sign.x).x - ray.orig.x) * ray.invdir.x)
        (XFloat.fin ((c.bounds (1 - ray.sign.x)).x - ray.orig.x) * ray.invdir.x)
        (XFloat.fin ((c.bounds ray.sign.y).y - ray.orig.y) * ray.invdir.y)
        (XFloat.fin ((c.bounds (1 - ray.sign.y)).y - ray.orig.y) * ray.invdir.y)
        (XFloat.fin ((c.bounds ray.sign.z).z - ray.orig.z) * ray.invdir.z)
        (XFloat.fin ((c.bounds (1 - ray.sign.z)).z - ray.orig.z) * ray.invdir.z) := rfl

theorem xfloat_fin_mul_fin (x y : α) :
    XFloat.fin x * XFloat.fin y = XFloat.fin (x * y) := rfl

theorem xfloat_fin_lt_fin (x y : α) : XFloat.fin x < XFloat.fin y ↔ x < y := Iff.rfl

theorem xfloat_fin_lt_zero (x : α) : XFloat.fin x < 0 ↔ x < 0 := Iff.rfl

theorem xfloat_zero_lt_fin (x : α) : 0 < XFloat.fin x ↔ 0 < x := Iff.rfl

theorem xfloat_recip_of_ne_zero (x : α) (h : x ≠ 0) : XFloat.recip x = XFloat.fin (1 / x) := by
  unfold XFloat.recip
  rw [if_neg h]

@[simp]
theorem xfloat_zero : (0 : XFloat α) = XFloat.fin 0 := rfl

@[simp]
theorem xfloat_recip_zero : XFloat.recip (0 : α) = XFloat.pinf := by
  simp [XFloat.recip]

@[simp]
theorem xfloat_fin_mul_pinf (x : α) : XFloat.fin x * XFloat.pinf =
    if 0 < x then XFloat.pinf else if x < 0 then XFloat.ninf else XFloat.nan := rfl

@[simp]
theorem xfloat_fin_mul_ninf (x : α) : XFloat.fin x * XFloat.ninf =
    if 0 < x then XFloat.ninf else if x < 0 then XFloat.pinf else XFloat.nan := rfl

@[simp]
theorem xfloat_fin_lt_pinf (x : α) : XFloat.fin x < XFloat.pinf := trivial

@[simp]
theorem xfloat_ninf_lt_fin (x : α) : XFloat.ninf < XFloat.fin x := trivial

@[simp]
theorem xfloat_ninf_lt_pinf : (XFloat.ninf : XFloat α) < XFloat.pinf := trivial

@[simp]
theorem xfloat_not_pinf_lt (a : XFloat α) : ¬ (XFloat.pinf < a) := by
  intro h
  cases a <;> exact h

@[simp]
theorem xfloat_not_nan_lt (a : XFloat α) : ¬ (XFloat.nan < a) := by
  intro h
  cases a <;> exact h

@[simp]
theorem xfloat_not_lt_nan (a : XFloat α) : ¬ (a < XFloat.nan) := by
  intro h
  cases a <;> exact h

@[simp]
theorem xfloat_not_lt_ninf (a : XFloat α) : ¬ (a < XFloat.ninf) := by
  intro h
  cases a <;> exact h

/-- The value that `Cube::ray_intersect` reports is never negative, in
particular never `-∞`. -/
theorem cube_ray_intersect_not_neg (c : Cube α) (ray : Ray α) (t0 : XFloat α)
    (h : c.ray_intersect ray = some t0) : ¬ (t0 < 0) := by
  rw [cube_ray_intersect_eq_core] at h
  unfold slab_core at h
  simp only at h
  split_ifs at h <;> simp only [Option.some.injEq] at h <;> subst h <;> assumption

/-- A result of `Cube::ray_intersect` that is not a number fails the test
`dist_i < figure_dist` of `scene_intersect` for every number `figure_dist`. -/
theorem cube_dist_not_lt (c : Cube α) (ray : Ray α) (d : XFloat α)
    (h : c.ray_intersect ray = some d) (hd : ∀ t, d ≠ XFloat.fin t) (x : α) :
    ¬ (d < XFloat.fin x) := by
  cases d with
  | fin t => exact absurd rfl (hd t)
  | pinf => exact xfloat_not_pinf_lt _
  | ninf => exact absurd (xfloat_ninf_lt_fin 0) (cube_ray_intersect_not_neg c ray _ h)
  | nan => exact xfloat_not_nan_lt _

/-- On numbers the control flow of the slab method is the same in IEEE and in
exact arithmetic. -/
theorem slab_core_fin (a0 a1 b0 b1 c0 c1 : α) :
    slab_core (XFloat.fin a0) (XFloat.fin a1) (XFloat.fin b0) (XFloat.fin b1) (XFloat.fin c0)
        (XFloat.fin c1) =
      (slab_core a0 a1 b0 b1 c0 c1).map XFloat.fin := by
  unfold slab_core
  simp only [gt_iff_lt, ← apply_ite XFloat.fin, xfloat_fin_lt_fin, xfloat_fin_lt_zero]
  split_ifs <;> rfl

theorem ite_gt_eq_max (a b : α) : (if b > a then b else a) = max a b := by
  rcases lt_or_le a b with h | h
  · rw [if_pos h, max_eq_right h.le]
  · rw [if_neg (not_lt.mpr h), max_eq_left h]

theorem ite_lt_eq_min (a b : α) : (if b < a then b else a) = min a b := by
  rcases lt_or_le b a with h | h
  · rw [if_pos h, min_eq_right h.le]
  · rw [if_neg (not_lt.mpr h), min_eq_left h]

/-- On three non-empty parameter intervals the slab method computes the
intersection interval `[A, B]` and reports `A`, or `B` when `A < 0`. -/
theorem slab_core_interval (a0 a1 b0 b1 c0 c1 : α) (ha : a0 ≤ a1) (hb : b0 ≤ b1)
    (hc : c0 ≤ c1) :
    slab_core a0 a1 b0 b1 c0 c1 =
      if max (max a0 b0) c0 ≤ min (min a1 b1) c1 then
        if max (max a0 b0) c0 < 0 then
          if min (min a1 b1) c1 < 0 then none else some (min (min a1 b1) c1)
        else some (max (max a0 b0) c0)
      else none := by
  unfold slab_core
  simp only [ite_gt_eq_max, ite_lt_eq_min]
  by_cases h1 : a0 > b1 ∨ b0 > a1
  · rw [if_pos h1, if_neg]
    intro h
    rcases h1 with h1 | h1
    · have := le_trans (le_trans (le_trans (le_max_left a0 b0) (le_max_left _ c0)) h)
        (le_trans (min_le_left _ c1) (min_le_right a1 b1))
      exact absurd h1 (not_lt.mpr this)
    · have := le_trans (le_trans (le_trans (le_max_right a0 b0) (le_max_left _ c0)) h)
        (le_trans (min_le_left _ c1) (min_le_left a1 b1))
      exact absurd h1 (not_lt.mpr this)
  · rw [if_neg h1]
    by_cases h2 : max a0 b0 > c1 ∨ c0 > min a1 b1
    · rw [if_pos h2, if_neg]
      rcases h2 with h2 | h2
      · intro h
        have := le_trans (le_trans (le_max_left _ c0) h) (min_le_right _ _)
        exact absurd h2 (not_lt.mpr this)
      · intro h
        have := le_trans (le_trans (le_max_right _ c0) h) (min_le_left _ _)
        exact absurd h2 (not_lt.mpr this)
    · simp only [not_or, not_lt] at h1 h2
      have hAB : max (max a0 b0) c0 ≤ min (min a1 b1) c1 :=
        max_le (le_min (max_le (le_min ha h1.1) (le_min h1.2 hb)) h2.1) (le_min h2.2 hc)
      rw [if_neg (by simp only [not_or, not_lt]; exact h2), if_pos hAB]

theorem slab_core_none (a0 a1 b0 b1 c0 c1 : α) (ha : a0 ≤ a1) (hb : b0 ≤ b1) (hc : c0 ≤ c1)
    (h : slab_core a0 a1 b0 b1 c0 c1 = none) (t : α) (ht : 0 ≤ t) :
    ¬ ((a0 ≤ t ∧ t ≤ a1) ∧ (b0 ≤ t ∧ t ≤ b1) ∧ (c0 ≤ t ∧ t ≤ c1)) := by
  rintro ⟨⟨h1, h2⟩, ⟨h3, h4⟩, h5, h6⟩
  have hA : max (max a0 b0) c0 ≤ t := max_le (max_le h1 h3) h5
  have hB : t ≤ min (min a1 b1) c1 := le_min (le_min h2 h4) h6
  rw [slab_core_interval _ _ _ _ _ _ ha hb hc, if_pos (le_trans hA hB)] at h
  split_ifs at h
  linarith

theorem slab_core_some (a0 a1 b0 b1 c0 c1 t0 : α) (ha : a0 ≤ a1) (hb : b0 ≤ b1) (hc : c0 ≤ c1)
    (h : slab_core a0 a1 b0 b1 c0 c1 = some t0) :
    0 ≤ t0 ∧ ((a0 ≤ t0 ∧ t0 ≤ a1) ∧ (b0 ≤ t0 ∧ t0 ≤ b1) ∧ (c0 ≤ t0 ∧ t0 ≤ c1)) ∧
      (¬ ((a0 ≤ 0 ∧ 0 ≤ a1) ∧ (b0 ≤ 0 ∧ 0 ≤ b1) ∧ (c0 ≤ 0 ∧ 0 ≤ c1)) →
        ∀ t, ((a0 ≤ t ∧ t ≤ a1) ∧ (b0 ≤ t ∧ t ≤ b1) ∧ (c0 ≤ t ∧ t ≤ c1)) → t0 ≤ t) ∧
      (((a0 < 0 ∧ 0 < a1) ∧ (b0 < 0 ∧ 0 < b1) ∧ (c0 < 0 ∧ 0 < c1)) →
        ∀ t, ((a0 ≤ t ∧ t ≤ a1) ∧ (b0 ≤ t ∧ t ≤ b1) ∧ (c0 ≤ t ∧ t ≤ c1)) → t ≤ t0) := by
  have hP : ∀ t, ((a0 ≤ t ∧ t ≤ a1) ∧ (b0 ≤ t ∧ t ≤ b1) ∧ (c0 ≤ t ∧ t ≤ c1)) ↔
      (max (max a0 b0) c0 ≤ t ∧ t ≤ min (min a1 b1) c1) := by
    intro t
    simp only [max_le_iff, le_min_iff]
    tauto
  have hS : ((a0 < 0 ∧ 0 < a1) ∧ (b0 < 0 ∧ 0 < b1) ∧ (c0 < 0 ∧ 0 < c1)) ↔
      (max (max a0 b0) c0 < 0 ∧ 0 < min (min a1 b1) c1) := by
    simp only [max_lt_iff, lt_min_iff]
    tauto
  rw [slab_core_interval _ _ _ _ _ _ ha hb hc] at h
  simp only [hP, hS]
  generalize max (max a0 b0) c0 = A at h ⊢
  generalize min (min a1 b1) c1 = B at h ⊢
  by_cases h1 : A ≤ B
  · rw [if_pos h1] at h
    by_cases h2 : A < 0
    · rw [if_pos h2] at h
      by_cases h3 : B < 0
      · simp [h3] at h
      · rw [if_neg h3] at h
        have h4 : B = t0 := Option.some.inj h
        subst h4
        refine ⟨not_lt.mp h3, ⟨h1, le_refl _⟩, ?_, ?_⟩
        · intro hn; exact absurd ⟨h2.le, not_lt.mp h3⟩ hn
        · intro _ t ht; exact ht.2
    · rw [if_neg h2] at h
      have h4 : A = t0 := Option.some.inj h
      subst h4
      refine ⟨not_lt.mp h2, ⟨le_refl _, h1⟩, ?_, ?_⟩
      · intro _ t ht; exact ht.1
      · intro hs; exact absurd hs.1 h2
  · simp [h1] at h

/-- One slab: for a non-zero direction component `d` the parameters computed
by the code bound exactly the `t` with `lo <= o + d * t <= hi`. -/
theorem slab_axis (lo hi o d : α) (hlo : lo ≤ hi) (hd : d ≠ 0) :
    ((if 1 / d < 0 then hi else lo) - o) * (1 / d)
        ≤ ((if 1 / d < 0 then lo else hi) - o) * (1 / d) ∧
      (∀ t, (lo ≤ o + d * t ∧ o + d * t ≤ hi) ↔
        (((if 1 / d < 0 then hi else lo) - o) * (1 / d) ≤ t ∧
          t ≤ ((if 1 / d < 0 then lo else hi) - o) * (1 / d))) ∧
      ((lo < o ∧ o < hi) ↔
        (((if 1 / d < 0 then hi else lo) - o) * (1 / d) < 0 ∧
          0 < ((if 1 / d < 0 then lo else hi) - o) * (1 / d))) := by
  rcases lt_or_gt_of_ne hd with hneg | hpos
  · have hi1 : 1 / d < 0 := one_div_neg.mpr hneg
    simp only [if_pos hi1, mul_one_div]
    refine ⟨?_, ?_, ?_⟩
    · rw [div_le_div_right_of_neg hneg]; linarith
    · intro t
      rw [div_le_iff_of_neg hneg, le_div_iff_of_neg hneg]
      constructor
      · rintro ⟨h1, h2⟩; constructor <;> linarith
      · rintro ⟨h1, h2⟩; constructor <;> linarith
    · rw [div_neg_iff, div_pos_iff]
      constructor
      · rintro ⟨h1, h2⟩
        exact ⟨Or.inl ⟨by linarith, hneg⟩, Or.inr ⟨by linarith, hneg⟩⟩
      · rintro ⟨h1 | h1, h2 | h2⟩ <;> constructor <;> linarith
  · have hi1 : ¬ (1 / d < 0) := not_lt.mpr (one_div_pos.mpr hpos).le
    simp only [if_neg hi1, mul_one_div]
    refine ⟨?_, ?_, ?_⟩
    · rw [div_le_div_iff_of_pos_right hpos]; linarith
    · intro t
      rw [div_le_iff₀ hpos, le_div_iff₀ hpos]
      constructor
      · rintro ⟨h1, h2⟩; constructor <;> linarith
      · rintro ⟨h1, h2⟩; constructor <;> linarith
    · rw [div_neg_iff, div_pos_iff]
      constructor
      · rintro ⟨h1, h2⟩
        exact ⟨Or.inr ⟨by linarith, hpos⟩, Or.inl ⟨by linarith, hpos⟩⟩
      · rintro ⟨h1 | h1, h2 | h2⟩ <;> constructor <;> linarith

omit [LinearOrderedField α] in
theorem cube_bounds_sign (c : Cube α) (p : Prop) [Decidable p] :
    c.bounds (if p then 1 else 0) = (if p then c.bounds1 else c.bounds0) ∧
      c.bounds (1 - (if p then 1 else 0)) = (if p then c.bounds0 else c.bounds1) := by
  by_cases h : p <;> simp [h, Cube.bounds]

/-- The slab method of `Cube::ray_intersect`, for a box with
`bounds[0] <= bounds[1]` componentwise and a ray whose direction components are
non-zero, whose `invdir` is their reciprocal and whose `sign[k]` is 1 exactly
when `invdir[k] < 0`: it returns true iff some `t >= 0` puts `orig + t * dir`
in the closed box; the reported `t0` is a number and such a `t`; when the
origin is outside the box `t0` is the entry distance (the least parameter of
the line in the box); when the origin is strictly inside `t0` is the exit
distance (the greatest such parameter); and it returns false when the box lies
entirely behind the ray. -/
theorem cube_ray_intersect_field (c : Cube α) (ray : Ray α)
    (hb : c.bounds0.x ≤ c.bounds1.x ∧ c.bounds0.y ≤ c.bounds1.y ∧ c.bounds0.z ≤ c.bounds1.z)
    (hdir : ray.dir.x ≠ 0 ∧ ray.dir.y ≠ 0 ∧ ray.dir.z ≠ 0)
    (hinv : ray.invdir =
      ⟨XFloat.recip ray.dir.x, XFloat.recip ray.dir.y, XFloat.recip ray.dir.z⟩)
    (hsign : ray.sign = ⟨if ray.invdir.x < 0 then 1 else 0, if ray.invdir.y < 0 then 1 else 0,
      if ray.invdir.z < 0 then 1 else 0⟩) :
    ((c.ray_intersect ray).isSome ↔ ∃ t, 0 ≤ t ∧ c.contains (ray.point_at t)) ∧
      (∀ t0, c.ray_intersect ray = some t0 → ∃ t, t0 = XFloat.fin t ∧
        0 ≤ t ∧ c.contains (ray.point_at t) ∧
        (¬ c.contains ray.orig → ∀ t', c.contains (ray.point_at t') → t ≤ t') ∧
        (c.contains_strictly ray.orig → ∀ t', c.contains (ray.point_at t') → t' ≤ t)) ∧
      ((∀ t, c.contains (ray.point_at t) → t < 0) → c.ray_intersect ray = none) := by
  obtain ⟨hx, hy, hz⟩ := hb
  obtain ⟨dx, dy, dz⟩ := hdir
  obtain ⟨ax, px, sx⟩ := slab_axis c.bounds0.x c.bounds1.x ray.orig.x ray.dir.x hx dx
  obtain ⟨ay, py, sy⟩ := slab_axis c.bounds0.y c.bounds1.y ray.orig.y ray.dir.y hy dy
  obtain ⟨az, pz, sz⟩ := slab_axis c.bounds0.z c.bounds1.z ray.orig.z ray.dir.z hz dz
  have hcore : c.ray_intersect ray =
      (slab_core
        (((if 1 / ray.dir.x < 0 then c.bounds1.x else c.bounds0.x) - ray.orig.x) * (1 / ray.dir.x))
        (((if 1 / ray.dir.x < 0 then c.bounds0.x else c.bounds1.x) - ray.orig.x) * (1 / ray.dir.x))
        (((if 1 / ray.dir.y < 0 then c.bounds1.y else c.bounds0.y) - ray.orig.y) * (1 / ray.dir.y))
        (((if 1 / ray.dir.y < 0 then c.bounds0.y else c.bounds1.y) - ray.orig.y) * (1 / ray.dir.y))
        (((if 1 / ray.dir.z < 0 then c.bounds1.z else c.bounds0.z) - ray.orig.z) * (1 / ray.dir.z))
        (((if 1 / ray.dir.z < 0 then c.bounds0.z else c.bounds1.z) - ray.orig.z)
          * (1 / ray.dir.z))).map XFloat.fin := by
    rw [← slab_core_fin, cube_ray_intersect_eq_core, hsign, hinv]
    simp only [xfloat_recip_of_ne_zero _ dx, xfloat_recip_of_ne_zero _ dy,
      xfloat_recip_of_ne_zero _ dz, xfloat_fin_lt_zero, xfloat_fin_mul_fin,
      (cube_bounds_sign c _).1, (cube_bounds_sign c _).2, apply_ite Vec3f.x,
      apply_ite Vec3f.y, apply_ite Vec3f.z]
  have hcont : ∀ t, c.contains (ray.point_at t) ↔ _ := fun t =>
    Iff.and (px t) (Iff.and (py t) (pz t))
  have hp0 : ray.point_at 0 = ray.orig := by
    simp only [Ray.point_at, Vec3f.add, Vec3f.scale, mul_zero, add_zero]
  have hstrict : c.contains_strictly ray.orig ↔ _ := Iff.and sx (Iff.and sy sz)
  have hsome : ∀ t0, c.ray_intersect ray = some t0 → ∃ t, t0 = XFloat.fin t ∧
        0 ≤ t ∧ c.contains (ray.point_at t) ∧
        (¬ c.contains ray.orig → ∀ t', c.contains (ray.point_at t') → t ≤ t') ∧
        (c.contains_strictly ray.orig → ∀ t', c.contains (ray.point_at t') → t' ≤ t) := by
    intro t0 h
    rw [hcore, Option.map_eq_some'] at h
    obtain ⟨t, h, ht⟩ := h
    obtain ⟨h1, h2, h3, h4⟩ := slab_core_some _ _ _ _ _ _ t ax ay az h
    refine ⟨t, ht.symm, h1, (hcont t).mpr h2, ?_, ?_⟩
    · intro hn t' ht'
      refine h3 (fun hP0 => hn ?_) t' ((hcont t').mp ht')
      have := (hcont 0).mpr hP0
      rwa [hp0] at this
    · intro hs t' ht'
      exact h4 (hstrict.mp hs) t' ((hcont t').mp ht')
  have hiff : (c.ray_intersect ray).isSome ↔ ∃ t, 0 ≤ t ∧ c.contains (ray.point_at t) := by
    cases hres : c.ray_intersect ray with
    | none =>
      simp only [Option.isSome_none, Bool.false_eq_true, false_iff, not_exists, not_and]
      intro t ht hc
      rw [hcore, Option.map_eq_none'] at hres
      exact slab_core_none _ _ _ _ _ _ ax ay az hres t ht ((hcont t).mp hc)
    | some t0 =>
      simp only [Option.isSome_some, true_iff]
      obtain ⟨t, -, h1, h2, -⟩ := hsome t0 hres
      exact ⟨t, h1, h2⟩
  refine ⟨hiff, hsome, ?_⟩
  intro h
  cases hres : c.ray_intersect ray with
  | none => rfl
  | some t0 =>
    exfalso
    obtain ⟨t, -, h1, h2, -⟩ := hsome t0 hres
    linarith [h t h2]

end CubeTheorems

section SlabOrder

variable {β : Type} [LinearOrder β]

theorem ite_gt_eq_max_ord (a b : β) : (if b > a then b else a) = max a b := by
  rcases lt_or_le a b with h | h
  · rw [if_pos h, max_eq_right h.le]
  · rw [if_neg (not_lt.mpr h), max_eq_left h]

theorem ite_lt_eq_min_ord (a b : β) : (if b < a then b else a) = min a b := by
  rcases lt_or_le b a with h | h
  · rw [if_pos h, min_eq_right h.le]
  · rw [if_neg (not_lt.mpr h), min_eq_left h]

variable [Zero β]

/-- The slab method on three non-empty intervals of a linear order. -/
theorem slab_core_interval_ord (a0 a1 b0 b1 c0 c1 : β) (ha : a0 ≤ a1) (hb : b0 ≤ b1)
    (hc : c0 ≤ c1) :
    slab_core a0 a1 b0 b1 c0 c1 =
      if max (max a0 b0) c0 ≤ min (min a1 b1) c1 then
        if max (max a0 b0) c0 < 0 then
          if min (min a1 b1) c1 < 0 then none else some (min (min a1 b1) c1)
        else some (max (max a0 b0) c0)
      else none := by
  unfold slab_core
  simp only [ite_gt_eq_max_ord, ite_lt_eq_min_ord]
  by_cases h1 : a0 > b1 ∨ b0 > a1
  · rw [if_pos h1, if_neg]
    intro h
    rcases h1 with h1 | h1
    · have := le_trans (le_trans (le_trans (le_max_left a0 b0) (le_max_left _ c0)) h)
        (le_trans (min_le_left _ c1) (min_le_right a1 b1))
      exact absurd h1 (not_lt.mpr this)
    · have := le_trans (le_trans (le_trans (le_max_right a0 b0) (le_max_left _ c0)) h)
        (le_trans (min_le_left _ c1) (min_le_left a1 b1))
      exact absurd h1 (not_lt.mpr this)
  · rw [if_neg h1]
    by_cases h2 : max a0 b0 > c1 ∨ c0 > min a1 b1
    · rw [if_pos h2, if_neg]
      rcases h2 with h2 | h2
      · intro h
        have := le_trans (le_trans (le_max_left _ c0) h) (min_le_right _ _)
        exact absurd h2 (not_lt.mpr this)
      · intro h
        have := le_trans (le_trans (le_max_right _ c0) h) (min_le_left _ _)
        exact absurd h2 (not_lt.mpr this)
    · simp only [not_or, not_lt] at h1 h2
      have hAB : max (max a0 b0) c0 ≤ min (min a1 b1) c1 :=
        max_le (le_min (max_le (le_min ha h1.1) (le_min h1.2 hb)) h2.1) (le_min h2.2 hc)
      rw [if_neg (by simp only [not_or, not_lt]; exact h2), if_pos hAB]

theorem slab_core_none_ord (a0 a1 b0 b1 c0 c1 : β) (ha : a0 ≤ a1) (hb : b0 ≤ b1) (hc : c0 ≤ c1)
    (h : slab_core a0 a1 b0 b1 c0 c1 = none) (t : β) (ht : 0 ≤ t) :
    ¬ ((a0 ≤ t ∧ t ≤ a1) ∧ (b0 ≤ t ∧ t ≤ b1) ∧ (c0 ≤ t ∧ t ≤ c1)) := by
  rintro ⟨⟨h1, h2⟩, ⟨h3, h4⟩, h5, h6⟩
  have hA : max (max a0 b0) c0 ≤ t := max_le (max_le h1 h3) h5
  have hB : t ≤ min (min a1 b1) c1 := le_min (le_min h2 h4) h6
  rw [slab_core_interval_ord _ _ _ _ _ _ ha hb hc, if_pos (le_trans hA hB)] at h
  split_ifs at h with h7 h8
  exact absurd (lt_of_le_of_lt (le_trans ht hB) h8) (lt_irrefl _)

theorem slab_core_some_ord (a0 a1 b0 b1 c0 c1 t0 : β) (ha : a0 ≤ a1) (hb : b0 ≤ b1)
    (hc : c0 ≤ c1) (h : slab_core a0 a1 b0 b1 c0 c1 = some t0) :
    0 ≤ t0 ∧ ((a0 ≤ t0 ∧ t0 ≤ a1) ∧ (b0 ≤ t0 ∧ t0 ≤ b1) ∧ (c0 ≤ t0 ∧ t0 ≤ c1)) ∧
      (¬ ((a0 ≤ 0 ∧ 0 ≤ a1) ∧ (b0 ≤ 0 ∧ 0 ≤ b1) ∧ (c0 ≤ 0 ∧ 0 ≤ c1)) →
        ∀ t, ((a0 ≤ t ∧ t ≤ a1) ∧ (b0 ≤ t ∧ t ≤ b1) ∧ (c0 ≤ t ∧ t ≤ c1)) → t0 ≤ t) ∧
      (((a0 < 0 ∧ 0 < a1) ∧ (b0 < 0 ∧ 0 < b1) ∧ (c0 < 0 ∧ 0 < c1)) →
        ∀ t, ((a0 ≤ t ∧ t ≤ a1) ∧ (b0 ≤ t ∧ t ≤ b1) ∧ (c0 ≤ t ∧ t ≤ c1)) → t ≤ t0) := by
  have hP : ∀ t, ((a0 ≤ t ∧ t ≤ a1) ∧ (b0 ≤ t ∧ t ≤ b1) ∧ (c0 ≤ t ∧ t ≤ c1)) ↔
      (max (max a0 b0) c0 ≤ t ∧ t ≤ min (min a1 b1) c1) := by
    intro t
    simp only [max_le_iff, le_min_iff]
    tauto
  have hS : ((a0 < 0 ∧ 0 < a1) ∧ (b0 < 0 ∧ 0 < b1) ∧ (c0 < 0 ∧ 0 < c1)) ↔
      (max (max a0 b0) c0 < 0 ∧ 0 < min (min a1 b1) c1) := by
    simp only [max_lt_iff, lt_min_iff]
    tauto
  rw [slab_core_interval_ord _ _ _ _ _ _ ha hb hc] at h
  simp only [hP, hS]
  generalize max (max a0 b0) c0 = A at h ⊢
  generalize min (min a1 b1) c1 = B at h ⊢
  by_cases h1 : A ≤ B
  · rw [if_pos h1] at h
    by_cases h2 : A < 0
    · rw [if_pos h2] at h
      by_cases h3 : B < 0
      · simp [h3] at h
      · rw [if_neg h3] at h
        have h4 : B = t0 := Option.some.inj h
        subst h4
        refine ⟨not_lt.mp h3, ⟨h1, le_refl _⟩, ?_, ?_⟩
        · intro hn; exact absurd ⟨h2.le, not_lt.mp h3⟩ hn
        · intro _ t ht; exact ht.2
    · rw [if_neg h2] at h
      have h4 : A = t0 := Option.some.inj h
      subst h4
      refine ⟨not_lt.mp h2, ⟨le_refl _, h1⟩, ?_, ?_⟩
      · intro _ t ht; exact ht.1
      · intro hs; exact absurd hs.1 h2
  · simp [h1] at h

end SlabOrder

section SlabTransfer

/-- The slab method as nested conditionals on the running bounds. -/
theorem slab_core_eq {γ : Type} [Zero γ] [LT γ] [DecidableRel (fun a b : γ => a < b)]
    (a0 a1 b0 b1 c0 c1 : γ) :
    slab_core a0 a1 b0 b1 c0 c1 =
      if b1 < a0 ∨ a1 < b0 then none
      else if c1 < (if a0 < b0 then b0 else a0) ∨ (if b1 < a1 then b1 else a1) < c0 then none
      else if (if (if a0 < b0 then b0 else a0) < c0 then c0 else (if a0 < b0 then b0 else a0)) < 0
      then
        if (if c1 < (if b1 < a1 then b1 else a1) then c1 else (if b1 < a1 then b1 else a1)) < 0
        then none
        else some (if c1 < (if b1 < a1 then b1 else a1) then c1 else (if b1 < a1 then b1 else a1))
      else some (if (if a0 < b0 then b0 else a0) < c0 then c0 else (if a0 < b0 then b0 else a0)) :=
  rfl

/-- The slab method commutes with a map that preserves the comparisons on a
set of values which contains its six parameters. -/
theorem slab_core_map {γ β : Type} [Zero γ] [LT γ] [DecidableRel (fun a b : γ => a < b)]
    [Zero β] [LT β] [DecidableRel (fun a b : β => a < b)] (f : γ → β) (P : γ → Prop)
    (hlt : ∀ x y, P x → P y → (f x < f y ↔ x < y)) (h0 : ∀ x, P x → (f x < 0 ↔ x < 0))
    (a0 a1 b0 b1 c0 c1 : γ) (p0 : P a0) (p1 : P a1) (p2 : P b0) (p3 : P b1) (p4 : P c0)
    (p5 : P c1) :
    slab_core (f a0) (f a1) (f b0) (f b1) (f c0) (f c1) =
      (slab_core a0 a1 b0 b1 c0 c1).map f := by
  have hite : ∀ (c : Prop) [Decidable c] (x y : γ), P x → P y → P (if c then x else y) := by
    intro c _ x y hx hy
    split_ifs <;> assumption
  have pm1 : P (if a0 < b0 then b0 else a0) := hite _ _ _ p2 p0
  have pM1 : P (if b1 < a1 then b1 else a1) := hite _ _ _ p3 p1
  have pm2 : P (if (if a0 < b0 then b0 else a0) < c0 then c0 else (if a0 < b0 then b0 else a0)) :=
    hite _ _ _ p4 pm1
  have pM2 : P (if c1 < (if b1 < a1 then b1 else a1) then c1 else (if b1 < a1 then b1 else a1)) :=
    hite _ _ _ p5 pM1
  have hm : ∀ x y u v : γ, P x → P y →
      (if f x < f y then f u else f v) = f (if x < y then u else v) := by
    intro x y u v px py
    by_cases h : x < y
    · rw [if_pos h, if_pos ((hlt x y px py).mpr h)]
    · rw [if_neg h, if_neg (fun h' => h ((hlt x y px py).mp h'))]
  rw [slab_core_eq, slab_core_eq, hm _ _ _ _ p0 p2, hm _ _ _ _ p3 p1, hm _ _ _ _ pm1 p4,
    hm _ _ _ _ p5 pM1]
  simp only [hlt _ _ p3 p0, hlt _ _ p1 p2, hlt _ _ p5 pm1, hlt _ _ pM1 p4, h0 _ pm2, h0 _ pM2,
    apply_ite (Option.map f), Option.map_none', Option.map_some']

end SlabTransfer

section CubeGeneral

theorem toEReal_lt (a b : XFloat ℝ) (ha : a ≠ XFloat.nan) (hb : b ≠ XFloat.nan) :
    a.toEReal < b.toEReal ↔ a < b := by
  cases a <;> cases b <;>
    simp [XFloat.toEReal, xfloat_fin_lt_fin] at ha hb ⊢

theorem toEReal_lt_zero (a : XFloat ℝ) (ha : a ≠ XFloat.nan) : a.toEReal < 0 ↔ a < 0 := by
  have h := toEReal_lt a (XFloat.fin 0) ha (by simp)
  simpa [XFloat.toEReal] using h

theorem lo_norm_ne_nan {α : Type} (a : XFloat α) : a.lo_norm ≠ XFloat.nan := by
  cases a <;> simp [XFloat.lo_norm]

theorem hi_norm_ne_nan {α : Type} (a : XFloat α) : a.hi_norm ≠ XFloat.nan := by
  cases a <;> simp [XFloat.hi_norm]

theorem lo_norm_of_ne_nan {α : Type} (a : XFloat α) (h : a ≠ XFloat.nan) : a.lo_norm = a := by
  cases a <;> simp [XFloat.lo_norm] at h ⊢

theorem hi_norm_of_ne_nan {α : Type} (a : XFloat α) (h : a ≠ XFloat.nan) : a.hi_norm = a := by
  cases a <;> simp [XFloat.hi_norm] at h ⊢

/-- A NaN among the y and z slab parameters is dropped by the comparisons: it
acts as `-∞` when a lower and as `+∞` when an upper parameter. -/
theorem slab_core_norm {α : Type} [LinearOrderedField α] (a0 a1 b0 b1 c0 c1 : XFloat α) :
    slab_core a0 a1 b0 b1 c0 c1
      = slab_core a0 a1 b0.lo_norm b1.hi_norm c0.lo_norm c1.hi_norm := by
  have h1 : slab_core a0 a1 b0 b1 c0 c1 = slab_core a0 a1 b0.lo_norm b1 c0 c1 := by
    cases b0 <;> first | rfl | (rw [slab_core_eq, slab_core_eq]; simp [XFloat.lo_norm])
  have h2 : slab_core a0 a1 b0.lo_norm b1 c0 c1 = slab_core a0 a1 b0.lo_norm b1.hi_norm c0 c1 := by
    cases b1 <;> rfl
  have h3 : slab_core a0 a1 b0.lo_norm b1.hi_norm c0 c1
      = slab_core a0 a1 b0.lo_norm b1.hi_norm c0.lo_norm c1 := by
    cases c0 <;> first | rfl | (rw [slab_core_eq, slab_core_eq]; simp [XFloat.lo_norm])
  have h4 : slab_core a0 a1 b0.lo_norm b1.hi_norm c0.lo_norm c1
      = slab_core a0 a1 b0.lo_norm b1.hi_norm c0.lo_norm c1.hi_norm := by
    cases c1 <;> rfl
  rw [h1, h2, h3, h4]


/-- One slab in IEEE arithmetic, for any direction component `d`: the two
parameters computed by the code, with a NaN read as no bound, bound exactly the
`t` with `lo <= o + d * t <= hi`. -/
theorem slab_axis_ieee (lo hi o d : ℝ) (hlo : lo ≤ hi) (L H : XFloat ℝ)
    (hL : L = XFloat.fin ((if XFloat.recip d < 0 then hi else lo) - o) * XFloat.recip d)
    (hH : H = XFloat.fin ((if XFloat.recip d < 0 then lo else hi) - o) * XFloat.recip d) :
    L.lo_norm.toEReal ≤ H.hi_norm.toEReal ∧
      (∀ t : ℝ, (lo ≤ o + d * t ∧ o + d * t ≤ hi) ↔
        (L.lo_norm.toEReal ≤ (t : EReal) ∧ (t : EReal) ≤ H.hi_norm.toEReal)) ∧
      ((lo < o ∧ o < hi) → (L.lo_norm.toEReal < 0 ∧ 0 < H.hi_norm.toEReal)) ∧
      (d ≠ 0 → ∃ l h : ℝ, L = XFloat.fin l ∧ H = XFloat.fin h) ∧
      ((d = 0 → o ≠ lo ∧ o ≠ hi) → L ≠ XFloat.nan ∧ H ≠ XFloat.nan) := by
  by_cases hd : d = 0
  · subst hd
    have hr : ¬ (XFloat.recip (0 : ℝ) < 0) := by simp
    rw [if_neg hr] at hL hH
    clear hr
    rw [xfloat_recip_zero, xfloat_fin_mul_pinf] at hL hH
    simp only [zero_mul, add_zero, sub_pos, sub_neg]  at hL hH ⊢
    rcases lt_trichotomy o lo with h1 | h1 | h1
    · have h2 : o < hi := lt_of_lt_of_le h1 hlo
      rw [if_pos h1] at hL
      rw [if_pos h2] at hH
      subst hL hH
      simp [XFloat.lo_norm, XFloat.hi_norm, XFloat.toEReal, not_le.mpr h1, h1.ne]
      intro h
      linarith
    · subst h1
      rw [if_neg (lt_irrefl _), if_neg (lt_irrefl _)] at hL
      rcases hlo.lt_or_eq with h2 | h2
      · rw [if_pos h2] at hH
        subst hL hH
        simp [XFloat.lo_norm, XFloat.hi_norm, XFloat.toEReal, hlo]
      · rw [if_neg (by rw [h2]; exact lt_irrefl _), if_neg (by rw [h2]; exact lt_irrefl _)] at hH
        subst hL hH
        simp [XFloat.lo_norm, XFloat.hi_norm, XFloat.toEReal, hlo]
    · rw [if_neg (not_lt.mpr h1.le), if_pos h1] at hL
      rcases lt_trichotomy o hi with h2 | h2 | h2
      · rw [if_pos h2] at hH
        subst hL hH
        simp [XFloat.lo_norm, XFloat.hi_norm, XFloat.toEReal, h1.le, h2.le, h1.ne', h2.ne]
      · rw [if_neg (by rw [h2]; exact lt_irrefl _), if_neg (by rw [h2]; exact lt_irrefl _)] at hH
        subst hL hH
        simp [XFloat.lo_norm, XFloat.hi_norm, XFloat.toEReal, h1.le, h2.le]
        intro _
        exact h2
      · rw [if_neg (not_lt.mpr h2.le), if_pos h2] at hH
        subst hL hH
        simp [XFloat.lo_norm, XFloat.hi_norm, XFloat.toEReal, not_le.mpr h2, h2.ne']
        intro _
        exact h2.le
  · obtain ⟨ax, px, sx⟩ := slab_axis lo hi o d hlo hd
    rw [xfloat_recip_of_ne_zero d hd] at hL hH
    simp only [xfloat_fin_lt_zero, xfloat_fin_mul_fin] at hL hH
    subst hL hH
    simp only [XFloat.lo_norm, XFloat.hi_norm, XFloat.toEReal, EReal.coe_le_coe_iff]
    refine ⟨ax, px, ?_, fun _ => ⟨_, _, rfl, rfl⟩, fun _ => ⟨by simp, by simp⟩⟩
    intro h
    have := sx.mp h
    exact ⟨by exact_mod_cast this.1, by exact_mod_cast this.2⟩


/-- The slab method of `Cube::ray_intersect` in IEEE arithmetic, for a box with
`bounds[0] <= bounds[1]` componentwise and a ray whose `invdir` is the IEEE
reciprocal of a direction that is not the zero vector and whose `sign[k]` is 1
exactly when `invdir[k] < 0`, unless `dir.x = 0` and the origin lies in the
plane of an x face: it returns true iff some `t >= 0` puts `orig + t * dir` in
the closed box; the reported `t0` is a number and such a `t`; when the origin
is outside the box `t0` is the entry distance; when the origin is strictly
inside `t0` is the exit distance; and it returns false when the box lies
entirely behind the ray. -/
theorem cube_ray_intersect_ieee (c : Cube ℝ) (ray : Ray ℝ)
    (hb : c.bounds0.x ≤ c.bounds1.x ∧ c.bounds0.y ≤ c.bounds1.y ∧ c.bounds0.z ≤ c.bounds1.z)
    (hdir : ray.dir.x ≠ 0 ∨ ray.dir.y ≠ 0 ∨ ray.dir.z ≠ 0)
    (hface : ray.dir.x = 0 → ray.orig.x ≠ c.bounds0.x ∧ ray.orig.x ≠ c.bounds1.x)
    (hinv : ray.invdir =
      ⟨XFloat.recip ray.dir.x, XFloat.recip ray.dir.y, XFloat.recip ray.dir.z⟩)
    (hsign : ray.sign = ⟨if ray.invdir.x < 0 then 1 else 0, if ray.invdir.y < 0 then 1 else 0,
      if ray.invdir.z < 0 then 1 else 0⟩) :
    ((c.ray_intersect ray).isSome ↔ ∃ t, 0 ≤ t ∧ c.contains (ray.point_at t)) ∧
      (∀ t0, c.ray_intersect ray = some t0 → ∃ t, t0 = XFloat.fin t ∧
        0 ≤ t ∧ c.contains (ray.point_at t) ∧
        (¬ c.contains ray.orig → ∀ t', c.contains (ray.point_at t') → t ≤ t') ∧
        (c.contains_strictly ray.orig → ∀ t', c.contains (ray.point_at t') → t' ≤ t)) ∧
      ((∀ t, c.contains (ray.point_at t) → t < 0) → c.ray_intersect ray = none) := by
  obtain ⟨hx, hy, hz⟩ := hb
  obtain ⟨ax, px, sx, fx, nx⟩ := slab_axis_ieee c.bounds0.x c.bounds1.x ray.orig.x ray.dir.x hx
    _ _ rfl rfl
  obtain ⟨ay, py, sy, fy, -⟩ := slab_axis_ieee c.bounds0.y c.bounds1.y ray.orig.y ray.dir.y hy
    _ _ rfl rfl
  obtain ⟨az, pz, sz, fz, -⟩ := slab_axis_ieee c.bounds0.z c.bounds1.z ray.orig.z ray.dir.z hz
    _ _ rfl rfl
  obtain ⟨nx0, nx1⟩ := nx hface
  rw [lo_norm_of_ne_nan _ nx0, hi_norm_of_ne_nan _ nx1] at ax px sx
  generalize hLx : XFloat.fin ((if XFloat.recip ray.dir.x < 0 then c.bounds1.x else c.bounds0.x)
    - ray.orig.x) * XFloat.recip ray.dir.x = Lx at ax px sx fx nx0
  generalize hHx : XFloat.fin ((if XFloat.recip ray.dir.x < 0 then c.bounds0.x else c.bounds1.x)
    - ray.orig.x) * XFloat.recip ray.dir.x = Hx at ax px sx fx nx1
  generalize hLy : XFloat.fin ((if XFloat.recip ray.dir.y < 0 then c.bounds1.y else c.bounds0.y)
    - ray.orig.y) * XFloat.recip ray.dir.y = Ly at ay py sy fy
  generalize hHy : XFloat.fin ((if XFloat.recip ray.dir.y < 0 then c.bounds0.y else c.bounds1.y)
    - ray.orig.y) * XFloat.recip ray.dir.y = Hy at ay py sy fy
  generalize hLz : XFloat.fin ((if XFloat.recip ray.dir.z < 0 then c.bounds1.z else c.bounds0.z)
    - ray.orig.z) * XFloat.recip ray.dir.z = Lz at az pz sz fz
  generalize hHz : XFloat.fin ((if XFloat.recip ray.dir.z < 0 then c.bounds0.z else c.bounds1.z)
    - ray.orig.z) * XFloat.recip ray.dir.z = Hz at az pz sz fz
  have hcore : c.ray_intersect ray = slab_core Lx Hx Ly.lo_norm Hy.hi_norm Lz.lo_norm Hz.hi_norm := by
    rw [← slab_core_norm, cube_ray_intersect_eq_core, hsign, hinv, ← hLx, ← hHx, ← hLy, ← hHy,
      ← hLz, ← hHz]
    simp only [(cube_bounds_sign c _).1, (cube_bounds_sign c _).2, apply_ite Vec3f.x,
      apply_ite Vec3f.y, apply_ite Vec3f.z]
  have hmap : (c.ray_intersect ray).map XFloat.toEReal =
      slab_core Lx.toEReal Hx.toEReal Ly.lo_norm.toEReal Hy.hi_norm.toEReal Lz.lo_norm.toEReal
        Hz.hi_norm.toEReal := by
    rw [hcore]
    exact (slab_core_map XFloat.toEReal (fun a => a ≠ XFloat.nan)
      (fun x y hx hy => toEReal_lt x y hx hy) (fun x hx => toEReal_lt_zero x hx)
      _ _ _ _ _ _ nx0 nx1 (lo_norm_ne_nan _) (hi_norm_ne_nan _) (lo_norm_ne_nan _)
      (hi_norm_ne_nan _)).symm
  -- a finite axis makes every parameter in the intersection a number
  have hfin : ∀ T : EReal,
      ((Lx.toEReal ≤ T ∧ T ≤ Hx.toEReal) ∧ (Ly.lo_norm.toEReal ≤ T ∧ T ≤ Hy.hi_norm.toEReal) ∧
        (Lz.lo_norm.toEReal ≤ T ∧ T ≤ Hz.hi_norm.toEReal)) → ∃ t : ℝ, T = (t : EReal) := by
    intro T hT
    have key : ∀ (L H : XFloat ℝ), (∃ l h : ℝ, L = XFloat.fin l ∧ H = XFloat.fin h) →
        L.lo_norm.toEReal ≤ T → T ≤ H.hi_norm.toEReal → ∃ t : ℝ, T = (t : EReal) := by
      rintro L H ⟨l, h, rfl, rfl⟩ h1 h2
      simp only [XFloat.lo_norm, XFloat.hi_norm, XFloat.toEReal] at h1 h2
      have hbot : T ≠ ⊥ := fun e => by
        rw [e] at h1
        exact absurd h1 (not_le.mpr (EReal.bot_lt_coe l))
      have htop : T ≠ ⊤ := fun e => by
        rw [e] at h2
        exact absurd h2 (not_le.mpr (EReal.coe_lt_top h))
      exact ⟨T.toReal, (EReal.coe_toReal htop hbot).symm⟩
    rcases hdir with hd | hd | hd
    · have := key Lx Hx (fx hd)
      rw [lo_norm_of_ne_nan _ nx0, hi_norm_of_ne_nan _ nx1] at this
      exact this hT.1.1 hT.1.2
    · exact key Ly Hy (fy hd) hT.2.1.1 hT.2.1.2
    · exact key Lz Hz (fz hd) hT.2.2.1 hT.2.2.2
  have hcont : ∀ t : ℝ, c.contains (ray.point_at t) ↔
      ((Lx.toEReal ≤ (t : EReal) ∧ (t : EReal) ≤ Hx.toEReal) ∧
        (Ly.lo_norm.toEReal ≤ (t : EReal) ∧ (t : EReal) ≤ Hy.hi_norm.toEReal) ∧
        (Lz.lo_norm.toEReal ≤ (t : EReal) ∧ (t : EReal) ≤ Hz.hi_norm.toEReal)) := fun t =>
    Iff.and (px t) (Iff.and (py t) (pz t))
  have hp0 : ray.point_at 0 = ray.orig := by
    simp only [Ray.point_at, Vec3f.add, Vec3f.scale, mul_zero, add_zero]
  have hsome : ∀ t0, c.ray_intersect ray = some t0 → ∃ t, t0 = XFloat.fin t ∧
        0 ≤ t ∧ c.contains (ray.point_at t) ∧
        (¬ c.contains ray.orig → ∀ t', c.contains (ray.point_at t') → t ≤ t') ∧
        (c.contains_strictly ray.orig → ∀ t', c.contains (ray.point_at t') → t' ≤ t) := by
    intro t0 h
    rw [h, Option.map_some'] at hmap
    obtain ⟨h1, h2, h3, h4⟩ := slab_core_some_ord _ _ _ _ _ _ _ ax ay az hmap.symm
    obtain ⟨t, ht⟩ := hfin _ h2
    have ht0 : t0 = XFloat.fin t := by
      cases t0 with
      | fin x =>
        simp only [XFloat.toEReal, EReal.coe_eq_coe_iff] at ht
        rw [ht]
      | pinf => simp [XFloat.toEReal] at ht
      | ninf => simp [XFloat.toEReal] at ht
      | nan => simp [XFloat.toEReal] at ht
    rw [ht] at h1 h2 h3 h4
    refine ⟨t, ht0, by exact_mod_cast h1, (hcont t).mpr h2, ?_, ?_⟩
    · intro hn t' ht'
      have := h3 (fun hP0 => hn ?_) (t' : EReal) ((hcont t').mp ht')
      · exact_mod_cast this
      · have h0 := (hcont 0).mpr (by simpa using hP0)
        rwa [hp0] at h0
    · intro hs t' ht'
      have := h4 ⟨sx hs.1, sy hs.2.1, sz hs.2.2⟩ (t' : EReal) ((hcont t').mp ht')
      exact_mod_cast this
  have hiff : (c.ray_intersect ray).isSome ↔ ∃ t, 0 ≤ t ∧ c.contains (ray.point_at t) := by
    cases hres : c.ray_intersect ray with
    | none =>
      simp only [Option.isSome_none, Bool.false_eq_true, false_iff, not_exists, not_and]
      intro t ht hc
      rw [hres, Option.map_none'] at hmap
      exact slab_core_none_ord _ _ _ _ _ _ ax ay az hmap.symm (t : EReal) (by exact_mod_cast ht)
        ((hcont t).mp hc)
    | some t0 =>
      simp only [Option.isSome_some, true_iff]
      obtain ⟨t, -, h1, h2, -⟩ := hsome t0 hres
      exact ⟨t, h1, h2⟩
  refine ⟨hiff, hsome, ?_⟩
  intro h
  cases hres : c.ray_intersect ray with
  | none => rfl
  | some t0 =>
    exfalso
    obtain ⟨t, -, h1, h2, -⟩ := hsome t0 hres
    linarith [h t h2]

end CubeGeneral

section CubeEvaluation

/-- C8 fails on the code for a ray with `dir.x = 0` whose origin lies in the
plane of an x face of the box (everywhere else it holds, see
`cube_ray_intersect_ieee`): there `(bounds.x - orig.x) * invdir.x` is
`0 * ∞`, a NaN, and since the x slab is the one that initialises `t_min` and
`t_max`, the NaN survives every later comparison (a NaN in the y or z slab is
dropped by them).  For the unit box, whose bounds are ordered, and rays made by
the constructor (`invdir` the reciprocal of `dir`, `sign` its sign bits):
the axis ray through the centre hits at the near-face distance 2, as the spec's
witness says; but `rayFace`, from `(1, 5, -2)` along `(0, 0, 1)`, has
`invdir = (+∞, +∞, 1)`, `t_min = -∞`, `t_max = NaN`, and `Cube::ray_intersect`
returns true with `t0 = 2` although no point of its line is in the box, a hit
that `scene_intersect` reports at the point `(1, 5, 0)`, while its sibling
`rayFaceY` in the plane `y = 1` is rejected as it should be; and for
`rayBehind`, from `(0, 1/2, 2)` along `(0, 0, 1)`, the box lies entirely behind
the ray and the test still returns true, with `t0` a NaN. -/
theorem cube_ray_intersect_face_plane :
    ((cubeU : Cube ℝ).bounds0.x ≤ (cubeU : Cube ℝ).bounds1.x ∧
        (cubeU : Cube ℝ).bounds0.y ≤ (cubeU : Cube ℝ).bounds1.y ∧
        (cubeU : Cube ℝ).bounds0.z ≤ (cubeU : Cube ℝ).bounds1.z) ∧
      (cubeU : Cube ℝ).ray_intersect rayAxis = some (XFloat.fin 2) ∧
      ((rayFace : Ray ℝ).invdir = ⟨XFloat.pinf, XFloat.pinf, XFloat.fin 1⟩ ∧
        (rayFace : Ray ℝ).sign = ⟨0, 0, 0⟩ ∧
        (cubeU : Cube ℝ).ray_intersect rayFace = some (XFloat.fin 2) ∧
        (∀ t : ℝ, ¬ (cubeU : Cube ℝ).contains ((rayFace : Ray ℝ).point_at t)) ∧
        (scene_intersect (envOf Real.sqrt (fun x y => x ^ y)) rayFace [Figure.cube cubeU]
          ⟨0, 0, 0⟩ ⟨0, 0, 0⟩ plain).found = true ∧
        (scene_intersect (envOf Real.sqrt (fun x y => x ^ y)) rayFace [Figure.cube cubeU]
          ⟨0, 0, 0⟩ ⟨0, 0, 0⟩ plain).hit = ⟨1, 5, 0⟩) ∧
      (cubeU : Cube ℝ).ray_intersect rayFaceY = none ∧
      ((cubeU : Cube ℝ).ray_intersect rayBehind = some XFloat.nan ∧
        (∀ t : ℝ, (cubeU : Cube ℝ).contains ((rayBehind : Ray ℝ).point_at t) → t < 0)) := by
  have hface : (cubeU : Cube ℝ).ray_intersect rayFace = some (XFloat.fin 2) := by
    norm_num [Cube.ray_intersect, cubeU, rayFace, Ray.make, Cube.bounds, xfloat_fin_mul_fin,
      xfloat_fin_lt_fin, xfloat_fin_lt_zero, XFloat.recip]
  have hfig : (Figure.cube cubeU).ray_intersect Real.sqrt (rayFace : Ray ℝ) = some 2 := by
    simp only [Figure.ray_intersect, hface]
  refine ⟨by norm_num [cubeU], ?_, ⟨?_, ?_, hface, ?_, ?_, ?_⟩, ?_, ?_, ?_⟩
  · norm_num [Cube.ray_intersect, cubeU, rayAxis, Ray.make, Cube.bounds, xfloat_fin_mul_fin,
      xfloat_fin_lt_fin, xfloat_fin_lt_zero, XFloat.recip]
  · norm_num [rayFace, Ray.make, XFloat.recip]
  · norm_num [rayFace, Ray.make, XFloat.recip, xfloat_fin_lt_zero]
  · intro t h
    have h2 := h.2.1.2
    norm_num [cubeU, rayFace, Ray.make, Ray.point_at, Vec3f.add, Vec3f.scale] at h2
  · simp only [scene_intersect, scene_loop, List.foldl, scene_step, envOf, hfig]
    norm_num [rayFace, Ray.make, FLT_MAX, Figure.NeededDist, Figure.setNeededDist,
      Figure.SetNeededNormHitMaterial, Vec3f.scale, Vec3f.add]
  · simp only [scene_intersect, scene_loop, List.foldl, scene_step, envOf, hfig]
    norm_num [rayFace, Ray.make, FLT_MAX, Figure.NeededDist, Figure.setNeededDist,
      Figure.SetNeededNormHitMaterial, Vec3f.scale, Vec3f.add]
  · norm_num [Cube.ray_intersect, cubeU, rayFaceY, Ray.make, Cube.bounds, xfloat_fin_mul_fin,
      xfloat_fin_lt_fin, xfloat_fin_lt_zero, XFloat.recip]
  · norm_num [Cube.ray_intersect, cubeU, rayBehind, Ray.make, Cube.bounds, xfloat_fin_mul_fin,
      xfloat_fin_lt_fin, xfloat_fin_lt_zero, XFloat.recip]
  · intro t h
    have h2 := h.2.2.2
    norm_num [cubeU, rayBehind, Ray.make, Ray.point_at, Vec3f.add, Vec3f.scale] at h2
    linarith

end CubeEvaluation

section TriangleTheorems

variable {α : Type} [LinearOrderedField α]

theorem EPSILON_pos : (0 : α) < EPSILON := by
  unfold EPSILON; positivity

/-- The code of `Triangle::ray_intersect` in terms of `det`, `u`, `v`. -/
theorem triangle_ray_intersect_cases (tr : Triangle α) (ray : Ray α) :
    tr.ray_intersect ray =
      if tr.det ray > -EPSILON ∧ tr.det ray < EPSILON then none
      else if tr.u ray < 0 ∨ tr.u ray > 1 then none
      else if tr.v ray < 0 ∨ tr.u ray + tr.v ray > 1 then none
      else if 1 / tr.det ray * (tr.p2.sub tr.p0).dot (cross (ray.orig.sub tr.p0) (tr.p1.sub tr.p0))
          > EPSILON
        then some (1 / tr.det ray
          * (tr.p2.sub tr.p0).dot (cross (ray.orig.sub tr.p0) (tr.p1.sub tr.p0)))
      else none := rfl

theorem triangle_det_ne_zero (tr : Triangle α) (ray : Ray α)
    (h : ¬ (tr.det ray > -EPSILON ∧ tr.det ray < EPSILON)) : tr.det ray ≠ 0 := by
  intro h0
  apply h
  rw [h0]
  exact ⟨by linarith [EPSILON_pos (α := α)], EPSILON_pos⟩

/-- Moller-Trumbore solves the plane equation: with `a ≠ 0` the computed
`t, u, v` satisfy `orig + dir * t = p0 + edge1 * u + edge2 * v`. -/
theorem triangle_solution (tr : Triangle α) (ray : Ray α) (h : tr.det ray ≠ 0) :
    ray.point_at (1 / tr.det ray
        * (tr.p2.sub tr.p0).dot (cross (ray.orig.sub tr.p0) (tr.p1.sub tr.p0)))
      = tr.bary (tr.u ray) (tr.v ray) := by
  have h' := h
  simp only [Triangle.det, Vec3f.dot, Vec3f.sub, cross] at h'
  simp only [Ray.point_at, Triangle.bary, Triangle.u, Triangle.v, Triangle.det, Vec3f.dot,
    Vec3f.sub, Vec3f.add, Vec3f.scale, cross, Vec3f.mk.injEq]
  refine ⟨?_, ?_, ?_⟩ <;> (field_simp; ring)

/-- Uniqueness: if the line meets the plane at barycentric `(u, v)` and `a ≠ 0`
then `(u, v)` are the coordinates the code computes. -/
theorem triangle_unique (tr : Triangle α) (ray : Ray α) (h : tr.det ray ≠ 0) (t u v : α)
    (hp : ray.point_at t = tr.bary u v) : tr.u ray = u ∧ tr.v ray = v := by
  simp only [Ray.point_at, Triangle.bary, Vec3f.sub, Vec3f.add, Vec3f.scale,
    Vec3f.mk.injEq] at hp
  obtain ⟨hx, hy, hz⟩ := hp
  have hu : (ray.orig.sub tr.p0).dot (cross ray.dir (tr.p2.sub tr.p0)) = u * tr.det ray := by
    simp only [Triangle.det, Vec3f.dot, Vec3f.sub, cross]
    linear_combination (ray.dir.y * (tr.p2.z - tr.p0.z) - ray.dir.z * (tr.p2.y - tr.p0.y)) * hx
      + (ray.dir.z * (tr.p2.x - tr.p0.x) - ray.dir.x * (tr.p2.z - tr.p0.z)) * hy
      + (ray.dir.x * (tr.p2.y - tr.p0.y) - ray.dir.y * (tr.p2.x - tr.p0.x)) * hz
  have hv : ray.dir.dot (cross (ray.orig.sub tr.p0) (tr.p1.sub tr.p0)) = v * tr.det ray := by
    simp only [Triangle.det, Vec3f.dot, Vec3f.sub, cross]
    linear_combination ((tr.p1.y - tr.p0.y) * ray.dir.z - (tr.p1.z - tr.p0.z) * ray.dir.y) * hx
      + ((tr.p1.z - tr.p0.z) * ray.dir.x - (tr.p1.x - tr.p0.x) * ray.dir.z) * hy
      + ((tr.p1.x - tr.p0.x) * ray.dir.y - (tr.p1.y - tr.p0.y) * ray.dir.x) * hz
  constructor
  · rw [Triangle.u, hu]; field_simp
  · rw [Triangle.v, hv]; field_simp


theorem triangle_unique_t (tr : Triangle α) (ray : Ray α) (h : tr.det ray ≠ 0) (t u v : α)
    (hp : ray.point_at t = tr.bary u v) :
    1 / tr.det ray * (tr.p2.sub tr.p0).dot (cross (ray.orig.sub tr.p0) (tr.p1.sub tr.p0)) = t := by
  simp only [Ray.point_at, Triangle.bary, Vec3f.sub, Vec3f.add, Vec3f.scale,
    Vec3f.mk.injEq] at hp
  obtain ⟨hx, hy, hz⟩ := hp
  have ht : (tr.p2.sub tr.p0).dot (cross (ray.orig.sub tr.p0) (tr.p1.sub tr.p0))
      = t * tr.det ray := by
    simp only [Triangle.det, Vec3f.dot, Vec3f.sub, cross]
    linear_combination
      ((tr.p1.y - tr.p0.y) * (tr.p2.z - tr.p0.z) - (tr.p1.z - tr.p0.z) * (tr.p2.y - tr.p0.y)) * hx
      + ((tr.p1.z - tr.p0.z) * (tr.p2.x - tr.p0.x) - (tr.p1.x - tr.p0.x) * (tr.p2.z - tr.p0.z)) * hy
      + ((tr.p1.x - tr.p0.x) * (tr.p2.y - tr.p0.y) - (tr.p1.y - tr.p0.y) * (tr.p2.x - tr.p0.x)) * hz
  rw [ht]; field_simp

theorem triangle_hit_gt_epsilon (tr : Triangle α) (ray : Ray α) (t0 : α)
    (h : tr.ray_intersect ray = some t0) : EPSILON < t0 := by
  rw [triangle_ray_intersect_cases] at h
  split_ifs at h with h1 h2 h3 h4
  rw [← Option.some.inj h]
  exact h4

/-- C9: soundness of `Triangle::ray_intersect` (Moller-Trumbore): whenever it
returns true, `t0 > EPSILON = 1e-7` and `orig + t0 * dir` equals
`p0 + u * (p1 - p0) + v * (p2 - p0)` for the computed `u, v`, which satisfy
`u >= 0`, `v >= 0`, `u + v <= 1`; consequently a ray whose line meets the
triangle's plane at barycentric coordinates with `u > 1`, `u < 0`, `v < 0` or
`u + v > 1` returns false. -/
theorem triangle_ray_intersect_sound (tr : Triangle α) (ray : Ray α) :
    (∀ t0, tr.ray_intersect ray = some t0 →
        EPSILON < t0 ∧ ray.point_at t0 = tr.bary (tr.u ray) (tr.v ray) ∧
          0 ≤ tr.u ray ∧ 0 ≤ tr.v ray ∧ tr.u ray + tr.v ray ≤ 1) ∧
      (∀ t u v, ray.point_at t = tr.bary u v → (1 < u ∨ u < 0 ∨ v < 0 ∨ 1 < u + v) →
        tr.ray_intersect ray = none) := by
  have hsome : ∀ t0, tr.ray_intersect ray = some t0 →
      tr.det ray ≠ 0 ∧ EPSILON < t0 ∧ ray.point_at t0 = tr.bary (tr.u ray) (tr.v ray) ∧
          0 ≤ tr.u ray ∧ 0 ≤ tr.v ray ∧ tr.u ray + tr.v ray ≤ 1 := by
    intro t0 h
    rw [triangle_ray_intersect_cases] at h
    split_ifs at h with h1 h2 h3 h4
    have hd := triangle_det_ne_zero tr ray h1
    have ht0 := Option.some.inj h
    simp only [not_or, not_lt] at h2 h3
    refine ⟨hd, ?_, ?_, h2.1, h3.1, h3.2⟩
    · rw [← ht0]; exact h4
    · rw [← ht0]; exact triangle_solution tr ray hd
  refine ⟨fun t0 h => (hsome t0 h).2, ?_⟩
  intro t u v hp hout
  cases hres : tr.ray_intersect ray with
  | none => rfl
  | some t0 =>
    exfalso
    obtain ⟨hd, _, _, hu, hv, huv⟩ := hsome t0 hres
    obtain ⟨e1, e2⟩ := triangle_unique tr ray hd t u v hp
    rw [e1] at hu huv
    rw [e2] at hv huv
    rcases hout with h | h | h | h <;> linarith

end TriangleTheorems

section TriangleCentroid

/-- Witness for C9: the ray along `-z` hits `triZ` at distance 10. -/
theorem triangle_ray_intersect_sound_witness :
    (EPSILON : ℝ) < 10 ∧
      (rayZ : Ray ℝ).point_at 10 = (triZ : Triangle ℝ).bary (triZ.u rayZ) (triZ.v rayZ) :=
  have h := (triangle_ray_intersect_sound (triZ : Triangle ℝ) rayZ).1 10 (by
    norm_num [Triangle.ray_intersect, triZ, rayZ, Ray.make, Vec3f.sub, Vec3f.dot, cross, EPSILON])
  ⟨h.1, h.2.1⟩

/-- C10 as stated fails on the epsilon guards: a non-degenerate triangle with
legs `1e-4` has determinant `1e-8 < EPSILON` for the ray aimed at its centroid
from distance 1, and a ray aimed at the centroid of a large triangle from
distance `1e-8 <= EPSILON` is rejected by the test `t > EPSILON`; in both cases
the origin is off the plane, the direction is the unit vector toward the
centroid, and `Triangle::ray_intersect` returns false. -/
theorem triangle_centroid_counterexample :
    (cross ((tinyTri : Triangle ℝ).p1.sub tinyTri.p0) (tinyTri.p2.sub tinyTri.p0) ≠ ⟨0, 0, 0⟩ ∧
      ((rayTiny : Ray ℝ).orig.sub tinyTri.p0).dot
        (cross ((tinyTri : Triangle ℝ).p1.sub tinyTri.p0) (tinyTri.p2.sub tinyTri.p0)) ≠ 0 ∧
      (rayTiny : Ray ℝ).dir = ((tinyTri : Triangle ℝ).centroid.sub rayTiny.orig).normalize Real.sqrt ∧
      (rayTiny : Ray ℝ).dir.dot rayTiny.dir = 1 ∧
      (tinyTri : Triangle ℝ).ray_intersect rayTiny = none) ∧
    (cross ((bigTri : Triangle ℝ).p1.sub bigTri.p0) (bigTri.p2.sub bigTri.p0) ≠ ⟨0, 0, 0⟩ ∧
      ((rayNear : Ray ℝ).orig.sub bigTri.p0).dot
        (cross ((bigTri : Triangle ℝ).p1.sub bigTri.p0) (bigTri.p2.sub bigTri.p0)) ≠ 0 ∧
      (rayNear : Ray ℝ).dir = ((bigTri : Triangle ℝ).centroid.sub rayNear.orig).normalize Real.sqrt ∧
      (rayNear : Ray ℝ).dir.dot rayNear.dir = 1 ∧
      (bigTri : Triangle ℝ).ray_intersect rayNear = none) := by
  have hs : Real.sqrt (1 / 10000000000000000) = 1 / 100000000 := by
    rw [show (1 / 10000000000000000 : ℝ) = (1 / 100000000) ^ 2 by norm_num]
    exact Real.sqrt_sq (by norm_num)
  refine ⟨⟨?_, ?_, ?_, ?_, ?_⟩, ?_, ?_, ?_, ?_, ?_⟩
  · norm_num [tinyTri, cross, Vec3f.sub]
  · norm_num [tinyTri, rayTiny, Ray.make, cross, Vec3f.sub, Vec3f.dot]
  · norm_num [tinyTri, rayTiny, Ray.make, Triangle.centroid, Vec3f.normalize, Vec3f.norm,
      Vec3f.sub, Vec3f.add, Vec3f.scale, Vec3f.dot]
  · norm_num [rayTiny, Ray.make, Vec3f.dot]
  · norm_num [Triangle.ray_intersect, tinyTri, rayTiny, Ray.make, Vec3f.sub, Vec3f.dot, cross,
      EPSILON]
  · norm_num [bigTri, cross, Vec3f.sub]
  · norm_num [bigTri, rayNear, Ray.make, cross, Vec3f.sub, Vec3f.dot]
  · norm_num [bigTri, rayNear, Ray.make, Triangle.centroid, Vec3f.normalize, Vec3f.norm,
      Vec3f.sub, Vec3f.add, Vec3f.scale, Vec3f.dot, hs]
  · norm_num [rayNear, Ray.make, Vec3f.dot]
  · norm_num [Triangle.ray_intersect, bigTri, rayNear, Ray.make, Vec3f.sub, Vec3f.dot, cross,
      EPSILON]

/-- C10 (amended): for every triangle and every ray whose direction is the unit
vector from the origin toward the centroid `(p0 + p1 + p2) / 3`, if the
determinant `a = edge1 * cross(dir, edge2)` is outside `(-EPSILON, EPSILON)`
and the distance from the origin to the centroid exceeds `EPSILON`, then
`Triangle::ray_intersect` returns true with `t0` equal to that distance. -/
theorem triangle_centroid_hit (tr : Triangle ℝ) (ray : Ray ℝ)
    (hdet : ¬ (tr.det ray > -EPSILON ∧ tr.det ray < EPSILON))
    (hdist : EPSILON < (tr.centroid.sub ray.orig).norm Real.sqrt)
    (hdir : ray.dir = (tr.centroid.sub ray.orig).normalize Real.sqrt) :
    tr.ray_intersect ray = some ((tr.centroid.sub ray.orig).norm Real.sqrt) := by
  have hd := triangle_det_ne_zero tr ray hdet
  have hD : (0 : ℝ) < (tr.centroid.sub ray.orig).norm Real.sqrt :=
    lt_trans EPSILON_pos hdist
  have hp : ray.point_at ((tr.centroid.sub ray.orig).norm Real.sqrt)
      = tr.bary (1 / 3) (1 / 3) := by
    have hdir2 := hdir
    rw [Vec3f.normalize] at hdir2
    generalize (tr.centroid.sub ray.orig).norm Real.sqrt = D at hD hdir2
    simp only [Ray.point_at, hdir2, Triangle.bary, Triangle.centroid, Vec3f.sub,
      Vec3f.add, Vec3f.scale, Vec3f.mk.injEq]
    refine ⟨?_, ?_, ?_⟩ <;> (field_simp; ring)
  obtain ⟨hu, hv⟩ := triangle_unique tr ray hd _ _ _ hp
  have ht := triangle_unique_t tr ray hd _ _ _ hp
  rw [triangle_ray_intersect_cases, if_neg hdet, hu, hv, ht]
  rw [if_neg (by norm_num), if_neg (by norm_num), if_pos hdist]

/-- Witness for C10 (amended): the ray along `-z` from `(0, -1/3, 0)` is aimed at
the centroid `(0, -1/3, -10)` of `triZ`. -/
theorem triangle_centroid_hit_witness :
    (triZ : Triangle ℝ).ray_intersect (Ray.make ⟨0, -1 / 3, 0⟩ ⟨0, 0, -1⟩)
      = some (((triZ : Triangle ℝ).centroid.sub ⟨0, -1 / 3, 0⟩).norm Real.sqrt) := by
  have hs : Real.sqrt 100 = 10 := by
    rw [show (100 : ℝ) = 10 ^ 2 by norm_num]
    exact Real.sqrt_sq (by norm_num)
  exact triangle_centroid_hit triZ (Ray.make ⟨0, -1 / 3, 0⟩ ⟨0, 0, -1⟩)
    (by norm_num [Triangle.det, triZ, Ray.make, Vec3f.sub, Vec3f.dot, cross, EPSILON])
    (by norm_num [triZ, Ray.make, Triangle.centroid, Vec3f.norm, Vec3f.sub, Vec3f.add,
      Vec3f.scale, Vec3f.dot, EPSILON, hs])
    (by norm_num [triZ, Ray.make, Triangle.centroid, Vec3f.normalize, Vec3f.norm, Vec3f.sub,
      Vec3f.add, Vec3f.scale, Vec3f.dot, hs])

end TriangleCentroid

section SceneEvaluation

/-- C1 fails on the code (the per-category minima are not one global minimum):
the ray from the origin along `-z` meets the unit sphere `sphereZ` at distance 4
and the triangle `triZ` behind it at distance 10, and does not reach the plane
(`dir.y = 0`); with the sphere listed first `scene_intersect` outputs the hit
point and material of the triangle, with the triangle listed first those of
the sphere. -/
theorem scene_intersect_far_triangle_wins :
    (Figure.sphere sphereZ).ray_intersect Real.sqrt (rayZ : Ray ℝ) = some 4 ∧
      (Figure.triangle triZ).ray_intersect Real.sqrt (rayZ : Ray ℝ) = some 10 ∧
      scene_intersect (envOf Real.sqrt (fun x y => x ^ y)) rayZ
          [Figure.sphere sphereZ, Figure.triangle triZ] ⟨0, 0, 0⟩ ⟨0, 0, 0⟩ plain
        = ⟨true, ⟨0, 0, -10⟩, ⟨0, 0, 1⟩, clay⟩ ∧
      scene_intersect (envOf Real.sqrt (fun x y => x ^ y)) rayZ
          [Figure.triangle triZ, Figure.sphere sphereZ] ⟨0, 0, 0⟩ ⟨0, 0, 0⟩ plain
        = ⟨true, ⟨0, 0, -4⟩, ⟨0, 0, 1⟩, matte⟩ := by
  have hs : Real.sqrt 16 = 4 := by
    rw [show (16 : ℝ) = 4 ^ 2 by norm_num]
    exact Real.sqrt_sq (by norm_num)
  have h1 : (Figure.sphere sphereZ).ray_intersect Real.sqrt (rayZ : Ray ℝ) = some 4 := by
    norm_num [Figure.ray_intersect, Sphere.ray_intersect, sphereZ, rayZ, Ray.make, Vec3f.sub,
      Vec3f.dot]
  have h2 : (Figure.triangle triZ).ray_intersect Real.sqrt (rayZ : Ray ℝ) = some 10 := by
    norm_num [Figure.ray_intersect, Triangle.ray_intersect, triZ, rayZ, Ray.make, Vec3f.sub,
      Vec3f.dot, cross, EPSILON]
  refine ⟨h1, h2, ?_, ?_⟩
  all_goals
    simp only [scene_intersect, scene_loop, List.foldl, scene_step, envOf, h1, h2]
    norm_num [sphereZ, triZ, rayZ, Ray.make, Vec3f.sub, Vec3f.dot, cross, outward_normal,
      FLT_MAX, Figure.NeededDist, Figure.setNeededDist, Figure.SetNeededNormHitMaterial,
      Figure.material, Vec3f.normalize, Vec3f.norm, Vec3f.scale, Vec3f.add, hs]

/-- C2 fails on the code (the plane test does not compare with `cubes_dist`):
the ray `rayA` enters the box `cubeA` at distance `35/12` and meets the plane
`y = -4` only at distance `28/3`, yet `scene_intersect` outputs the plane's hit
point `(8/3, -4, -8)` and normal `(0, 1, 0)` instead of the cube's hit point
`(5/6, -5/4, -5/2)`. -/
theorem scene_intersect_plane_over_cube :
    (Figure.cube cubeA).ray_intersect Real.sqrt (rayA : Ray ℝ) = some (35 / 12) ∧
      -((rayA : Ray ℝ).orig.y + 4) / (rayA : Ray ℝ).dir.y = 28 / 3 ∧
      (rayA : Ray ℝ).point_at (35 / 12) = ⟨5 / 6, -5 / 4, -5 / 2⟩ ∧
      (scene_intersect (envOf Real.sqrt (fun x y => x ^ y)) rayA [Figure.cube cubeA]
          ⟨0, 0, 0⟩ ⟨0, 0, 0⟩ plain).found = true ∧
      (scene_intersect (envOf Real.sqrt (fun x y => x ^ y)) rayA [Figure.cube cubeA]
          ⟨0, 0, 0⟩ ⟨0, 0, 0⟩ plain).hit = ⟨8 / 3, -4, -8⟩ ∧
      (scene_intersect (envOf Real.sqrt (fun x y => x ^ y)) rayA [Figure.cube cubeA]
          ⟨0, 0, 0⟩ ⟨0, 0, 0⟩ plain).N = ⟨0, 1, 0⟩ := by
  have hc : (Figure.cube cubeA).ray_intersect Real.sqrt (rayA : Ray ℝ) = some (35 / 12) := by
    norm_num [Figure.ray_intersect, Cube.ray_intersect, cubeA, rayA, Ray.make, Cube.bounds,
      xfloat_fin_mul_fin, xfloat_fin_lt_fin, xfloat_fin_lt_zero, XFloat.recip]
  have habs : |(3 / 7 : ℝ)| = 3 / 7 := abs_of_pos (by norm_num)
  refine ⟨hc, ?_, ?_, ?_, ?_, ?_⟩
  · norm_num [rayA, Ray.make]
  · norm_num [rayA, Ray.make, Ray.point_at, Vec3f.add, Vec3f.scale]
  all_goals
    simp only [scene_intersect, scene_loop, List.foldl, scene_step, envOf, hc]
    norm_num [rayA, Ray.make, FLT_MAX, Figure.NeededDist, Figure.setNeededDist,
      Figure.SetNeededNormHitMaterial, Vec3f.scale, Vec3f.add, habs]

end SceneEvaluation

section ShadowTheorems

theorem neededDist_eq_dist {α : Type} [LinearOrderedField α] (p : Figure α) (st : SceneState α) :
    p.NeededDist st = st.dist p.category := by
  cases p <;> rfl

theorem figure_hit_nonneg (p : Figure ℝ) (ray : Ray ℝ) (t : ℝ)
    (h : p.ray_intersect Real.sqrt ray = some t) : 0 ≤ t := by
  cases p with
  | sphere s =>
    simp only [Figure.ray_intersect] at h
    rw [sphere_ray_intersect_cases] at h
    exact (sphere_roots _ _ _ t h).1
  | triangle tr =>
    simp only [Figure.ray_intersect] at h
    exact le_of_lt (lt_trans EPSILON_pos (triangle_hit_gt_epsilon tr ray t h))
  | cube c =>
    simp only [Figure.ray_intersect] at h
    cases hres : c.ray_intersect ray with
    | none => rw [hres] at h; simp at h
    | some t0 =>
      rw [hres] at h
      cases t0 with
      | fin x =>
        simp only [Option.some.injEq] at h
        subst h
        exact not_lt.mp (cube_ray_intersect_not_neg c ray _ hres)
      | pinf => simp at h
      | ninf => simp at h
      | nan => simp at h

/-- One loop iteration on a primitive that is of category `c` or is missed by
the ray: the minimum of `c` can
only decrease, falls to at most the primitive's distance, the other minima are
untouched, and the recorded hit point stays the point at the minimum of `c`. -/
theorem scene_step_category (E : Env ℝ) (hE : E.sqrtf = Real.sqrt) (ray : Ray ℝ)
    (st : SceneState ℝ) (p : Figure ℝ) (c : Nat)
    (hc : p.category = c ∨ p.ray_intersect Real.sqrt ray = none) :
    (scene_step E ray st p).dist c ≤ st.dist c ∧
      (∀ c', c' ≠ c → (scene_step E ray st p).dist c' = st.dist c') ∧
      (∀ t, p.ray_intersect Real.sqrt ray = some t → (scene_step E ray st p).dist c ≤ t) ∧
      ((st.dist c < FLT_MAX → st.hit = ray.point_at (st.dist c) ∧ 0 ≤ st.dist c) →
        ((scene_step E ray st p).dist c < FLT_MAX →
          (scene_step E ray st p).hit = ray.point_at ((scene_step E ray st p).dist c) ∧
            0 ≤ (scene_step E ray st p).dist c)) := by
  rcases hc with hc | hnone
  swap
  · unfold scene_step
    rw [hE, hnone]
    exact ⟨le_refl _, fun _ _ => rfl, fun t ht => absurd ht (by simp), fun h => h⟩
  subst hc
  unfold scene_step
  rw [hE]
  cases hres : p.ray_intersect Real.sqrt ray with
  | none => simp
  | some d =>
    have hd := figure_hit_nonneg p ray d hres
    simp only [neededDist_eq_dist]
    by_cases hlt : d < st.dist p.category
    · rw [if_pos hlt]
      have e1 : (p.SetNeededNormHitMaterial E ray d (p.setNeededDist st d)).dist p.category = d := by
        cases p <;> simp [Figure.SetNeededNormHitMaterial, Figure.setNeededDist, SceneState.dist,
          Figure.category]
      have e2 : ∀ c', c' ≠ p.category →
          (p.SetNeededNormHitMaterial E ray d (p.setNeededDist st d)).dist c' = st.dist c' := by
        intro c' hc'
        cases p <;> simp only [Figure.category] at hc' <;>
          simp [Figure.SetNeededNormHitMaterial, Figure.setNeededDist, SceneState.dist, hc']
      have e3 : (p.SetNeededNormHitMaterial E ray d (p.setNeededDist st d)).hit
          = ray.point_at d := by
        cases p <;> rfl
      rw [e1, e3]
      refine ⟨le_of_lt hlt, e2, ?_, ?_⟩
      · intro t ht
        rw [Option.some.inj ht]
      · intro _ _
        exact ⟨rfl, hd⟩
    · rw [if_neg hlt]
      refine ⟨le_refl _, fun _ _ => rfl, ?_, fun h => h⟩
      intro t ht
      rw [← Option.some.inj ht]
      exact not_lt.mp hlt


theorem scene_fold_category (E : Env ℝ) (hE : E.sqrtf = Real.sqrt) (ray : Ray ℝ) (c : Nat) :
    ∀ (figures : List (Figure ℝ)) (st : SceneState ℝ),
      (∀ p ∈ figures, p.category = c ∨ p.ray_intersect Real.sqrt ray = none) →
      (figures.foldl (scene_step E ray) st).dist c ≤ st.dist c ∧
      (∀ c', c' ≠ c → (figures.foldl (scene_step E ray) st).dist c' = st.dist c') ∧
      (∀ p ∈ figures, ∀ t, p.ray_intersect Real.sqrt ray = some t →
        (figures.foldl (scene_step E ray) st).dist c ≤ t) ∧
      ((st.dist c < FLT_MAX → st.hit = ray.point_at (st.dist c) ∧ 0 ≤ st.dist c) →
        ((figures.foldl (scene_step E ray) st).dist c < FLT_MAX →
          (figures.foldl (scene_step E ray) st).hit
              = ray.point_at ((figures.foldl (scene_step E ray) st).dist c) ∧
            0 ≤ (figures.foldl (scene_step E ray) st).dist c)) := by
  intro figures
  induction figures with
  | nil =>
    intro st _
    exact ⟨le_refl _, fun _ _ => rfl, fun p hp => absurd hp (List.not_mem_nil p), fun h => h⟩
  | cons q rest ih =>
    intro st hcat
    obtain ⟨s1, s2, s3, s4⟩ :=
      scene_step_category E hE ray st q c (hcat q (List.mem_cons_self q rest))
    obtain ⟨f1, f2, f3, f4⟩ :=
      ih (scene_step E ray st q) (fun p hp => hcat p (List.mem_cons_of_mem q hp))
    simp only [List.foldl_cons]
    refine ⟨le_trans f1 s1, ?_, ?_, fun h => f4 (s4 h)⟩
    · intro c' hc'
      rw [f2 c' hc', s2 c' hc']
    · intro p hp t ht
      rcases List.mem_cons.mp hp with h | h
      · subst h
        exact le_trans f1 (s3 t ht)
      · exact f3 p h t ht

/-- When all primitives that the ray intersects are spheres, or all are
triangles, a primitive hit within the horizon makes `scene_intersect` report a hit whose point lies on
the ray at a distance between 0 and that primitive's distance. -/
theorem scene_intersect_category (E : Env ℝ) (hE : E.sqrtf = Real.sqrt) (ray : Ray ℝ)
    (figures : List (Figure ℝ)) (hit N : Vec3f ℝ) (material : Material ℝ) (c : Nat)
    (hc : c = 0 ∨ c = 1)
    (hcat : ∀ p ∈ figures, p.category = c ∨ p.ray_intersect Real.sqrt ray = none)
    (p : Figure ℝ) (hp : p ∈ figures) (t : ℝ)
    (hhit : p.ray_intersect Real.sqrt ray = some t) (hhor : t < 1000) :
    (scene_intersect E ray figures hit N material).found = true ∧
      ∃ d, 0 ≤ d ∧ d ≤ t ∧ (scene_intersect E ray figures hit N material).hit = ray.point_at d := by
  have hF : (1000 : ℝ) < FLT_MAX := by norm_num [FLT_MAX]
  obtain ⟨_, f2, f3, f4⟩ := scene_fold_category E hE ray c figures
    { spheres_dist := FLT_MAX, triangles_dist := FLT_MAX, cubes_dist := FLT_MAX,
      hit := hit, N := N, material := material } hcat
  have hD := f3 p hp t hhit
  obtain ⟨g1, g2⟩ := f4 (fun h => by
      exfalso
      rcases hc with h0 | h0 <;> subst h0 <;> simp [SceneState.dist] at h) (lt_trans (lt_of_le_of_lt hD hhor) hF)
  unfold scene_intersect
  simp only
  change (scene_loop E ray figures hit N material).dist c ≤ t at hD
  change (scene_loop E ray figures hit N material).hit
    = ray.point_at ((scene_loop E ray figures hit N material).dist c) at g1
  change 0 ≤ (scene_loop E ray figures hit N material).dist c at g2
  generalize scene_loop E ray figures hit N material = st at hD g1 g2 ⊢
  have hmin : ∀ x : ℝ, min (min (min st.spheres_dist x) st.cubes_dist) st.triangles_dist
      ≤ st.dist c := by
    intro x
    rcases hc with h0 | h0 <;> subst h0 <;> simp only [SceneState.dist]
    · exact le_trans (min_le_left _ _) (le_trans (min_le_left _ _) (min_le_left _ _))
    · simp only [one_ne_zero, if_false, if_true]
      exact min_le_right _ _
  have hfound : ∀ x : ℝ, decide (min (min (min st.spheres_dist x) st.cubes_dist)
      st.triangles_dist < 1000) = true := by
    intro x
    exact decide_eq_true (lt_of_le_of_lt (hmin x) (lt_of_le_of_lt hD hhor))
  split_ifs with h1 h2
  · refine ⟨hfound _, -(ray.orig.y + 4) / ray.dir.y, le_of_lt h2.1, ?_, rfl⟩
    have h4 : -(ray.orig.y + 4) / ray.dir.y < st.dist c := by
      rcases hc with h0 | h0 <;> subst h0 <;> simp only [SceneState.dist]
      · exact h2.2.1
      · simp only [one_ne_zero, if_false, if_true]
        exact h2.2.2
    exact le_of_lt (lt_of_lt_of_le h4 hD)
  · exact ⟨hfound _, st.dist c, g2, hD, g1⟩
  · exact ⟨hfound _, st.dist c, g2, hD, g1⟩

theorem norm_point_at_sub_orig (ray : Ray ℝ) (d : ℝ) (hd : 0 ≤ d)
    (hdir : ray.dir.dot ray.dir = 1) :
    ((ray.point_at d).sub ray.orig).norm Real.sqrt = d := by
  rw [norm_eq_iff _ _ hd]
  simp only [Ray.point_at, Vec3f.dot, Vec3f.sub, Vec3f.add, Vec3f.scale] at hdir ⊢
  linear_combination (d * d) * hdir

theorem normalize_dot_self (w : Vec3f ℝ) (hw : 0 < w.norm Real.sqrt) :
    (w.normalize Real.sqrt).dot (w.normalize Real.sqrt) = 1 := by
  have hn : w.norm Real.sqrt * w.norm Real.sqrt = w.dot w :=
    Real.mul_self_sqrt (dot_self_nonneg w)
  have h1 : (w.normalize Real.sqrt).dot (w.normalize Real.sqrt)
      = w.dot w * (1 / w.norm Real.sqrt) ^ 2 := by
    simp only [Vec3f.normalize, Vec3f.dot, Vec3f.scale]
    ring
  rw [h1, ← hn]
  field_simp
  ring


theorem in_shadow_eq {α : Type} [LinearOrderedField α] [FloorRing α] (E : Env α)
    (figures : List (Figure α)) (point N : Vec3f α) (l : Light α) :
    in_shadow E figures point N l =
      ((scene_intersect E (shadow_ray E point N l) figures E.vec_default E.vec_default
          E.material_default).found
        && decide (((scene_intersect E (shadow_ray E point N l) figures E.vec_default
            E.vec_default E.material_default).hit.sub (shadow_ray E point N l).orig).norm E.sqrtf
          < (l.position.sub point).norm E.sqrtf)) := rfl

theorem sqrt_100 : Real.sqrt 100 = 10 := by
  rw [show (100 : ℝ) = 10 ^ 2 by norm_num]
  exact Real.sqrt_sq (by norm_num)

theorem sqrt_2500 : Real.sqrt 2500 = 50 := by
  rw [show (2500 : ℝ) = 50 ^ 2 by norm_num]
  exact Real.sqrt_sq (by norm_num)

theorem sqrt_9000000 : Real.sqrt 9000000 = 3000 := by
  rw [show (9000000 : ℝ) = 3000 ^ 2 by norm_num]
  exact Real.sqrt_sq (by norm_num)

theorem shadow_ray_near :
    shadow_ray (envOf Real.sqrt (fun x y => x ^ y)) pointP normalUp lightNear
      = (rayShadow : Ray ℝ) := by
  norm_num [shadow_ray, envOf, pointP, normalUp, lightNear, rayShadow, Ray.make, offset_orig,
    Vec3f.normalize, Vec3f.norm, Vec3f.sub, Vec3f.add, Vec3f.scale, Vec3f.dot, sqrt_100]

theorem shadow_ray_far :
    shadow_ray (envOf Real.sqrt (fun x y => x ^ y)) pointP normalUp lightFar
      = (rayShadow : Ray ℝ) := by
  norm_num [shadow_ray, envOf, pointP, normalUp, lightFar, rayShadow, Ray.make, offset_orig,
    Vec3f.normalize, Vec3f.norm, Vec3f.sub, Vec3f.add, Vec3f.scale, Vec3f.dot, sqrt_9000000]

theorem sphereY_hit :
    (Figure.sphere sphereY).ray_intersect Real.sqrt (rayShadow : Ray ℝ) = some 4 := by
  norm_num [Figure.ray_intersect, Sphere.ray_intersect, sphereY, rayShadow, Ray.make, Vec3f.sub,
    Vec3f.dot]

theorem sphereFar_hit :
    (Figure.sphere sphereFar).ray_intersect Real.sqrt (rayShadow : Ray ℝ) = some 1999 := by
  norm_num [Figure.ray_intersect, Sphere.ray_intersect, sphereFar, rayShadow, Ray.make,
    Vec3f.sub, Vec3f.dot]

theorem triFar_hit :
    (Figure.triangle triFar).ray_intersect Real.sqrt (rayShadow : Ray ℝ) = some 50 := by
  norm_num [Figure.ray_intersect, Triangle.ray_intersect, triFar, rayShadow, Ray.make,
    Vec3f.sub, Vec3f.dot, cross, EPSILON]

theorem sphereY_miss :
    (Figure.sphere sphereY).ray_intersect Real.sqrt (rayDown : Ray ℝ) = none := by
  norm_num [Figure.ray_intersect, Sphere.ray_intersect, sphereY, rayDown, Ray.make, Vec3f.sub,
    Vec3f.dot]

theorem sphereFar_miss :
    (Figure.sphere sphereFar).ray_intersect Real.sqrt (rayDown : Ray ℝ) = none := by
  norm_num [Figure.ray_intersect, Sphere.ray_intersect, sphereFar, rayDown, Ray.make, Vec3f.sub,
    Vec3f.dot]

theorem triFar_miss :
    (Figure.triangle triFar).ray_intersect Real.sqrt (rayDown : Ray ℝ) = none := by
  norm_num [Figure.ray_intersect, Triangle.ray_intersect, triFar, rayDown, Ray.make, Vec3f.sub,
    Vec3f.dot, cross, EPSILON]

/-- The primary ray `rayDown` misses the listed primitives and hits the
checkerboard plane at `pointP` with normal `normalUp`. -/
theorem rayDown_hits_plane (figures : List (Figure ℝ))
    (h : ∀ p ∈ figures, p.ray_intersect Real.sqrt (rayDown : Ray ℝ) = none) :
    (scene_intersect (envOf Real.sqrt (fun x y => x ^ y)) rayDown figures
        ⟨0, 0, 0⟩ ⟨0, 0, 0⟩ plain).found = true ∧
      (scene_intersect (envOf Real.sqrt (fun x y => x ^ y)) rayDown figures
        ⟨0, 0, 0⟩ ⟨0, 0, 0⟩ plain).hit = pointP ∧
      (scene_intersect (envOf Real.sqrt (fun x y => x ^ y)) rayDown figures
        ⟨0, 0, 0⟩ ⟨0, 0, 0⟩ plain).N = normalUp := by
  have hloop : ∀ (l : List (Figure ℝ)) (st : SceneState ℝ),
      (∀ p ∈ l, p.ray_intersect Real.sqrt (rayDown : Ray ℝ) = none) →
      l.foldl (scene_step (envOf Real.sqrt (fun x y => x ^ y)) rayDown) st = st := by
    intro l
    induction l with
    | nil => intro st _; rfl
    | cons q rest ih =>
      intro st hq
      have h1 : scene_step (envOf Real.sqrt (fun x y => x ^ y)) rayDown st q = st := by
        simp only [scene_step, envOf, hq q (List.mem_cons_self q rest)]
      rw [List.foldl_cons, h1]
      exact ih st (fun p hp => hq p (List.mem_cons_of_mem q hp))
  have habs : |(4 / 5 : ℝ)| = 4 / 5 := abs_of_pos (by norm_num)
  simp only [scene_intersect, scene_loop, hloop figures _ h]
  norm_num [rayDown, Ray.make, FLT_MAX, Vec3f.scale, Vec3f.add, pointP, normalUp, habs]

/-- Where the shadow test works: if some primitive intersects the shadow ray
of a light (cast from the normal-offset origin toward the light) at a distance
that is strictly less than the distance to the light and less than the scene
horizon 1000, and the primitives that the shadow ray intersects are all
spheres or all triangles, then the loop iteration of that light leaves the
diffuse and specular sums unchanged. -/
theorem shadow_blocks_light (E : Env ℝ) (hE : E.sqrtf = Real.sqrt) (ray : Ray ℝ)
    (figures : List (Figure ℝ)) (point N : Vec3f ℝ) (material : Material ℝ) (acc : ℝ × ℝ)
    (l : Light ℝ) (c : Nat) (hc : c = 0 ∨ c = 1)
    (hcat : ∀ q ∈ figures, q.category = c ∨
      q.ray_intersect Real.sqrt (shadow_ray E point N l) = none)
    (p : Figure ℝ) (hp : p ∈ figures) (t : ℝ)
    (hhit : p.ray_intersect Real.sqrt (shadow_ray E point N l) = some t)
    (hlt : t < (l.position.sub point).norm Real.sqrt) (hhor : t < 1000) :
    light_step E ray figures point N material acc l = acc := by
  have ht0 : 0 ≤ t := figure_hit_nonneg p _ t hhit
  have hw : 0 < (l.position.sub point).norm Real.sqrt := lt_of_le_of_lt ht0 hlt
  obtain ⟨hfound, d, hd0, hdt, hhitpt⟩ := scene_intersect_category E hE (shadow_ray E point N l)
    figures E.vec_default E.vec_default E.material_default c hc hcat p hp t hhit hhor
  have hdir : (shadow_ray E point N l).dir.dot (shadow_ray E point N l).dir = 1 := by
    simp only [shadow_ray, Ray.make, hE]
    exact normalize_dot_self _ hw
  have hnorm := norm_point_at_sub_orig (shadow_ray E point N l) d hd0 hdir
  have hshadow : in_shadow E figures point N l = true := by
    unfold in_shadow
    simp only
    change ((scene_intersect E (shadow_ray E point N l) figures E.vec_default E.vec_default
        E.material_default).found
      && decide (((scene_intersect E (shadow_ray E point N l) figures E.vec_default
          E.vec_default E.material_default).hit.sub (shadow_ray E point N l).orig).norm E.sqrtf
        < (l.position.sub point).norm E.sqrtf)) = true
    rw [hfound, hhitpt, hE, hnorm]
    simp only [Bool.true_and, decide_eq_true_eq]
    exact lt_of_le_of_lt hdt hlt
  unfold light_step
  simp only [hshadow, if_true]

/-- The sphere `sphereY` alone blocks `lightNear` at distance 4. -/
theorem shadow_blocks_light_witness :
    light_step (envOf Real.sqrt (fun x y => x ^ y)) rayDown [Figure.sphere sphereY] pointP
      normalUp plain ((0 : ℝ), (0 : ℝ)) lightNear = (0, 0) :=
  shadow_blocks_light (envOf Real.sqrt (fun x y => x ^ y)) rfl rayDown [Figure.sphere sphereY]
    pointP normalUp plain (0, 0) lightNear 0 (Or.inl rfl)
    (by intro p hp; rw [List.mem_singleton.mp hp]; exact Or.inl rfl)
    (Figure.sphere sphereY) (List.mem_singleton.mpr rfl) 4
    (by rw [shadow_ray_near]; exact sphereY_hit)
    (by norm_num [lightNear, pointP, Vec3f.norm, Vec3f.sub, Vec3f.dot, sqrt_100])
    (by norm_num)

theorem light_near_passes (m : Material ℝ) :
    (light_step (envOf Real.sqrt (fun x y => x ^ y)) rayDown
      [Figure.sphere sphereY, Figure.triangle triFar] pointP normalUp m
      ((0 : ℝ), (0 : ℝ)) lightNear).1 = 1 := by
  have hin : in_shadow (envOf Real.sqrt (fun x y => x ^ y))
      [Figure.sphere sphereY, Figure.triangle triFar] pointP normalUp (lightNear : Light ℝ)
      = false := by
    rw [in_shadow_eq, shadow_ray_near]
    simp only [scene_intersect, scene_loop, List.foldl, scene_step, envOf, sphereY_hit,
      triFar_hit]
    norm_num [rayShadow, Ray.make, FLT_MAX, Figure.NeededDist, Figure.setNeededDist,
      Figure.SetNeededNormHitMaterial, Vec3f.scale, Vec3f.add, Vec3f.sub, Vec3f.dot,
      Vec3f.norm, lightNear, pointP, sqrt_100, sqrt_2500]
  rw [light_step, hin]
  norm_num [envOf, lightNear, pointP, normalUp, Vec3f.normalize, Vec3f.norm, Vec3f.sub,
    Vec3f.scale, Vec3f.dot, sqrt_100]

theorem light_far_passes (m : Material ℝ) :
    (light_step (envOf Real.sqrt (fun x y => x ^ y)) rayDown
      [Figure.sphere sphereFar] pointP normalUp m ((0 : ℝ), (0 : ℝ)) lightFar).1 = 1 := by
  have hin : in_shadow (envOf Real.sqrt (fun x y => x ^ y))
      [Figure.sphere sphereFar] pointP normalUp (lightFar : Light ℝ) = false := by
    rw [in_shadow_eq, shadow_ray_far]
    simp only [scene_intersect, scene_loop, List.foldl, scene_step, envOf, sphereFar_hit]
    norm_num [rayShadow, Ray.make, FLT_MAX, Figure.NeededDist, Figure.setNeededDist,
      Figure.SetNeededNormHitMaterial, Vec3f.scale, Vec3f.add, Vec3f.sub, Vec3f.dot,
      Vec3f.norm, lightFar, pointP, sqrt_9000000]
  rw [light_step, hin]
  norm_num [envOf, lightFar, pointP, normalUp, Vec3f.normalize, Vec3f.norm, Vec3f.sub,
    Vec3f.scale, Vec3f.dot, sqrt_9000000]

/-- The scene horizon also bounds the shadow test: the primary ray `rayDown`
hits the checkerboard plane at `pointP` with normal `normalUp`; the sphere
`sphereFar` intersects the shadow ray toward `lightFar` at distance
1999 < 3000, beyond the horizon 1000, so `scene_intersect` reports no hit and
the light adds 1 to the diffuse sum. -/
theorem shadow_beyond_horizon :
    ((scene_intersect (envOf Real.sqrt (fun x y => x ^ y)) rayDown
          [Figure.sphere sphereFar] ⟨0, 0, 0⟩ ⟨0, 0, 0⟩ plain).found = true ∧
        (scene_intersect (envOf Real.sqrt (fun x y => x ^ y)) rayDown
          [Figure.sphere sphereFar] ⟨0, 0, 0⟩ ⟨0, 0, 0⟩ plain).hit = pointP ∧
        (scene_intersect (envOf Real.sqrt (fun x y => x ^ y)) rayDown
          [Figure.sphere sphereFar] ⟨0, 0, 0⟩ ⟨0, 0, 0⟩ plain).N = normalUp) ∧
      (Figure.sphere sphereFar).ray_intersect Real.sqrt
        (shadow_ray (envOf Real.sqrt (fun x y => x ^ y)) pointP normalUp lightFar) = some 1999 ∧
      (1999 : ℝ) < ((lightFar : Light ℝ).position.sub pointP).norm Real.sqrt ∧
      ∀ m : Material ℝ, (light_step (envOf Real.sqrt (fun x y => x ^ y)) rayDown
        [Figure.sphere sphereFar] pointP normalUp m ((0 : ℝ), (0 : ℝ)) lightFar).1 = 1 := by
  refine ⟨?_, ?_, ?_, light_far_passes⟩
  · apply rayDown_hits_plane
    intro p hp
    rw [List.mem_singleton.mp hp]
    exact sphereFar_miss
  · rw [shadow_ray_far]; exact sphereFar_hit
  · norm_num [lightFar, pointP, Vec3f.norm, Vec3f.sub, Vec3f.dot, sqrt_9000000]

theorem sqrt_49 : Real.sqrt 49 = 7 := by
  rw [show (49 : ℝ) = 7 ^ 2 by norm_num]
  exact Real.sqrt_sq (by norm_num)

theorem sqrt_81 : Real.sqrt 81 = 9 := by
  rw [show (81 : ℝ) = 9 ^ 2 by norm_num]
  exact Real.sqrt_sq (by norm_num)

theorem sqrt_784 : Real.sqrt 784 = 28 := by
  rw [show (784 : ℝ) = 28 ^ 2 by norm_num]
  exact Real.sqrt_sq (by norm_num)

theorem sqrt_9 : Real.sqrt 9 = 3 := by
  rw [show (9 : ℝ) = 3 ^ 2 by norm_num]
  exact Real.sqrt_sq (by norm_num)

theorem shadow_ray_low :
    shadow_ray (envOf Real.sqrt (fun x y => x ^ y)) pointW normalX (lightLow : Light ℝ)
      = (rayLow : Ray ℝ) := by
  norm_num [shadow_ray, rayLow, Ray.make, envOf, offset_orig, lightLow, pointW, normalX,
    Vec3f.normalize, Vec3f.norm, Vec3f.sub, Vec3f.add, Vec3f.scale, Vec3f.dot, sqrt_49]

theorem triWall_hit :
    (Figure.triangle triWall).ray_intersect Real.sqrt (rayWall : Ray ℝ) = some 4 := by
  norm_num [Figure.ray_intersect, Triangle.ray_intersect, triWall, rayWall, Ray.make, Vec3f.sub,
    Vec3f.dot, cross, EPSILON]

theorem cubeB_miss :
    (Figure.cube cubeB).ray_intersect Real.sqrt (rayWall : Ray ℝ) = none := by
  norm_num [Figure.ray_intersect, Cube.ray_intersect, cubeB, rayWall, Ray.make, Cube.bounds,
    xfloat_fin_mul_fin, xfloat_fin_lt_fin, xfloat_fin_lt_zero, XFloat.recip]

theorem triWall_miss :
    (Figure.triangle triWall).ray_intersect Real.sqrt (rayLow : Ray ℝ) = none := by
  norm_num [Figure.ray_intersect, Triangle.ray_intersect, triWall, rayLow, Ray.make, Vec3f.sub,
    Vec3f.dot, cross, EPSILON]

theorem cubeB_hit :
    (Figure.cube cubeB).ray_intersect Real.sqrt (rayLow : Ray ℝ) = some (7 / 3) := by
  norm_num [Figure.ray_intersect, Cube.ray_intersect, cubeB, rayLow, Ray.make, Cube.bounds,
    xfloat_fin_mul_fin, xfloat_fin_lt_fin, xfloat_fin_lt_zero, XFloat.recip]

theorem rayWall_hits_wall :
    (scene_intersect (envOf Real.sqrt (fun x y => x ^ y)) rayWall
        [Figure.triangle triWall, Figure.cube cubeB] ⟨0, 0, 0⟩ ⟨0, 0, 0⟩ plain).found = true ∧
      (scene_intersect (envOf Real.sqrt (fun x y => x ^ y)) rayWall
        [Figure.triangle triWall, Figure.cube cubeB] ⟨0, 0, 0⟩ ⟨0, 0, 0⟩ plain).hit = pointW ∧
      (scene_intersect (envOf Real.sqrt (fun x y => x ^ y)) rayWall
        [Figure.triangle triWall, Figure.cube cubeB] ⟨0, 0, 0⟩ ⟨0, 0, 0⟩ plain).N = normalX := by
  refine ⟨?_, ?_, ?_⟩
  all_goals
    simp only [scene_intersect, scene_loop, List.foldl, scene_step, envOf, triWall_hit,
      cubeB_miss]
    norm_num [rayWall, triWall, Ray.make, FLT_MAX, Figure.NeededDist, Figure.setNeededDist,
      Figure.SetNeededNormHitMaterial, Vec3f.scale, Vec3f.add, Vec3f.sub, pointW, normalX,
      outward_normal, cross, Vec3f.normalize, Vec3f.norm, Vec3f.dot, sqrt_81]

theorem light_low_passes (m : Material ℝ) :
    (light_step (envOf Real.sqrt (fun x y => x ^ y)) rayWall
      [Figure.triangle triWall, Figure.cube cubeB] pointW normalX m
      ((0 : ℝ), (0 : ℝ)) lightLow).1 = 6 / 7 := by
  have hin : in_shadow (envOf Real.sqrt (fun x y => x ^ y))
      [Figure.triangle triWall, Figure.cube cubeB] pointW normalX (lightLow : Light ℝ)
      = false := by
    rw [in_shadow_eq, shadow_ray_low]
    simp only [scene_intersect, scene_loop, List.foldl, scene_step, envOf, triWall_miss,
      cubeB_hit]
    norm_num [rayLow, Ray.make, FLT_MAX, Figure.NeededDist, Figure.setNeededDist,
      Figure.SetNeededNormHitMaterial, Vec3f.scale, Vec3f.add, Vec3f.sub, Vec3f.dot,
      Vec3f.norm, lightLow, pointW, sqrt_49, sqrt_784, sqrt_9,
      abs_of_pos (show (0 : ℝ) < 3 / 7 by norm_num)]
  rw [light_step, hin]
  norm_num [envOf, lightLow, pointW, normalX, Vec3f.normalize, Vec3f.norm, Vec3f.sub,
    Vec3f.scale, Vec3f.dot, sqrt_49]

/-- C3 fails on the code in two ways, both with every distance far below the
scene horizon 1000.  (a) The primary ray `rayDown` hits the checkerboard plane
at `pointP` with normal `normalUp`; the sphere `sphereY` intersects the shadow
ray toward `lightNear` at distance 4 < 10, but with the triangle `triFar` listed
after it the shadow test measures the triangle's hit point at distance 50 (the
running minima are kept per category and the last one updated writes the hit
point), and the light adds 1 to the diffuse sum.  (b) The primary ray `rayWall`
hits the triangle `triWall` at `pointW` with normal `normalX`; the box `cubeB`
intersects the shadow ray toward `lightLow` at distance 7/3 < 7, but the
shadow ray goes on to the plane `y = -4` at distance 28/3, which replaces the
box's hit point because the plane test does not compare with `cubes_dist`, and
the light adds 6/7 to the diffuse sum. -/
theorem shadow_blocker_ignored :
    (((scene_intersect (envOf Real.sqrt (fun x y => x ^ y)) rayDown
          [Figure.sphere sphereY, Figure.triangle triFar] ⟨0, 0, 0⟩ ⟨0, 0, 0⟩ plain).found = true ∧
        (scene_intersect (envOf Real.sqrt (fun x y => x ^ y)) rayDown
          [Figure.sphere sphereY, Figure.triangle triFar] ⟨0, 0, 0⟩ ⟨0, 0, 0⟩ plain).hit = pointP ∧
        (scene_intersect (envOf Real.sqrt (fun x y => x ^ y)) rayDown
          [Figure.sphere sphereY, Figure.triangle triFar] ⟨0, 0, 0⟩ ⟨0, 0, 0⟩ plain).N
            = normalUp) ∧
        (Figure.sphere sphereY).ray_intersect Real.sqrt
          (shadow_ray (envOf Real.sqrt (fun x y => x ^ y)) pointP normalUp lightNear) = some 4 ∧
        (4 : ℝ) < ((lightNear : Light ℝ).position.sub pointP).norm Real.sqrt ∧
        ∀ m : Material ℝ, (light_step (envOf Real.sqrt (fun x y => x ^ y)) rayDown
          [Figure.sphere sphereY, Figure.triangle triFar] pointP normalUp m
          ((0 : ℝ), (0 : ℝ)) lightNear).1 = 1) ∧
      (((scene_intersect (envOf Real.sqrt (fun x y => x ^ y)) rayWall
          [Figure.triangle triWall, Figure.cube cubeB] ⟨0, 0, 0⟩ ⟨0, 0, 0⟩ plain).found = true ∧
        (scene_intersect (envOf Real.sqrt (fun x y => x ^ y)) rayWall
          [Figure.triangle triWall, Figure.cube cubeB] ⟨0, 0, 0⟩ ⟨0, 0, 0⟩ plain).hit = pointW ∧
        (scene_intersect (envOf Real.sqrt (fun x y => x ^ y)) rayWall
          [Figure.triangle triWall, Figure.cube cubeB] ⟨0, 0, 0⟩ ⟨0, 0, 0⟩ plain).N
            = normalX) ∧
        (Figure.cube cubeB).ray_intersect Real.sqrt
          (shadow_ray (envOf Real.sqrt (fun x y => x ^ y)) pointW normalX lightLow)
            = some (7 / 3) ∧
        (7 / 3 : ℝ) < ((lightLow : Light ℝ).position.sub pointW).norm Real.sqrt ∧
        plane_dist (shadow_ray (envOf Real.sqrt (fun x y => x ^ y)) pointW normalX
          (lightLow : Light ℝ)) = 28 / 3 ∧
        ∀ m : Material ℝ, (light_step (envOf Real.sqrt (fun x y => x ^ y)) rayWall
          [Figure.triangle triWall, Figure.cube cubeB] pointW normalX m
          ((0 : ℝ), (0 : ℝ)) lightLow).1 = 6 / 7) := by
  refine ⟨⟨?_, ?_, ?_, light_near_passes⟩, rayWall_hits_wall, ?_, ?_, ?_, light_low_passes⟩
  · apply rayDown_hits_plane
    intro p hp
    simp only [List.mem_cons, List.mem_singleton, List.mem_nil_iff, or_false] at hp
    rcases hp with h | h <;> subst h
    · exact sphereY_miss
    · exact triFar_miss
  · rw [shadow_ray_near]; exact sphereY_hit
  · norm_num [lightNear, pointP, Vec3f.norm, Vec3f.sub, Vec3f.dot, sqrt_100]
  · rw [shadow_ray_low]; exact cubeB_hit
  · norm_num [lightLow, pointW, Vec3f.norm, Vec3f.sub, Vec3f.dot, sqrt_49]
  · rw [shadow_ray_low]
    norm_num [plane_dist, rayLow, Ray.make]

end ShadowTheorems

section ParallelRay

variable {α : Type} [LinearOrderedField α]

theorem triangle_det_parallel (tr : Triangle α) (ray : Ray α) (a b : α)
    (hdir : ray.dir = ((tr.p1.sub tr.p0).scale a).add ((tr.p2.sub tr.p0).scale b)) :
    tr.det ray = 0 := by
  simp only [Triangle.det, hdir, Vec3f.dot, Vec3f.sub, Vec3f.add, Vec3f.scale, cross]
  ring

/-- C11 (amended): over exact arithmetic (every linearly ordered field, in
particular the reals), for every triangle and every ray whose direction is
exactly parallel to the triangle's plane (a linear combination of `p1 - p0` and
`p2 - p0`), wherever its origin is, the determinant
`a = edge1 * cross(dir, edge2)` is 0 and `Triangle::ray_intersect` returns
false. -/
theorem triangle_parallel_miss (tr : Triangle α) (ray : Ray α) (a b : α)
    (hdir : ray.dir = ((tr.p1.sub tr.p0).scale a).add ((tr.p2.sub tr.p0).scale b)) :
    tr.det ray = 0 ∧ tr.ray_intersect ray = none := by
  have h0 := triangle_det_parallel tr ray a b hdir
  refine ⟨h0, ?_⟩
  rw [triangle_ray_intersect_cases, h0, if_pos]
  exact ⟨by linarith [EPSILON_pos (α := α)], EPSILON_pos⟩

/-- Witness for C11 (amended): a ray inside the plane `z = -10` of `triZ`, with
direction `2 * (p1 - p0) + 1 * (p2 - p0) = (5, 2, 0)`. -/
theorem triangle_parallel_miss_witness :
    (triZ : Triangle ℝ).det (Ray.make ⟨0, 0, -10⟩ ⟨5, 2, 0⟩) = 0 ∧
      (triZ : Triangle ℝ).ray_intersect (Ray.make ⟨0, 0, -10⟩ ⟨5, 2, 0⟩) = none :=
  triangle_parallel_miss triZ (Ray.make ⟨0, 0, -10⟩ ⟨5, 2, 0⟩) 2 1 (by
    norm_num [triZ, Ray.make, Vec3f.sub, Vec3f.add, Vec3f.scale])

end ParallelRay

section ParallelRayBinary32

set_option maxRecDepth 100000 in
theorem triInt32_hit (zfirst : Bool) :
    dot32 zfirst (triInt32.p1.sub32 triInt32.p0)
        (cross32 triInt32.p1 (triInt32.p2.sub32 triInt32.p0)) = F32.ofInt (-2048) ∧
      Triangle.ray_intersect32 zfirst triInt32 origInt32 triInt32.p1
        = some (F32.ofRat 1 2) := by
  cases zfirst <;> decide

set_option maxRecDepth 100000 in
theorem triUnit32_hit (zfirst : Bool) :
    dot32 zfirst (triUnit32.p1.sub32 triUnit32.p0)
        (cross32 dirUnit32 (triUnit32.p2.sub32 triUnit32.p0)) = F32.ofRat 1 4194304 ∧
      Triangle.ray_intersect32 zfirst triUnit32 origUnit32 dirUnit32
        = some (F32.ofRat 1 2) := by
  cases zfirst <;> decide

set_option maxRecDepth 100000 in
theorem triUnit32_data :
    triUnit32.p0 = ⟨F32.ofInt 0, F32.ofInt 0, F32.ofInt 0⟩ ∧
      (triUnit32.p1.x.units = 4 * dirUnit32.x.units ∧
        triUnit32.p1.y.units = 4 * dirUnit32.y.units ∧
        triUnit32.p1.z.units = 4 * dirUnit32.z.units) ∧
      (2 ^ 298 - 2 ^ 273 < dirUnit32.x.units ^ 2 + dirUnit32.y.units ^ 2 + dirUnit32.z.units ^ 2 ∧
        dirUnit32.x.units ^ 2 + dirUnit32.y.units ^ 2 + dirUnit32.z.units ^ 2 < 2 ^ 298) := by
  decide

set_option maxRecDepth 100000 in
theorem triInt32_data :
    triInt32.p0 = ⟨⟨0⟩, ⟨0⟩, ⟨0⟩⟩ ∧
      triInt32.p1 = ⟨⟨2503 * 2 ^ 149⟩, ⟨-3965 * 2 ^ 149⟩, ⟨2082 * 2 ^ 149⟩⟩ ∧
      triInt32.p2 = ⟨⟨4309 * 2 ^ 149⟩, ⟨-1347 * 2 ^ 149⟩, ⟨2890 * 2 ^ 149⟩⟩ ∧
      origInt32 = ⟨⟨1703 * 2 ^ 149⟩, ⟨-1328 * 2 ^ 149⟩, ⟨1243 * 2 ^ 149⟩⟩ ∧
      EPSILON32 = ⟨14073749 * 2 ^ 102⟩ := by
  decide

/-- C11 as stated fails for the program, which computes in binary32: the
determinant of a ray that is exactly parallel to the plane is rounding noise
that can exceed `EPSILON`, and the test then goes on and can return true.
(1) The triangle `triInt` has integer vertices `p0 = 0`, `p1 = (2503, -3965,
2082)`, `p2 = (4309, -1347, 2890)`; the ray `rayInt` starts at the point
`(p1 + p2) / 4 = (1703, -1328, 1243)` of its plane with direction `p1 - p0`.
In exact arithmetic the determinant is 0 and the test returns false; in
binary32 (the same numbers, `triInt32`, in units of `2^-149`) the determinant
is `-2048` and the test returns true with `t0 = 1/2`, whichever way the dot
product adds its three terms.  (2) The same with a direction of length 1 up to
rounding: for `triUnit32`, with `p0 = 0` and `p1 = 4 * dir`, the determinant
is `2^-22 > EPSILON` and the test returns true with `t0 = 1/2`. -/
theorem triangle_parallel_counterexample :
    (((triInt : Triangle ℝ).p0 = ⟨0, 0, 0⟩ ∧ (rayInt : Ray ℝ).dir = (triInt : Triangle ℝ).p1 ∧
        (rayInt : Ray ℝ).orig
          = (((triInt : Triangle ℝ).p1.sub triInt.p0).scale (1 / 4)).add
              (((triInt : Triangle ℝ).p2.sub triInt.p0).scale (1 / 4)) ∧
        (triInt : Triangle ℝ).det rayInt = 0 ∧
        (triInt : Triangle ℝ).ray_intersect rayInt = none) ∧
      (triInt32.p0 = ⟨⟨0⟩, ⟨0⟩, ⟨0⟩⟩ ∧
        triInt32.p1 = ⟨⟨2503 * 2 ^ 149⟩, ⟨-3965 * 2 ^ 149⟩, ⟨2082 * 2 ^ 149⟩⟩ ∧
        triInt32.p2 = ⟨⟨4309 * 2 ^ 149⟩, ⟨-1347 * 2 ^ 149⟩, ⟨2890 * 2 ^ 149⟩⟩ ∧
        origInt32 = ⟨⟨1703 * 2 ^ 149⟩, ⟨-1328 * 2 ^ 149⟩, ⟨1243 * 2 ^ 149⟩⟩ ∧
        EPSILON32 = ⟨14073749 * 2 ^ 102⟩) ∧
      (∀ zfirst : Bool,
        dot32 zfirst (triInt32.p1.sub32 triInt32.p0)
            (cross32 triInt32.p1 (triInt32.p2.sub32 triInt32.p0)) = F32.ofInt (-2048) ∧
          Triangle.ray_intersect32 zfirst triInt32 origInt32 triInt32.p1
            = some (F32.ofRat 1 2))) ∧
      ((triUnit32.p0 = ⟨F32.ofInt 0, F32.ofInt 0, F32.ofInt 0⟩ ∧
        (triUnit32.p1.x.units = 4 * dirUnit32.x.units ∧
          triUnit32.p1.y.units = 4 * dirUnit32.y.units ∧
          triUnit32.p1.z.units = 4 * dirUnit32.z.units) ∧
        (2 ^ 298 - 2 ^ 273
            < dirUnit32.x.units ^ 2 + dirUnit32.y.units ^ 2 + dirUnit32.z.units ^ 2 ∧
          dirUnit32.x.units ^ 2 + dirUnit32.y.units ^ 2 + dirUnit32.z.units ^ 2 < 2 ^ 298)) ∧
        (∀ zfirst : Bool,
          dot32 zfirst (triUnit32.p1.sub32 triUnit32.p0)
              (cross32 dirUnit32 (triUnit32.p2.sub32 triUnit32.p0)) = F32.ofRat 1 4194304 ∧
            Triangle.ray_intersect32 zfirst triUnit32 origUnit32 dirUnit32
              = some (F32.ofRat 1 2))) := by
  refine ⟨⟨⟨rfl, rfl, ?_, ?_, ?_⟩, triInt32_data, triInt32_hit⟩, triUnit32_data, triUnit32_hit⟩
  · norm_num [rayInt, triInt, Ray.make, Vec3f.sub, Vec3f.add, Vec3f.scale]
  · norm_num [Triangle.det, rayInt, triInt, Ray.make, Vec3f.sub, Vec3f.dot, cross]
  · norm_num [Triangle.ray_intersect, rayInt, triInt, Ray.make, Vec3f.sub, Vec3f.dot, cross,
      EPSILON]

end ParallelRayBinary32

section ReflectRefract

variable {α : Type} [LinearOrderedField α]

/-- C19: `reflect` is the mirror reflection about the plane with unit normal
`N`: for every `I` and every unit `N`, `reflect(I, N) * N = -(I * N)`, the
tangential component and the length are those of `I`, and reflecting twice
gives `I` back. -/
theorem reflect_mirror (sqrtf : α → α) (I N : Vec3f α) (hN : N.dot N = 1) :
    (reflect I N).dot N = -(I.dot N) ∧
      tangential (reflect I N) N = tangential I N ∧
      (reflect I N).dot (reflect I N) = I.dot I ∧
      (reflect I N).norm sqrtf = I.norm sqrtf ∧
      reflect (reflect I N) N = I := by
  have h1 : (reflect I N).dot N = -(I.dot N) := by
    simp only [reflect, Vec3f.dot, Vec3f.sub, Vec3f.scale] at hN ⊢
    linear_combination (-2 * (I.x * N.x + I.y * N.y + I.z * N.z)) * hN
  have h3 : (reflect I N).dot (reflect I N) = I.dot I := by
    simp only [reflect, Vec3f.dot, Vec3f.sub, Vec3f.scale] at hN ⊢
    linear_combination (4 * (I.x * N.x + I.y * N.y + I.z * N.z) ^ 2) * hN
  refine ⟨h1, ?_, h3, ?_, ?_⟩
  · simp only [tangential, h1]
    simp only [reflect, Vec3f.dot, Vec3f.sub, Vec3f.scale, Vec3f.mk.injEq]
    refine ⟨?_, ?_, ?_⟩ <;> ring
  · simp only [Vec3f.norm, h3]
  · have h5 : (reflect I N).dot N = -(I.dot N) := h1
    rw [reflect, h5]
    cases I with
    | mk x y z =>
      simp only [reflect, Vec3f.dot, Vec3f.sub, Vec3f.scale, Vec3f.mk.injEq]
      refine ⟨?_, ?_, ?_⟩ <;> ring

/-- Witness for C19 with `I = (1, -2, 3)` and `N = (0, 1, 0)`. -/
theorem reflect_mirror_witness :
    (reflect (⟨1, -2, 3⟩ : Vec3f ℝ) ⟨0, 1, 0⟩).dot ⟨0, 1, 0⟩
        = -((⟨1, -2, 3⟩ : Vec3f ℝ).dot ⟨0, 1, 0⟩) ∧
      reflect (reflect (⟨1, -2, 3⟩ : Vec3f ℝ) ⟨0, 1, 0⟩) ⟨0, 1, 0⟩ = ⟨1, -2, 3⟩ :=
  have h := reflect_mirror Real.sqrt (⟨1, -2, 3⟩ : Vec3f ℝ) ⟨0, 1, 0⟩ (by norm_num [Vec3f.dot])
  ⟨h.1, h.2.2.2.2⟩


theorem dot_neg_right (I N : Vec3f α) : I.dot N.neg = -(I.dot N) := by
  simp only [Vec3f.dot, Vec3f.neg]; ring

theorem clamp_neg_iff (x : α) : -(max (-1) (min 1 x)) < 0 ↔ 0 < x := by
  constructor
  · intro h
    by_contra hn
    have hle : x ≤ 0 := not_lt.mp hn
    have h3 : max (-1) (min 1 x) ≤ 0 := max_le (by norm_num) (le_trans (min_le_right _ _) hle)
    linarith
  · intro h
    have h1 : 0 < min 1 x := lt_min (by norm_num) h
    have h2 : 0 < max (-1) (min 1 x) := lt_of_lt_of_le h1 (le_max_right _ _)
    linarith

/-- `refract` recurses at most once: it is its non-recursive body, applied to
the negated normal and the swapped indices when `I * N > 0`. -/
theorem refract_unfold (sqrtf : α → α) (I N : Vec3f α) (eta_t eta_i : α) :
    refract sqrtf I N eta_t eta_i =
      if 0 < I.dot N then refract_body sqrtf I N.neg eta_i eta_t
      else refract_body sqrtf I N eta_t eta_i := by
  rw [refract]
  by_cases h : 0 < I.dot N
  · have hc : -(max (-1) (min 1 (I.dot N))) < 0 := (clamp_neg_iff _).mpr h
    have hn : ¬ (-(max (-1) (min 1 (I.dot N.neg))) < 0) := by
      rw [clamp_neg_iff, dot_neg_right]; linarith
    simp only [hc, if_true, h]
    rw [refract]
    simp only [hn, if_false]
    rfl
  · have hc : ¬ (-(max (-1) (min 1 (I.dot N))) < 0) := by
      rw [clamp_neg_iff]; exact h
    simp only [hc, if_false, h]
    rfl

theorem refract_calls_le_one (I N : Vec3f α) : refract_calls I N ≤ 1 := by
  rw [refract_calls]
  by_cases h : 0 < I.dot N
  · have hc : -(max (-1) (min 1 (I.dot N))) < 0 := (clamp_neg_iff _).mpr h
    have hn : ¬ (-(max (-1) (min 1 (I.dot N.neg))) < 0) := by
      rw [clamp_neg_iff, dot_neg_right]; linarith
    simp only [hc, if_true]
    rw [refract_calls]
    simp only [hn, if_false]
    exact le_refl _
  · have hc : ¬ (-(max (-1) (min 1 (I.dot N))) < 0) := by
      rw [clamp_neg_iff]; exact h
    simp only [hc, if_false]
    exact Nat.zero_le _


theorem clamp_bounds (x : α) : -1 ≤ max (-1) (min 1 x) ∧ max (-1) (min 1 x) ≤ 1 :=
  ⟨le_max_left _ _, max_le (by norm_num) (min_le_left _ _)⟩

theorem clamp_nonpos (x : α) (h : x ≤ 0) : max (-1) (min 1 x) ≤ 0 :=
  max_le (by norm_num) (le_trans (min_le_right _ _) h)

theorem cosi_sq_le_one (x : α) :
    -(max (-1) (min 1 x)) * -(max (-1) (min 1 x)) ≤ 1 := by
  obtain ⟨h1, h2⟩ := clamp_bounds x
  nlinarith

theorem inv_sq_le_one (e : α) (he : 1 ≤ e) : 1 / e * (1 / e) ≤ 1 := by
  have h0 : (0 : α) < e := lt_of_lt_of_le one_pos he
  have h1 : 1 / e ≤ 1 := by
    rw [div_le_one h0]; exact he
  have h2 : 0 ≤ 1 / e := le_of_lt (one_div_pos.mpr h0)
  nlinarith

/-- Entering a denser medium: with `eta_i = 1`, `eta_t >= 1` the discriminant
is at least `cosi * cosi`. -/
theorem refract_k_denser (I N : Vec3f α) (eta_t : α) (he : 1 ≤ eta_t) :
    -(max (-1) (min 1 (I.dot N))) * -(max (-1) (min 1 (I.dot N))) ≤ refract_k I N eta_t 1 := by
  have h1 := cosi_sq_le_one (I.dot N)
  have h2 := inv_sq_le_one eta_t he
  have h3 : 0 ≤ 1 / eta_t * (1 / eta_t) := mul_self_nonneg _
  simp only [refract_k]
  nlinarith

theorem refract_k_neg_index (I N : Vec3f α) (eta_t eta_i : α)
    (h : refract_k I N eta_t eta_i < 0) : 1 < eta_i / eta_t * (eta_i / eta_t) := by
  have h1 := cosi_sq_le_one (I.dot N)
  have h3 : 0 ≤ eta_i / eta_t * (eta_i / eta_t) := mul_self_nonneg _
  have h4 : 0 ≤ -(max (-1) (min 1 (I.dot N))) * -(max (-1) (min 1 (I.dot N))) :=
    mul_self_nonneg _
  simp only [refract_k] at h
  nlinarith

/-- C20: `refract` is total (a function defined by well-founded recursion) and
recurses at most once: after negating `N` the clamped cosine is non-negative,
so the value is the non-recursive body on `N` or on `-N` with swapped indices.
For a ray arriving from outside (`I * N <= 0`) with `eta_i = 1` and
`eta_t >= 1` the discriminant satisfies `k >= cosi^2 >= 0` and the regular
branch is returned; the fallback branch `k < 0` is taken only for a ray leaving
a medium of index above 1 (`I * N > 0` and `eta_t > 1`) or for a material of
index below 1. -/
theorem refract_total_denser (sqrtf : α → α) (I N : Vec3f α) (eta_t : α) :
    refract_calls I N ≤ 1 ∧
      (0 < I.dot N → ¬ (-(max (-1) (min 1 (I.dot N.neg))) < 0)) ∧
      refract sqrtf I N eta_t 1 =
        (if 0 < I.dot N then refract_body sqrtf I N.neg 1 eta_t
         else refract_body sqrtf I N eta_t 1) ∧
      (I.dot N ≤ 0 → 1 ≤ eta_t →
        0 ≤ -(max (-1) (min 1 (I.dot N))) * -(max (-1) (min 1 (I.dot N))) ∧
        -(max (-1) (min 1 (I.dot N))) * -(max (-1) (min 1 (I.dot N)))
          ≤ refract_k I N eta_t 1 ∧
        refract sqrtf I N eta_t 1 =
          (I.scale (1 / eta_t)).add
            (N.scale (1 / eta_t * -(max (-1) (min 1 (I.dot N)))
              - sqrtf (refract_k I N eta_t 1)))) ∧
      ((if 0 < I.dot N then refract_k I N.neg 1 eta_t else refract_k I N eta_t 1) < 0 →
        (0 < I.dot N ∧ 1 < eta_t) ∨ eta_t < 1) := by
  refine ⟨refract_calls_le_one I N, ?_, refract_unfold sqrtf I N eta_t 1, ?_, ?_⟩
  · intro h
    rw [clamp_neg_iff, dot_neg_right]
    linarith
  · intro hx he
    have hk := refract_k_denser I N eta_t he
    refine ⟨mul_self_nonneg _, hk, ?_⟩
    rw [refract_unfold, if_neg (not_lt.mpr hx)]
    have hk0 : ¬ (refract_k I N eta_t 1 < 0) :=
      not_lt.mpr (le_trans (mul_self_nonneg _) hk)
    simp only [refract_k] at hk0
    simp only [refract_body, refract_k, hk0, if_false]
  · intro h
    by_cases hx : 0 < I.dot N
    · rw [if_pos hx] at h
      have h1 := refract_k_neg_index I N.neg 1 eta_t h
      rw [div_one] at h1
      by_cases he : 1 < eta_t
      · exact Or.inl ⟨hx, he⟩
      · right
        rcases lt_or_eq_of_le (not_lt.mp he) with h2 | h2
        · exact h2
        · rw [h2] at h1; norm_num at h1
    · rw [if_neg hx] at h
      have h1 := refract_k_neg_index I N eta_t 1 h
      right
      by_contra hn
      have := inv_sq_le_one eta_t (not_lt.mp hn)
      linarith

/-- Witness for C20: a ray hitting a glass surface (`eta_t = 3/2`) from outside
at normal incidence. -/
theorem refract_total_denser_witness :
    (⟨0, 0, -1⟩ : Vec3f ℝ).dot ⟨0, 0, 1⟩ ≤ 0 ∧ (1 : ℝ) ≤ 3 / 2 ∧
      -(max (-1) (min 1 ((⟨0, 0, -1⟩ : Vec3f ℝ).dot ⟨0, 0, 1⟩)))
          * -(max (-1) (min 1 ((⟨0, 0, -1⟩ : Vec3f ℝ).dot ⟨0, 0, 1⟩)))
        ≤ refract_k (⟨0, 0, -1⟩ : Vec3f ℝ) ⟨0, 0, 1⟩ (3 / 2) 1 :=
  ⟨by norm_num [Vec3f.dot], by norm_num,
   ((refract_total_denser Real.sqrt (⟨0, 0, -1⟩ : Vec3f ℝ) ⟨0, 0, 1⟩ (3 / 2)).2.2.2.1
      (by norm_num [Vec3f.dot]) (by norm_num)).2.1⟩

end ReflectRefract

section Snell

theorem dot_sq_le (I M : Vec3f ℝ) (hI : I.dot I = 1) (hM : M.dot M = 1) :
    I.dot M * I.dot M ≤ 1 := by
  simp only [Vec3f.dot] at hI hM ⊢
  nlinarith [sq_nonneg (I.x * M.y - I.y * M.x), sq_nonneg (I.y * M.z - I.z * M.y),
    sq_nonneg (I.z * M.x - I.x * M.z)]

theorem clamp_id (x : ℝ) (h1 : -1 ≤ x) (h2 : x ≤ 1) : max (-1) (min 1 x) = x := by
  rw [min_eq_right h2, max_eq_right h1]

/-- Snell's law for the non-recursive body of `refract` when the normal `M`
faces the incoming unit ray `I`. -/
theorem refract_body_snell (I M : Vec3f ℝ) (eta_t eta_i : ℝ) (hI : I.dot I = 1)
    (hM : M.dot M = 1) (hx : I.dot M ≤ 0) :
    (1 - eta_i / eta_t * (eta_i / eta_t) * (1 - I.dot M * I.dot M) < 0 →
        refract_body Real.sqrt I M eta_t eta_i = ⟨1, 0, 0⟩) ∧
      (0 ≤ 1 - eta_i / eta_t * (eta_i / eta_t) * (1 - I.dot M * I.dot M) →
        (refract_body Real.sqrt I M eta_t eta_i).dot (refract_body Real.sqrt I M eta_t eta_i) = 1 ∧
        tangential (refract_body Real.sqrt I M eta_t eta_i) M
          = (tangential I M).scale (eta_i / eta_t) ∧
        (refract_body Real.sqrt I M eta_t eta_i).dot M
          = -Real.sqrt (1 - eta_i / eta_t * (eta_i / eta_t) * (1 - I.dot M * I.dot M))) := by
  have hsq := dot_sq_le I M hI hM
  have hlo : -1 ≤ I.dot M := by nlinarith
  have hcl : max (-1) (min 1 (I.dot M)) = I.dot M := clamp_id _ hlo (by linarith)
  have hk : 1 - eta_i / eta_t * (eta_i / eta_t) * (1 - -(I.dot M) * -(I.dot M))
      = 1 - eta_i / eta_t * (eta_i / eta_t) * (1 - I.dot M * I.dot M) := by ring
  constructor
  · intro h
    simp only [refract_body, hcl, hk, h, if_true]
  · intro h
    have hs : Real.sqrt (1 - eta_i / eta_t * (eta_i / eta_t) * (1 - I.dot M * I.dot M))
        * Real.sqrt (1 - eta_i / eta_t * (eta_i / eta_t) * (1 - I.dot M * I.dot M))
        = 1 - eta_i / eta_t * (eta_i / eta_t) * (1 - I.dot M * I.dot M) :=
      Real.mul_self_sqrt h
    have hR : refract_body Real.sqrt I M eta_t eta_i
        = (I.scale (eta_i / eta_t)).add (M.scale (eta_i / eta_t * -(I.dot M)
            - Real.sqrt (1 - eta_i / eta_t * (eta_i / eta_t) * (1 - I.dot M * I.dot M)))) := by
      simp only [refract_body, hcl, hk, not_lt.mpr h, if_false]
    rw [hR]
    generalize Real.sqrt (1 - eta_i / eta_t * (eta_i / eta_t) * (1 - I.dot M * I.dot M)) = s
      at hs ⊢
    generalize eta_i / eta_t = e at hs ⊢
    have hdot : ((I.scale e).add (M.scale (e * -(I.dot M) - s))).dot M = -s := by
      simp only [Vec3f.dot, Vec3f.add, Vec3f.scale] at hM ⊢
      linear_combination (e * -(I.x * M.x + I.y * M.y + I.z * M.z) - s) * hM
    refine ⟨?_, ?_, hdot⟩
    · simp only [Vec3f.dot, Vec3f.add, Vec3f.scale] at hI hM hs ⊢
      linear_combination (e * e) * hI
        + (e * -(I.x * M.x + I.y * M.y + I.z * M.z) - s) ^ 2 * hM + hs
    · rw [tangential, hdot]
      simp only [tangential, Vec3f.dot, Vec3f.sub, Vec3f.add, Vec3f.scale, Vec3f.mk.injEq]
      refine ⟨?_, ?_, ?_⟩ <;> ring

/-- C17: `refract` obeys Snell's law over the reals.  For unit vectors `I`, `N`,
with the normal `N'` turned toward the incoming ray and `eta` the ratio
`eta_i / eta_t` after the inside/outside normalisation (for `I * N > 0` the
normal is negated and the two indices are swapped): when the discriminant
`k = 1 - eta^2 (1 - cos_i^2)` is negative the result is exactly `(1, 0, 0)`;
when it is non-negative the result `R` has unit length, its component
tangential to the surface is `eta` times that of `I`, and `R * N' = -sqrt k <= 0`
while `I * N' <= 0`, so `R` leaves on the side opposite to the incoming ray. -/
theorem refract_snell (I N : Vec3f ℝ) (eta_t eta_i : ℝ) (hI : I.dot I = 1) (hN : N.dot N = 1) :
    (snell_k I N eta_t eta_i < 0 → refract Real.sqrt I N eta_t eta_i = ⟨1, 0, 0⟩) ∧
      (0 ≤ snell_k I N eta_t eta_i →
        (refract Real.sqrt I N eta_t eta_i).norm Real.sqrt = 1 ∧
        tangential (refract Real.sqrt I N eta_t eta_i) (facing_normal I N)
          = (tangential I (facing_normal I N)).scale (relative_index I N eta_t eta_i) ∧
        (refract Real.sqrt I N eta_t eta_i).dot (facing_normal I N)
          = -Real.sqrt (snell_k I N eta_t eta_i) ∧
        (refract Real.sqrt I N eta_t eta_i).dot (facing_normal I N) ≤ 0 ∧
        I.dot (facing_normal I N) ≤ 0) := by
  have key : ∀ (M : Vec3f ℝ) (et ei : ℝ), M.dot M = 1 → I.dot M ≤ 0 →
      (1 - ei / et * (ei / et) * (1 - I.dot M * I.dot M) < 0 →
        refract_body Real.sqrt I M et ei = ⟨1, 0, 0⟩) ∧
      (0 ≤ 1 - ei / et * (ei / et) * (1 - I.dot M * I.dot M) →
        (refract_body Real.sqrt I M et ei).norm Real.sqrt = 1 ∧
        tangential (refract_body Real.sqrt I M et ei) M = (tangential I M).scale (ei / et) ∧
        (refract_body Real.sqrt I M et ei).dot M
          = -Real.sqrt (1 - ei / et * (ei / et) * (1 - I.dot M * I.dot M)) ∧
        (refract_body Real.sqrt I M et ei).dot M ≤ 0 ∧ I.dot M ≤ 0) := by
    intro M et ei hM hx
    obtain ⟨b1, b2⟩ := refract_body_snell I M et ei hI hM hx
    refine ⟨b1, fun h => ?_⟩
    obtain ⟨c1, c2, c3⟩ := b2 h
    refine ⟨?_, c2, c3, ?_, hx⟩
    · rw [Vec3f.norm, c1, Real.sqrt_one]
    · rw [c3]
      linarith [Real.sqrt_nonneg (1 - ei / et * (ei / et) * (1 - I.dot M * I.dot M))]
  rw [refract_unfold]
  by_cases h : 0 < I.dot N
  · have hM : N.neg.dot N.neg = 1 := by
      simp only [Vec3f.dot, Vec3f.neg] at hN ⊢
      linear_combination hN
    have hx : I.dot N.neg ≤ 0 := by rw [dot_neg_right]; linarith
    simp only [snell_k, facing_normal, relative_index, if_pos h]
    exact key N.neg eta_i eta_t hM hx
  · simp only [snell_k, facing_normal, relative_index, if_neg h]
    exact key N eta_t eta_i hN (not_lt.mp h)

/-- Witness for C17: normal incidence on glass (`I = (0, 0, -1)`, `N = (0, 0, 1)`,
`eta_t = 3/2`) gives a unit refracted direction, and a ray leaving glass at a
grazing angle (`I = (4/5, 0, 3/5)`) gives the fallback `(1, 0, 0)`. -/
theorem refract_snell_witness :
    (refract Real.sqrt (⟨0, 0, -1⟩ : Vec3f ℝ) ⟨0, 0, 1⟩ (3 / 2) 1).norm Real.sqrt = 1 ∧
      refract Real.sqrt (⟨4 / 5, 0, 3 / 5⟩ : Vec3f ℝ) ⟨0, 0, 1⟩ (3 / 2) 1 = ⟨1, 0, 0⟩ :=
  ⟨((refract_snell (⟨0, 0, -1⟩ : Vec3f ℝ) ⟨0, 0, 1⟩ (3 / 2) 1 (by norm_num [Vec3f.dot])
      (by norm_num [Vec3f.dot])).2 (by
        norm_num [snell_k, relative_index, facing_normal, Vec3f.dot])).1,
   (refract_snell (⟨4 / 5, 0, 3 / 5⟩ : Vec3f ℝ) ⟨0, 0, 1⟩ (3 / 2) 1 (by norm_num [Vec3f.dot])
      (by norm_num [Vec3f.dot])).1 (by
        norm_num [snell_k, relative_index, facing_normal, Vec3f.dot, Vec3f.neg])⟩

end Snell

section Horizon

variable {α : Type} [LinearOrderedField α]

theorem scene_step_lt (E : Env α) (ray : Ray α) (st : SceneState α) (p : Figure α) (B : α) :
    ((scene_step E ray st p).spheres_dist < B ∨ (scene_step E ray st p).triangles_dist < B ∨
        (scene_step E ray st p).cubes_dist < B) ↔
      ((st.spheres_dist < B ∨ st.triangles_dist < B ∨ st.cubes_dist < B) ∨
        ∃ t, p.ray_intersect E.sqrtf ray = some t ∧ t < B) := by
  unfold scene_step
  cases hres : p.ray_intersect E.sqrtf ray with
  | none => simp
  | some d =>
    simp only [Option.some.injEq, exists_eq_left']
    cases p with
    | sphere s =>
      simp only [Figure.NeededDist]
      by_cases hlt : d < st.spheres_dist
      · simp only [if_pos hlt, Figure.SetNeededNormHitMaterial, Figure.setNeededDist]
        constructor
        · rintro (h | h | h)
          · exact Or.inr h
          · exact Or.inl (Or.inr (Or.inl h))
          · exact Or.inl (Or.inr (Or.inr h))
        · rintro ((h | h | h) | h)
          · exact Or.inl (lt_trans hlt h)
          · exact Or.inr (Or.inl h)
          · exact Or.inr (Or.inr h)
          · exact Or.inl h
      · simp only [if_neg hlt]
        constructor
        · exact Or.inl
        · rintro (h | h)
          · exact h
          · exact Or.inl (lt_of_le_of_lt (not_lt.mp hlt) h)
    | triangle s =>
      simp only [Figure.NeededDist]
      by_cases hlt : d < st.triangles_dist
      · simp only [if_pos hlt, Figure.SetNeededNormHitMaterial, Figure.setNeededDist]
        constructor
        · rintro (h | h | h)
          · exact Or.inl (Or.inl h)
          · exact Or.inr h
          · exact Or.inl (Or.inr (Or.inr h))
        · rintro ((h | h | h) | h)
          · exact Or.inl h
          · exact Or.inr (Or.inl (lt_trans hlt h))
          · exact Or.inr (Or.inr h)
          · exact Or.inr (Or.inl h)
      · simp only [if_neg hlt]
        constructor
        · exact Or.inl
        · rintro (h | h)
          · exact h
          · exact Or.inr (Or.inl (lt_of_le_of_lt (not_lt.mp hlt) h))
    | cube s =>
      simp only [Figure.NeededDist]
      by_cases hlt : d < st.cubes_dist
      · simp only [if_pos hlt, Figure.SetNeededNormHitMaterial, Figure.setNeededDist]
        constructor
        · rintro (h | h | h)
          · exact Or.inl (Or.inl h)
          · exact Or.inl (Or.inr (Or.inl h))
          · exact Or.inr h
        · rintro ((h | h | h) | h)
          · exact Or.inl h
          · exact Or.inr (Or.inl h)
          · exact Or.inr (Or.inr (lt_trans hlt h))
          · exact Or.inr (Or.inr h)
      · simp only [if_neg hlt]
        constructor
        · exact Or.inl
        · rintro (h | h)
          · exact h
          · exact Or.inr (Or.inr (lt_of_le_of_lt (not_lt.mp hlt) h))

theorem scene_fold_lt (E : Env α) (ray : Ray α) (B : α) :
    ∀ (figures : List (Figure α)) (st : SceneState α),
      ((figures.foldl (scene_step E ray) st).spheres_dist < B ∨
          (figures.foldl (scene_step E ray) st).triangles_dist < B ∨
          (figures.foldl (scene_step E ray) st).cubes_dist < B) ↔
        ((st.spheres_dist < B ∨ st.triangles_dist < B ∨ st.cubes_dist < B) ∨
          ∃ p ∈ figures, ∃ t, p.ray_intersect E.sqrtf ray = some t ∧ t < B) := by
  intro figures
  induction figures with
  | nil => intro st; simp
  | cons q rest ih =>
    intro st
    rw [List.foldl_cons, ih, scene_step_lt]
    simp only [List.mem_cons, exists_eq_or_imp]
    rw [or_assoc]

/-- The running minima after the loop are below the horizon iff some primitive
reports a hit below the horizon. -/
theorem scene_loop_lt (E : Env α) (ray : Ray α) (figures : List (Figure α))
    (hit N : Vec3f α) (material : Material α) :
    ((scene_loop E ray figures hit N material).spheres_dist < 1000 ∨
        (scene_loop E ray figures hit N material).triangles_dist < 1000 ∨
        (scene_loop E ray figures hit N material).cubes_dist < 1000) ↔
      ∃ p ∈ figures, ∃ t, p.ray_intersect E.sqrtf ray = some t ∧ t < 1000 := by
  unfold scene_loop
  rw [scene_fold_lt]
  have hF : ¬ ((FLT_MAX : α) < 1000) := by norm_num [FLT_MAX]
  simp only [hF, or_self, false_or]

theorem list_least_lt (l : List α) (B : α) :
    (∃ x ∈ l, x < B) ↔ ∃ m ∈ l, (∀ x ∈ l, m ≤ x) ∧ m < B := by
  constructor
  · induction l with
    | nil => rintro ⟨x, hx, _⟩; exact absurd hx (List.not_mem_nil x)
    | cons a rest ih =>
      rintro ⟨x, hx, hxB⟩
      by_cases hr : ∃ y ∈ rest, y < B
      · obtain ⟨m, hm, hmin, hmB⟩ := ih hr
        by_cases ham : a ≤ m
        · refine ⟨a, List.mem_cons_self a rest, ?_, lt_of_le_of_lt ham hmB⟩
          intro y hy
          rcases List.mem_cons.mp hy with h | h
          · rw [h]
          · exact le_trans ham (hmin y h)
        · refine ⟨m, List.mem_cons_of_mem a hm, ?_, hmB⟩
          intro y hy
          rcases List.mem_cons.mp hy with h | h
          · rw [h]; exact le_of_lt (not_le.mp ham)
          · exact hmin y h
      · rcases List.mem_cons.mp hx with h | h
        · subst h
          refine ⟨x, List.mem_cons_self x rest, ?_, hxB⟩
          intro y hy
          rcases List.mem_cons.mp hy with h | h
          · rw [h]
          · by_contra hc
            exact hr ⟨y, h, lt_trans (not_le.mp hc) hxB⟩
        · exact absurd ⟨x, h, hxB⟩ hr
  · rintro ⟨m, hm, _, hmB⟩
    exact ⟨m, hm, hmB⟩

theorem candidates_lt (E : Env α) (ray : Ray α) (figures : List (Figure α))
    (hit N : Vec3f α) (material : Material α) :
    (∃ x ∈ candidates E ray figures hit N material, x < 1000) ↔
      ((∃ p ∈ figures, ∃ t, p.ray_intersect E.sqrtf ray = some t ∧ t < 1000) ∨
        (plane_accepted E ray figures hit N material ∧ plane_dist ray < 1000)) := by
  unfold candidates
  constructor
  · rintro ⟨x, hx, hxB⟩
    rcases List.mem_append.mp hx with h | h
    · obtain ⟨p, hp, hpx⟩ := List.mem_filterMap.mp h
      exact Or.inl ⟨p, hp, x, hpx, hxB⟩
    · by_cases ha : plane_accepted E ray figures hit N material
      · rw [if_pos ha] at h
        rw [List.mem_singleton.mp h] at hxB
        exact Or.inr ⟨ha, hxB⟩
      · rw [if_neg ha] at h
        exact absurd h (List.not_mem_nil x)
  · rintro (⟨p, hp, t, hpt, htB⟩ | ⟨ha, hd⟩)
    · exact ⟨t, List.mem_append_left _ (List.mem_filterMap.mpr ⟨p, hp, hpt⟩), htB⟩
    · refine ⟨plane_dist ray, List.mem_append_right _ ?_, hd⟩
      rw [if_pos ha]
      exact List.mem_singleton.mpr rfl

theorem scene_intersect_found (E : Env α) [FloorRing α] (ray : Ray α)
    (figures : List (Figure α)) (hit N : Vec3f α) (material : Material α) :
    (scene_intersect E ray figures hit N material).found = true ↔
      ((∃ p ∈ figures, ∃ t, p.ray_intersect E.sqrtf ray = some t ∧ t < 1000) ∨
        (plane_accepted E ray figures hit N material ∧ plane_dist ray < 1000)) := by
  have hF : ¬ ((FLT_MAX : α) < 1000) := by norm_num [FLT_MAX]
  rw [← scene_loop_lt E ray figures hit N material]
  unfold scene_intersect plane_accepted plane_dist
  simp only
  generalize scene_loop E ray figures hit N material = st
  generalize -(ray.orig.y + 4) / ray.dir.y = d
  generalize |ray.dir.y| = ady
  split_ifs with h1 h2
  · show decide (_ < _) = true ↔ _
    rw [decide_eq_true_eq]
    simp only [min_lt_iff]
    constructor
    · rintro (((h | h) | h) | h)
      · exact Or.inl (Or.inl h)
      · exact Or.inr ⟨⟨h1, h2⟩, h⟩
      · exact Or.inl (Or.inr (Or.inr h))
      · exact Or.inl (Or.inr (Or.inl h))
    · rintro ((h | h | h) | ⟨_, h⟩)
      · exact Or.inl (Or.inl (Or.inl h))
      · exact Or.inr h
      · exact Or.inl (Or.inr h)
      · exact Or.inl (Or.inl (Or.inr h))
  · show decide (_ < _) = true ↔ _
    rw [decide_eq_true_eq]
    simp only [min_lt_iff]
    constructor
    · rintro (((h | h) | h) | h)
      · exact Or.inl (Or.inl h)
      · exact absurd h hF
      · exact Or.inl (Or.inr (Or.inr h))
      · exact Or.inl (Or.inr (Or.inl h))
    · rintro ((h | h | h) | ⟨⟨_, h⟩, _⟩)
      · exact Or.inl (Or.inl (Or.inl h))
      · exact Or.inr h
      · exact Or.inl (Or.inr h)
      · exact absurd h h2
  · show decide (_ < _) = true ↔ _
    rw [decide_eq_true_eq]
    simp only [min_lt_iff]
    constructor
    · rintro (((h | h) | h) | h)
      · exact Or.inl (Or.inl h)
      · exact absurd h hF
      · exact Or.inl (Or.inr (Or.inr h))
      · exact Or.inl (Or.inr (Or.inl h))
    · rintro ((h | h | h) | ⟨⟨h, _⟩, _⟩)
      · exact Or.inl (Or.inl (Or.inl h))
      · exact Or.inr h
      · exact Or.inl (Or.inr h)
      · exact absurd h h1

end Horizon

section HorizonClaim

variable {α : Type} [LinearOrderedField α] [FloorRing α]

/-- C18: `scene_intersect` returns true iff the smallest hit distance over all
candidates (every primitive that reports a hit, of any category, and the
checkerboard plane when it is accepted) exists and is strictly less than 1000,
that is, iff some primitive reports a hit below 1000 or the accepted plane is
below 1000; in particular it returns false for an empty primitive list when the
ray is nearly parallel to the plane (`|dir.y| <= 1e-3`), points away from it
(`d <= 0`) or meets it at distance `d >= 1000`. -/
theorem scene_intersect_horizon (E : Env α) (ray : Ray α) (figures : List (Figure α))
    (hit N : Vec3f α) (material : Material α) :
    ((scene_intersect E ray figures hit N material).found = true ↔
        ∃ m ∈ candidates E ray figures hit N material,
          (∀ x ∈ candidates E ray figures hit N material, m ≤ x) ∧ m < 1000) ∧
      ((scene_intersect E ray figures hit N material).found = true ↔
        ((∃ p ∈ figures, ∃ t, p.ray_intersect E.sqrtf ray = some t ∧ t < 1000) ∨
          (plane_accepted E ray figures hit N material ∧ plane_dist ray < 1000))) ∧
      (|ray.dir.y| ≤ 1 / 1000 ∨ plane_dist ray ≤ 0 ∨ 1000 ≤ plane_dist ray →
        (scene_intersect E ray [] hit N material).found = false) := by
  refine ⟨?_, scene_intersect_found E ray figures hit N material, ?_⟩
  · rw [← list_least_lt, candidates_lt]
    exact scene_intersect_found E ray figures hit N material
  · intro h
    have h1 := scene_intersect_found E ray [] hit N material
    cases hf : (scene_intersect E ray [] hit N material).found with
    | false => rfl
    | true =>
      exfalso
      rcases h1.mp hf with ⟨p, hp, _⟩ | ⟨⟨ha, hb, _⟩, hd⟩
      · exact absurd hp (List.not_mem_nil p)
      · rcases h with h | h | h
        · exact absurd ha (not_lt.mpr h)
        · exact absurd hb (not_lt.mpr h)
        · exact absurd hd (not_lt.mpr h)

/-- Witness for C18: the ray straight up points away from the plane (`d = -4`),
so the empty scene reports no hit. -/
theorem scene_intersect_horizon_witness :
    plane_dist (rayUp : Ray ℝ) ≤ 0 ∧
      (scene_intersect (envOf Real.sqrt (fun x y => x ^ y)) (rayUp : Ray ℝ) []
        ⟨0, 0, 0⟩ ⟨0, 0, 0⟩ plain).found = false :=
  ⟨by norm_num [plane_dist, rayUp, Ray.make],
   (scene_intersect_horizon (envOf Real.sqrt (fun x y => x ^ y)) (rayUp : Ray ℝ) []
      ⟨0, 0, 0⟩ ⟨0, 0, 0⟩ plain).2.2
      (Or.inr (Or.inl (by norm_num [plane_dist, rayUp, Ray.make])))⟩

end HorizonClaim

section Checkerboard

theorem toInt_1001 : toInt ((1 : ℝ) / 2 * 2 + 1000) = 1001 := by
  have h : ((1 : ℝ) / 2 * 2 + 1000) = ((1001 : ℤ) : ℝ) := by norm_num
  rw [toInt, if_pos (by norm_num), h, Int.floor_intCast]

theorem toInt_neg_two_thirds : toInt ((1 : ℝ) / 2 * (-4 / 3)) = 0 := by
  rw [toInt, if_neg (by norm_num), Int.ceil_eq_iff]
  norm_num

theorem toInt_two_thirds : toInt ((1 : ℝ) / 2 * (4 / 3)) = 0 := by
  rw [toInt, if_pos (by norm_num), Int.floor_eq_iff]
  norm_num

theorem floor_one : Int.floor ((1 : ℝ) / 2 * 2) = 1 := by
  rw [Int.floor_eq_iff]; norm_num

theorem floor_neg_two_thirds : Int.floor ((1 : ℝ) / 2 * (-4 / 3)) = -1 := by
  rw [Int.floor_eq_iff]; norm_num

theorem floor_two_thirds : Int.floor ((1 : ℝ) / 2 * (4 / 3)) = 0 := by
  rw [Int.floor_eq_iff]; norm_num

/-- C15 fails on the code (`int` truncates toward zero and only `x` is shifted
by 1000): the rays `rayBack` and `rayFront` hit the plane at `(2, -4, -4/3)` and
`(2, -4, 4/3)`, in the adjacent 2x2 cells `z` in `[-2, 0)` and `[0, 2)`, where
`floor(0.5 x) + floor(0.5 z)` is `0` (even) and `1` (odd), yet both hit points
get the same diffuse colour `(0.1, 0.1, 0.1)`. -/
theorem checkerboard_same_colour_across_z0 :
    ((scene_intersect (envOf Real.sqrt (fun x y => x ^ y)) (rayBack : Ray ℝ) []
          ⟨0, 0, 0⟩ ⟨0, 0, 0⟩ plain).found = true ∧
        (scene_intersect (envOf Real.sqrt (fun x y => x ^ y)) (rayBack : Ray ℝ) []
          ⟨0, 0, 0⟩ ⟨0, 0, 0⟩ plain).hit = ⟨2, -4, -4 / 3⟩ ∧
        (Int.floor ((1 : ℝ) / 2 * 2) + Int.floor ((1 : ℝ) / 2 * (-4 / 3))) % 2 = 0 ∧
        (scene_intersect (envOf Real.sqrt (fun x y => x ^ y)) (rayBack : Ray ℝ) []
          ⟨0, 0, 0⟩ ⟨0, 0, 0⟩ plain).material.diffuse_color = ⟨1 / 10, 1 / 10, 1 / 10⟩) ∧
      ((scene_intersect (envOf Real.sqrt (fun x y => x ^ y)) (rayFront : Ray ℝ) []
          ⟨0, 0, 0⟩ ⟨0, 0, 0⟩ plain).found = true ∧
        (scene_intersect (envOf Real.sqrt (fun x y => x ^ y)) (rayFront : Ray ℝ) []
          ⟨0, 0, 0⟩ ⟨0, 0, 0⟩ plain).hit = ⟨2, -4, 4 / 3⟩ ∧
        (Int.floor ((1 : ℝ) / 2 * 2) + Int.floor ((1 : ℝ) / 2 * (4 / 3))) % 2 = 1 ∧
        (scene_intersect (envOf Real.sqrt (fun x y => x ^ y)) (rayFront : Ray ℝ) []
          ⟨0, 0, 0⟩ ⟨0, 0, 0⟩ plain).material.diffuse_color = ⟨1 / 10, 1 / 10, 1 / 10⟩) := by
  have habs : |(6 / 7 : ℝ)| = 6 / 7 := abs_of_pos (by norm_num)
  have cA : checkerboard_color (⟨2, -4, -4 / 3⟩ : Vec3f ℝ) = ⟨1 / 10, 1 / 10, 1 / 10⟩ := by
    simp only [checkerboard_color, toInt_1001, toInt_neg_two_thirds]
    norm_num
  have cB : checkerboard_color (⟨2, -4, 4 / 3⟩ : Vec3f ℝ) = ⟨1 / 10, 1 / 10, 1 / 10⟩ := by
    simp only [checkerboard_color, toInt_1001, toInt_two_thirds]
    norm_num
  have ptA : (⟨0, 0, 0⟩ : Vec3f ℝ).add ((⟨3 / 7, -6 / 7, -2 / 7⟩ : Vec3f ℝ).scale
      (-(0 + 4) / (-6 / 7))) = ⟨2, -4, -4 / 3⟩ := by
    norm_num [Vec3f.add, Vec3f.scale]
  have ptB : (⟨0, 0, 0⟩ : Vec3f ℝ).add ((⟨3 / 7, -6 / 7, 2 / 7⟩ : Vec3f ℝ).scale
      (-(0 + 4) / (-6 / 7))) = ⟨2, -4, 4 / 3⟩ := by
    norm_num [Vec3f.add, Vec3f.scale]
  refine ⟨⟨?_, ?_, ?_, ?_⟩, ?_, ?_, ?_, ?_⟩
  · norm_num [scene_intersect, scene_loop, rayBack, Ray.make, FLT_MAX, habs]
  · simp only [scene_intersect, scene_loop, List.foldl, rayBack, Ray.make, ptA]
    norm_num [FLT_MAX, habs]
  · rw [floor_one, floor_neg_two_thirds]; rfl
  · simp only [scene_intersect, scene_loop, List.foldl, rayBack, Ray.make, ptA, cA]
    norm_num [FLT_MAX, habs]
  · norm_num [scene_intersect, scene_loop, rayFront, Ray.make, FLT_MAX, habs]
  · simp only [scene_intersect, scene_loop, List.foldl, rayFront, Ray.make, ptB]
    norm_num [FLT_MAX, habs]
  · rw [floor_one, floor_two_thirds]; rfl
  · simp only [scene_intersect, scene_loop, List.foldl, rayFront, Ray.make, ptB, cB]
    norm_num [FLT_MAX, habs]


theorem sphereBelow_hit :
    (Figure.sphere sphereBelow).ray_intersect Real.sqrt (rayDownY : Ray ℝ) = some 9 := by
  norm_num [Figure.ray_intersect, Sphere.ray_intersect, sphereBelow, rayDownY, Ray.make,
    Vec3f.sub, Vec3f.dot]

/-- C16 fails on the code (the plane branch assigns only `diffuse_color`): the
ray straight down meets the plane at distance 4; with the mirror sphere
`sphereBelow` behind the plane (hit at distance 9) the plane is the reported
hit but the returned albedo, specular exponent and refractive index are the
sphere's, while for the empty list they are those of the material the caller
passed in. -/
theorem checkerboard_material_leaks :
    ((scene_intersect (envOf Real.sqrt (fun x y => x ^ y)) (rayDownY : Ray ℝ)
          [Figure.sphere sphereBelow] ⟨0, 0, 0⟩ ⟨0, 0, 0⟩ plain).found = true ∧
        (scene_intersect (envOf Real.sqrt (fun x y => x ^ y)) (rayDownY : Ray ℝ)
          [Figure.sphere sphereBelow] ⟨0, 0, 0⟩ ⟨0, 0, 0⟩ plain).hit = ⟨0, -4, 0⟩ ∧
        (scene_intersect (envOf Real.sqrt (fun x y => x ^ y)) (rayDownY : Ray ℝ)
          [Figure.sphere sphereBelow] ⟨0, 0, 0⟩ ⟨0, 0, 0⟩ plain).N = ⟨0, 1, 0⟩ ∧
        (scene_intersect (envOf Real.sqrt (fun x y => x ^ y)) (rayDownY : Ray ℝ)
          [Figure.sphere sphereBelow] ⟨0, 0, 0⟩ ⟨0, 0, 0⟩ plain).material.albedo
            = ⟨0, 10, 8 / 10, 0⟩ ∧
        (scene_intersect (envOf Real.sqrt (fun x y => x ^ y)) (rayDownY : Ray ℝ)
          [Figure.sphere sphereBelow] ⟨0, 0, 0⟩ ⟨0, 0, 0⟩ plain).material.specular_exponent
            = 1425) ∧
      ((scene_intersect (envOf Real.sqrt (fun x y => x ^ y)) (rayDownY : Ray ℝ)
          [] ⟨0, 0, 0⟩ ⟨0, 0, 0⟩ plain).found = true ∧
        (scene_intersect (envOf Real.sqrt (fun x y => x ^ y)) (rayDownY : Ray ℝ)
          [] ⟨0, 0, 0⟩ ⟨0, 0, 0⟩ plain).hit = ⟨0, -4, 0⟩ ∧
        (scene_intersect (envOf Real.sqrt (fun x y => x ^ y)) (rayDownY : Ray ℝ)
          [] ⟨0, 0, 0⟩ ⟨0, 0, 0⟩ plain).N = ⟨0, 1, 0⟩ ∧
        (scene_intersect (envOf Real.sqrt (fun x y => x ^ y)) (rayDownY : Ray ℝ)
          [] ⟨0, 0, 0⟩ ⟨0, 0, 0⟩ plain).material.albedo = ⟨1, 0, 0, 0⟩ ∧
        (scene_intersect (envOf Real.sqrt (fun x y => x ^ y)) (rayDownY : Ray ℝ)
          [] ⟨0, 0, 0⟩ ⟨0, 0, 0⟩ plain).material.specular_exponent = 0) := by
  refine ⟨⟨?_, ?_, ?_, ?_, ?_⟩, ?_, ?_, ?_, ?_, ?_⟩
  all_goals
    simp only [scene_intersect, scene_loop, List.foldl, scene_step, envOf, sphereBelow_hit]
    norm_num [rayDownY, Ray.make, FLT_MAX, Figure.NeededDist, Figure.setNeededDist,
      Figure.SetNeededNormHitMaterial, Figure.material, sphereBelow, mirror, plain,
      Vec3f.scale, Vec3f.add]

end Checkerboard

section RowPartition

/-- The closed form of the ranges produced from index `i` on. -/
theorem partition_loop_closed (n H p : Nat) (hn : 1 ≤ n) :
    ∀ (k i : Nat), i + k = n → 
      partition_loop n H p (i * p) (if i + 1 = n then H else (i + 1) * p) i =
        (List.range' i k).map (fun idx => (idx * p, if idx + 1 = n then H else (idx + 1) * p)) := by
  intro k
  induction k with
  | zero =>
    intro i hi
    rw [partition_loop, if_neg (by omega)]
    rfl
  | succ k ih =>
    intro i hi
    rw [partition_loop, if_pos (by omega)]
    rw [List.range'_succ, List.map_cons]
    congr 1
    by_cases hlast : i + 1 = n
    · have hk : k = 0 := by omega
      subst hk
      rw [partition_loop, if_neg (by omega)]
      rfl
    · have h2 := ih (i + 1) (by omega)
      rw [if_neg hlast]
      have e : (if i + 1 = n - 1 then H else (i + 1) * p + p)
          = (if i + 1 + 1 = n then H else (i + 1 + 1) * p) := by
        by_cases h3 : i + 1 + 1 = n
        · rw [if_pos h3, if_pos (by omega)]
        · rw [if_neg h3, if_neg (by omega)]
          ring
      rw [e]
      exact h2

theorem row_ranges_closed (n H : Nat) (hn : 1 ≤ n) :
    row_ranges n H =
      (List.range n).map (fun idx => (idx * (H / n), if idx + 1 = n then H else (idx + 1) * (H / n))) := by
  have h := partition_loop_closed n H (H / n) hn n 0 (by omega)
  rw [List.range_eq_range']
  rw [← h, row_ranges]
  congr 1
  · simp
  · by_cases h1 : 0 + 1 = n
    · rw [if_pos h1]
      have : n = 1 := by omega
      subst this
      simp
    · rw [if_neg h1]; simp


theorem row_writes (width j : Nat) :
    (List.range width).map (fun i => i + j * width) = List.range' (j * width) width := by
  rw [List.range_eq_range']
  have h : (fun i => i + j * width) = (fun i => j * width + i) := by
    funext i; exact Nat.add_comm _ _
  rw [h, List.map_add_range']
  simp

theorem rows_writes (width : Nat) :
    ∀ (m a : Nat),
      (List.range' a m).flatMap (fun j => (List.range width).map (fun i => i + j * width))
        = List.range' (a * width) (m * width) := by
  intro m
  induction m with
  | zero => intro a; simp
  | succ m ih =>
    intro a
    rw [List.range'_succ, List.flatMap_cons, ih (a + 1), row_writes]
    have e1 : (a + 1) * width = a * width + 1 * width := by ring
    have e2 : (m + 1) * width = m * width + width := by ring
    rw [e1, e2]
    exact List.range'_append (a * width) width (m * width) 1

theorem worker_writes_eq (width : Nat) (r : Nat × Nat) :
    worker_writes width r = List.range' (r.1 * width) ((r.2 - r.1) * width) :=
  rows_writes width (r.2 - r.1) r.1

theorem ranges_flatten (n H width : Nat) :
    ∀ (k i : Nat), i + (k + 1) = n →
      (((List.range' i (k + 1)).map
          (fun idx => (idx * (H / n), if idx + 1 = n then H else (idx + 1) * (H / n)))).map
        (worker_writes width)).flatten
        = List.range' (i * (H / n) * width) ((H - i * (H / n)) * width) := by
  intro k
  induction k with
  | zero =>
    intro i hi
    have h1 : i + 1 = n := by omega
    simp only [List.range'_succ, List.range'_zero, List.map_cons, List.map_nil,
      List.flatten_cons, List.flatten_nil, List.append_nil, worker_writes_eq, if_pos h1]
  | succ k ih =>
    intro i hi
    have h1 : ¬ (i + 1 = n) := by omega
    have hle : (i + 1) * (H / n) ≤ H := by
      calc (i + 1) * (H / n) ≤ n * (H / n) := Nat.mul_le_mul_right _ (by omega)
        _ ≤ H := Nat.mul_div_le H n
    have h2 := ih (i + 1) (by omega)
    rw [List.range'_succ, List.map_cons, List.map_cons, List.flatten_cons, h2, worker_writes_eq]
    simp only [if_neg h1]
    have e0 : (i + 1) * (H / n) = i * (H / n) + H / n := by ring
    rw [e0] at hle ⊢
    generalize i * (H / n) = a at hle ⊢
    generalize H / n = p at hle ⊢
    have e1 : a + p - a = p := by omega
    have e2 : (a + p) * width = a * width + 1 * (p * width) := by ring
    have e3 : (H - a) * width = (H - (a + p)) * width + p * width := by
      rw [← Nat.add_mul]
      congr 1
      omega
    rw [e1, e2, e3]
    exact List.range'_append (a * width) (p * width) ((H - (a + p)) * width) 1

theorem writes_flatten (n H width : Nat) (hn : 1 ≤ n) :
    ((row_ranges n H).map (worker_writes width)).flatten = List.range (width * H) := by
  rw [row_ranges_closed n H hn, List.range_eq_range']
  obtain ⟨k, hk⟩ : ∃ k, n = k + 1 := ⟨n - 1, by omega⟩
  have h := ranges_flatten n H width k 0 (by omega)
  rw [← hk] at h
  rw [h]
  simp [Nat.mul_comm, List.range_eq_range']

theorem ranges_chain (n H : Nat) :
    ∀ (k i : Nat), i + k = n →
      List.Chain' (fun r s : Nat × Nat => r.2 = s.1)
        ((List.range' i k).map
          (fun idx => (idx * (H / n), if idx + 1 = n then H else (idx + 1) * (H / n)))) := by
  intro k
  induction k with
  | zero => intro i _; simp
  | succ k ih =>
    intro i hi
    have h2 := ih (i + 1) (by omega)
    rw [List.range'_succ, List.map_cons]
    cases k with
    | zero => simp
    | succ k =>
      rw [List.range'_succ, List.map_cons] at h2 ⊢
      rw [List.chain'_cons]
      refine ⟨?_, h2⟩
      simp only [if_neg (show ¬ (i + 1 = n) by omega)]


theorem row_ranges_le (n H : Nat) (hn : 1 ≤ n) : ∀ r ∈ row_ranges n H, r.1 ≤ r.2 := by
  intro r hr
  rw [row_ranges_closed n H hn] at hr
  obtain ⟨idx, hidx, rfl⟩ := List.mem_map.mp hr
  have hlt : idx < n := List.mem_range.mp hidx
  by_cases h1 : idx + 1 = n
  · simp only [if_pos h1]
    calc idx * (H / n) ≤ n * (H / n) := Nat.mul_le_mul_right _ (by omega)
      _ ≤ H := Nat.mul_div_le H n
  · simp only [if_neg h1]
    exact Nat.mul_le_mul_right _ (by omega)

/-- C12: the row partition of `render`.  For every thread count `n >= 1` and
height `H` the loop produces the `n` ranges `[idx * (H / n), (idx + 1) * (H / n))`
for `idx < n - 1` and `[(n - 1) * (H / n), H)` for the last one (the first
`n - 1` ranges have `floor(H / n)` rows, the last takes the remainder); the
ranges are contiguous (each starts where the previous one ends), their rows
listed in order are exactly `0 .. H - 1`, and the framebuffer indices
`i + j * width` written by the workers, listed in order, are exactly
`0 .. width * H - 1`: no worker writes a cell twice, the write sets of different
workers are disjoint, and a cell is written iff it lies in `[0, width * H)`. -/
theorem render_partition (n H width : Nat) (hn : 1 ≤ n) :
    row_ranges n H =
        (List.range n).map
          (fun idx => (idx * (H / n), if idx + 1 = n then H else (idx + 1) * (H / n))) ∧
      (row_ranges n H).length = n ∧
      List.Chain' (fun r s : Nat × Nat => r.2 = s.1) (row_ranges n H) ∧
      (∀ r ∈ row_ranges n H, r.1 ≤ r.2) ∧
      ((row_ranges n H).map (fun r => List.range' r.1 (r.2 - r.1))).flatten = List.range H ∧
      ((row_ranges n H).map (worker_writes width)).flatten = List.range (width * H) ∧
      (∀ r ∈ row_ranges n H, (worker_writes width r).Nodup) ∧
      List.Pairwise List.Disjoint ((row_ranges n H).map (worker_writes width)) ∧
      (∀ k, k < width * H ↔ ∃ r ∈ row_ranges n H, k ∈ worker_writes width r) := by
  have hclosed := row_ranges_closed n H hn
  have hflat := writes_flatten n H width hn
  have hnodup : (((row_ranges n H).map (worker_writes width)).flatten).Nodup := by
    rw [hflat]; exact List.nodup_range _
  obtain ⟨hn1, hn2⟩ := List.nodup_flatten.mp hnodup
  refine ⟨hclosed, ?_, ?_, row_ranges_le n H hn, ?_, hflat, ?_, hn2, ?_⟩
  · rw [hclosed, List.length_map, List.length_range]
  · rw [hclosed, List.range_eq_range']
    exact ranges_chain n H n 0 (by omega)
  · have h1 := writes_flatten n H 1 hn
    have e : (fun r : Nat × Nat => List.range' r.1 (r.2 - r.1)) = worker_writes 1 := by
      funext r
      rw [worker_writes_eq]
      simp
    rw [e, h1, Nat.one_mul]
  · intro r hr
    exact hn1 _ (List.mem_map.mpr ⟨r, hr, rfl⟩)
  · intro k
    rw [← List.mem_range, ← hflat, List.mem_flatten]
    constructor
    · rintro ⟨l, hl, hk⟩
      obtain ⟨r, hr, rfl⟩ := List.mem_map.mp hl
      exact ⟨r, hr, hk⟩
    · rintro ⟨r, hr, hk⟩
      exact ⟨_, List.mem_map.mpr ⟨r, hr, rfl⟩, hk⟩

/-- Witness for C12: 8 threads on the 1080 rows of the 1920-wide image. -/
theorem render_partition_witness :
    (row_ranges 8 1080).length = 8 ∧
      ((row_ranges 8 1080).map (worker_writes 1920)).flatten = List.range (1920 * 1080) :=
  ⟨(render_partition 8 1080 1920 (by decide)).2.1,
   (render_partition 8 1080 1920 (by decide)).2.2.2.2.2.1⟩

end RowPartition

section ToneMappingTheorems

variable {α : Type} [LinearOrderedField α]

theorem tone_map_max (c : Vec3f α) (h : 1 < max c.x (max c.y c.z)) :
    max (c.x * (1 / max c.x (max c.y c.z)))
      (max (c.y * (1 / max c.x (max c.y c.z))) (c.z * (1 / max c.x (max c.y c.z)))) = 1 := by
  have hx : c.x ≤ max c.x (max c.y c.z) := le_max_left _ _
  have hy : c.y ≤ max c.x (max c.y c.z) := le_trans (le_max_left _ _) (le_max_right _ _)
  have hz : c.z ≤ max c.x (max c.y c.z) := le_trans (le_max_right _ _) (le_max_right _ _)
  have hm : c.x = max c.x (max c.y c.z) ∨ c.y = max c.x (max c.y c.z) ∨
      c.z = max c.x (max c.y c.z) := by
    rcases max_choice c.x (max c.y c.z) with h1 | h1
    · exact Or.inl h1.symm
    · rcases max_choice c.y c.z with h2 | h2
      · exact Or.inr (Or.inl (by rw [h1, h2]))
      · exact Or.inr (Or.inr (by rw [h1, h2]))
  generalize max c.x (max c.y c.z) = m at h hx hy hz hm
  have hpos : 0 < m := lt_trans one_pos h
  have hone : m * (1 / m) = 1 := by field_simp
  have hle : ∀ a, a ≤ m → a * (1 / m) ≤ 1 := by
    intro a ha
    rw [mul_one_div, div_le_one hpos]
    exact ha
  apply le_antisymm
  · exact max_le (hle _ hx) (max_le (hle _ hy) (hle _ hz))
  · rcases hm with h1 | h1 | h1
    · rw [h1, hone]; exact le_max_left _ _
    · rw [h1, hone]; exact le_trans (le_max_left _ _) (le_max_right _ _)
    · rw [h1, hone]; exact le_trans (le_max_right _ _) (le_max_right _ _)

/-- C13: tone mapping in `render`.  A colour whose largest channel `m` exceeds 1
is replaced by `c / m`: its largest channel becomes exactly 1 and the channel
ratios are preserved, e.g. `(2, 1/2, 1/2)` becomes `(1, 1/4, 1/4)`; a colour
whose largest channel is at most 1 is left unchanged; and after clamping to
`[0, 1]` every channel quantises to an integer in `0 .. 255`. -/
theorem tone_mapping [FloorRing α] (c : Vec3f α) :
    (1 < max c.x (max c.y c.z) →
        tone_map c = ⟨c.x / max c.x (max c.y c.z), c.y / max c.x (max c.y c.z),
          c.z / max c.x (max c.y c.z)⟩ ∧
        max (tone_map c).x (max (tone_map c).y (tone_map c).z) = 1 ∧
        (tone_map c).x * c.y = (tone_map c).y * c.x ∧
        (tone_map c).y * c.z = (tone_map c).z * c.y ∧
        (tone_map c).z * c.x = (tone_map c).x * c.z) ∧
      (max c.x (max c.y c.z) ≤ 1 → tone_map c = c) ∧
      (0 ≤ quantise (tone_map c).x ∧ quantise (tone_map c).x ≤ 255 ∧
        0 ≤ quantise (tone_map c).y ∧ quantise (tone_map c).y ≤ 255 ∧
        0 ≤ quantise (tone_map c).z ∧ quantise (tone_map c).z ≤ 255) ∧
      tone_map (⟨2, 1 / 2, 1 / 2⟩ : Vec3f α) = ⟨1, 1 / 4, 1 / 4⟩ := by
  have hq : ∀ x : α, 0 ≤ quantise x ∧ quantise x ≤ 255 := by
    intro x
    have h0 : (0 : α) ≤ 255 * max 0 (min 1 x) :=
      mul_nonneg (by norm_num) (le_max_left _ _)
    have h1 : 255 * max 0 (min 1 x) ≤ 255 := by
      have : max 0 (min 1 x) ≤ 1 := max_le zero_le_one (min_le_left _ _)
      linarith
    rw [quantise, toInt, if_pos h0]
    constructor
    · exact Int.floor_nonneg.mpr h0
    · have h2 : ((Int.floor (255 * max 0 (min 1 x)) : ℤ) : α) ≤ ((255 : ℤ) : α) := by
        push_cast
        exact le_trans (Int.floor_le _) h1
      exact_mod_cast h2
  refine ⟨?_, ?_, ⟨(hq _).1, (hq _).2, (hq _).1, (hq _).2, (hq _).1, (hq _).2⟩, ?_⟩
  · intro h
    have ht : tone_map c = ⟨c.x * (1 / max c.x (max c.y c.z)),
        c.y * (1 / max c.x (max c.y c.z)), c.z * (1 / max c.x (max c.y c.z))⟩ := by
      simp only [tone_map, Vec3f.scale]
      rw [if_pos h]
    rw [ht]
    refine ⟨?_, tone_map_max c h, ?_, ?_, ?_⟩
    · simp only [mul_one_div]
    · ring
    · ring
    · ring
  · intro h
    simp only [tone_map]
    rw [if_neg (not_lt.mpr h)]
  · have h2 : max (2 : α) (max (1 / 2) (1 / 2)) = 2 := by
      rw [max_self, max_eq_left (by norm_num)]
    simp only [tone_map, Vec3f.scale, h2]
    norm_num

/-- Witness for C13 at the colour `(2, 1/2, 1/2)`. -/
theorem tone_mapping_witness :
    max (tone_map (⟨2, 1 / 2, 1 / 2⟩ : Vec3f ℝ)).x
        (max (tone_map (⟨2, 1 / 2, 1 / 2⟩ : Vec3f ℝ)).y (tone_map (⟨2, 1 / 2, 1 / 2⟩ : Vec3f ℝ)).z)
      = 1 :=
  ((tone_mapping (⟨2, 1 / 2, 1 / 2⟩ : Vec3f ℝ)).1 (by
    show (1 : ℝ) < max 2 (max (1 / 2) (1 / 2))
    rw [max_self, max_eq_left (by norm_num)]
    norm_num)).2.1

end ToneMappingTheorems

/-! ## The corner pixels of the end-to-end scene -/

section CornerHelpers

/-- A ray that misses every listed primitive leaves the loop state unchanged. -/
theorem scene_loop_of_miss {α : Type} [LinearOrderedField α] (E : Env α) (ray : Ray α)
    (figures : List (Figure α)) (hit N : Vec3f α) (material : Material α)
    (h : ∀ p ∈ figures, p.ray_intersect E.sqrtf ray = none) :
    scene_loop E ray figures hit N material =
      SceneState.mk FLT_MAX FLT_MAX FLT_MAX hit N material := by
  unfold scene_loop
  generalize SceneState.mk (FLT_MAX : α) FLT_MAX FLT_MAX hit N material = st
  induction figures generalizing st with
  | nil => rfl
  | cons q rest ih =>
    have h1 : scene_step E ray st q = st := by
      simp only [scene_step, h q (List.mem_cons_self q rest)]
    rw [List.foldl_cons, h1]
    exact ih (fun p hp => h p (List.mem_cons_of_mem q hp)) st

/-- A ray that misses every primitive and does not descend towards the plane
`y = -4` finds nothing. -/
theorem scene_intersect_of_miss_up {α : Type} [LinearOrderedField α] [FloorRing α]
    (E : Env α) (ray : Ray α) (figures : List (Figure α)) (hit N : Vec3f α)
    (material : Material α)
    (h : ∀ p ∈ figures, p.ray_intersect E.sqrtf ray = none)
    (ho : 0 ≤ ray.orig.y + 4) (hy : 0 ≤ ray.dir.y) :
    (scene_intersect E ray figures hit N material).found = false := by
  have hd : ¬ (-(ray.orig.y + 4) / ray.dir.y > 0) := by
    have : -(ray.orig.y + 4) / ray.dir.y ≤ 0 :=
      div_nonpos_of_nonpos_of_nonneg (by linarith) hy
    exact not_lt.mpr this
  unfold scene_intersect
  rw [scene_loop_of_miss E ray figures hit N material h]
  simp only
  split_ifs with h1 h2
  · exact absurd h2.1 hd
  · norm_num [FLT_MAX]
  · norm_num [FLT_MAX]

/-- A ray that misses every primitive and descends to the plane `y = -4` within
the horizon hits the plane: upward normal, checkerboard colour, the rest of the
material as on entry. -/
theorem scene_intersect_of_miss_down {α : Type} [LinearOrderedField α] [FloorRing α]
    (E : Env α) (ray : Ray α) (figures : List (Figure α)) (hit N : Vec3f α)
    (material : Material α)
    (h : ∀ p ∈ figures, p.ray_intersect E.sqrtf ray = none)
    (hy : |ray.dir.y| > 1 / 1000) (hd0 : 0 < plane_dist ray) (hd : plane_dist ray < 1000) :
    scene_intersect E ray figures hit N material =
      SceneResult.mk true (ray.orig.add (ray.dir.scale (plane_dist ray))) ⟨0, 1, 0⟩
        (Material.mk (checkerboard_color (ray.orig.add (ray.dir.scale (plane_dist ray))))
          material.albedo material.specular_exponent material.refractive_index) := by
  have hF : plane_dist ray < FLT_MAX := lt_trans hd (by norm_num [FLT_MAX])
  unfold scene_intersect
  rw [scene_loop_of_miss E ray figures hit N material h]
  unfold plane_dist at hd0 hd hF ⊢
  simp only
  rw [if_pos hy, if_pos ⟨hd0, hF, hF⟩]
  have hm : min (min (min (FLT_MAX : α) (-(ray.orig.y + 4) / ray.dir.y)) FLT_MAX) FLT_MAX
      < 1000 := by
    simp only [min_lt_iff]
    exact Or.inl (Or.inl (Or.inr hd))
  simp only [hm, decide_True]

/-- Without a hit `cast_ray` returns the background colour. -/
theorem cast_ray_of_no_hit {α : Type} [LinearOrderedField α] [FloorRing α] (E : Env α)
    (ray : Ray α) (figures : List (Figure α)) (lights : List (Light α)) (depth : Nat)
    (h : (scene_intersect E ray figures E.vec_default E.vec_default E.material_default).found
      = false) :
    cast_ray E ray figures lights depth = background := by
  rw [cast_ray]
  by_cases hd : depth > 4
  · simp [hd]
  · simp [hd, h]

/-- The blue channel of both checkerboard colours is `1 / 10`. -/
theorem checkerboard_color_z {α : Type} [LinearOrderedField α] [FloorRing α] (p : Vec3f α) :
    (checkerboard_color p).z = 1 / 10 := by
  unfold checkerboard_color
  split_ifs <;> rfl

/-- The `y` component of a normalised vector is at most 1. -/
theorem normalize_y_le_one (w : Vec3f ℝ) : (w.normalize Real.sqrt).y ≤ 1 := by
  simp only [Vec3f.normalize, Vec3f.norm, Vec3f.scale]
  rcases (dot_self_nonneg w).eq_or_lt with h0 | hpos
  · rw [← h0]
    simp
  · have hn : 0 < Real.sqrt (w.dot w) := Real.sqrt_pos.mpr hpos
    have hle : |w.y| ≤ Real.sqrt (w.dot w) := by
      apply Real.abs_le_sqrt
      simp only [Vec3f.dot]
      nlinarith [mul_self_nonneg w.x, mul_self_nonneg w.z]
    rw [mul_one_div, div_le_one hn]
    exact le_trans (le_abs_self _) hle

/-- With one light, a hit whose normal is `(0, 1, 0)`, whose albedo is
`(1, 0, 0, 0)` and whose diffuse blue channel is `1 / 10` is shaded with a blue
channel of at most a tenth of the light intensity. -/
theorem cast_ray_blue_le (E : Env ℝ) (hE : E.sqrtf = Real.sqrt) (ray : Ray ℝ)
    (figures : List (Figure ℝ)) (l : Light ℝ) (hl : 0 ≤ l.intensity)
    (hf : (scene_intersect E ray figures E.vec_default E.vec_default
      E.material_default).found = true)
    (hN : (scene_intersect E ray figures E.vec_default E.vec_default
      E.material_default).N = ⟨0, 1, 0⟩)
    (ha : (scene_intersect E ray figures E.vec_default E.vec_default
      E.material_default).material.albedo = ⟨1, 0, 0, 0⟩)
    (hc : (scene_intersect E ray figures E.vec_default E.vec_default
      E.material_default).material.diffuse_color.z = 1 / 10) :
    (cast_ray E ray figures [l] 0).z ≤ 1 / 10 * l.intensity := by
  have hy := normalize_y_le_one
    (l.position.sub (scene_intersect E ray figures E.vec_default E.vec_default
      E.material_default).hit)
  rw [cast_ray]
  rw [if_neg (by decide)]
  simp only [hf, Bool.not_true, Bool.false_eq_true, if_false, shade, List.foldl, light_step,
    Vec3f.add, Vec3f.scale, Vec3f.dot, ha, hc, hN, hE]
  split_ifs with hs
  · simp only [mul_zero, add_zero, mul_one, zero_mul]
    linarith
  · simp only [mul_zero, add_zero, mul_one, zero_mul, zero_add]
    have hm : max 0 (Vec3f.normalize Real.sqrt
        (l.position.sub (scene_intersect E ray figures E.vec_default E.vec_default
          E.material_default).hit)).y ≤ 1 := max_le (by norm_num) hy
    have := mul_le_mul_of_nonneg_left hm hl
    linarith

/-- A ray from `o` along the normalised `v` misses a sphere when the squared
distance of the centre from the line of the ray exceeds the squared radius. -/
theorem sphere_miss_normalized (s : Sphere ℝ) (o v : Vec3f ℝ) (hv : 0 < v.dot v)
    (h : (s.center.sub o).dot v * (s.center.sub o).dot v
      < ((s.center.sub o).dot (s.center.sub o) - s.radius * s.radius) * v.dot v) :
    s.ray_intersect Real.sqrt (Ray.make o (v.normalize Real.sqrt)) = none := by
  have hn : Real.sqrt (v.dot v) * Real.sqrt (v.dot v) = v.dot v := Real.mul_self_sqrt hv.le
  have hnpos : 0 < Real.sqrt (v.dot v) := Real.sqrt_pos.mpr hv
  have htca : (s.center.sub o).dot (v.normalize Real.sqrt)
      = (s.center.sub o).dot v * (1 / Real.sqrt (v.dot v)) := by
    simp only [Vec3f.normalize, Vec3f.norm, Vec3f.dot, Vec3f.scale]
    ring
  rw [sphere_ray_intersect_cases]
  simp only [Ray.make, htca]
  rw [if_pos]
  generalize (s.center.sub o).dot v = a at h ⊢
  generalize (s.center.sub o).dot (s.center.sub o) = b at h ⊢
  generalize Real.sqrt (v.dot v) = n at hn hnpos ⊢
  have e : a * (1 / n) * (a * (1 / n)) = a * a / (n * n) := by
    field_simp
  rw [e, hn, gt_iff_lt, lt_sub_iff_add_lt, ← lt_sub_iff_add_lt', div_lt_iff₀ hv]
  exact h

/-- The half field of view of `render` has tangent `1 / sqrt 3`. -/
theorem tan_half_fov : Real.tan (Real.pi / 3 / 2) = 1 / Real.sqrt 3 := by
  rw [show Real.pi / 3 / 2 = Real.pi / 6 by ring]
  exact Real.tan_pi_div_six

/-- The depth `dir_z` of the image plane of `render` lies between -936 and -935. -/
theorem dir_z_bounds :
    -936 < -1080 / (2 * Real.tan (Real.pi / 3 / 2)) ∧
      -1080 / (2 * Real.tan (Real.pi / 3 / 2)) < -935 := by
  have h3 : Real.sqrt 3 * Real.sqrt 3 = 3 := Real.mul_self_sqrt (by norm_num)
  have hpos : 0 < Real.sqrt 3 := Real.sqrt_pos.mpr (by norm_num)
  have e : -1080 / (2 * Real.tan (Real.pi / 3 / 2)) = -540 * Real.sqrt 3 := by
    rw [tan_half_fov]
    field_simp
    ring
  rw [e]
  constructor <;> nlinarith

/-- The directions of `pixel_dir` at the four corners. -/
theorem pixel_dir_corner (i j : Nat) :
    (pixel_dir Real.tan Real.pi i j).x = (i : ℝ) - 1919 / 2 ∧
      (pixel_dir Real.tan Real.pi i j).y = 1079 / 2 - (j : ℝ) ∧
      -936 < (pixel_dir Real.tan Real.pi i j).z ∧
      (pixel_dir Real.tan Real.pi i j).z < -935 := by
  refine ⟨?_, ?_, dir_z_bounds.1, dir_z_bounds.2⟩
  · simp only [pixel_dir]
    ring
  · simp only [pixel_dir]
    ring

/-- Every sample direction stays within half a unit of the pixel direction. -/
theorem aa_dir_box {α : Type} [LinearOrderedField α] (k : Nat) (x y z : α) :
    (x ≤ (aa_dir k x y z).x ∧ (aa_dir k x y z).x ≤ x + 1 / 2) ∧
      (y ≤ (aa_dir k x y z).y ∧ (aa_dir k x y z).y ≤ y + 1 / 2) ∧
      (z - 1 / 2 ≤ (aa_dir k x y z).z ∧ (aa_dir k x y z).z ≤ z + 1 / 2) := by
  unfold aa_dir
  split <;> refine ⟨⟨?_, ?_⟩, ⟨?_, ?_⟩, ?_, ?_⟩ <;> simp only [] <;> linarith

/-- A direction in the box of the corner samples misses the sphere of the
end-to-end scene. -/
theorem corner_sphere_miss (m : Material ℝ) (v : Vec3f ℝ) (hx : 919681 ≤ v.x * v.x)
    (hz1 : -937 ≤ v.z) (hz2 : v.z ≤ 0) :
    (Figure.sphere ⟨⟨0, 0, -10⟩, 2, m⟩).ray_intersect Real.sqrt
      (Ray.make ⟨0, 0, 0⟩ (v.normalize Real.sqrt)) = none := by
  have hzz : v.z * v.z ≤ 877969 := by nlinarith
  have hv : 0 < v.dot v := by
    simp only [Vec3f.dot]
    nlinarith [mul_self_nonneg v.y, mul_self_nonneg v.z]
  simp only [Figure.ray_intersect]
  apply sphere_miss_normalized _ _ _ hv
  simp only [Vec3f.dot, Vec3f.sub]
  nlinarith [mul_self_nonneg v.y, mul_self_nonneg v.z]

/-- A descending direction of bounded length meets the plane within the horizon. -/
theorem plane_down (v : Vec3f ℝ) (hy : v.y ≤ -539) (hn : v.dot v ≤ 4000000) :
    |(Ray.make ⟨0, 0, 0⟩ (v.normalize Real.sqrt)).dir.y| > 1 / 1000 ∧
      0 < plane_dist (Ray.make ⟨0, 0, 0⟩ (v.normalize Real.sqrt)) ∧
      plane_dist (Ray.make ⟨0, 0, 0⟩ (v.normalize Real.sqrt)) < 1000 := by
  have hv : 0 < v.dot v := by
    simp only [Vec3f.dot]
    nlinarith [mul_self_nonneg v.x, mul_self_nonneg v.z]
  have hnpos : 0 < Real.sqrt (v.dot v) := Real.sqrt_pos.mpr hv
  have hle : Real.sqrt (v.dot v) ≤ 2000 :=
    Real.sqrt_le_iff.mpr ⟨by norm_num, by norm_num; exact hn⟩
  have hdy : (Ray.make ⟨0, 0, 0⟩ (v.normalize Real.sqrt)).dir.y
      = v.y / Real.sqrt (v.dot v) := by
    simp only [Ray.make, Vec3f.normalize, Vec3f.norm, Vec3f.scale]
    ring
  have hoy : (Ray.make ⟨0, 0, 0⟩ (v.normalize Real.sqrt)).orig.y = 0 := rfl
  unfold plane_dist
  rw [hdy, hoy]
  generalize Real.sqrt (v.dot v) = n at hnpos hle
  have hneg : v.y / n < 0 := div_neg_of_neg_of_pos (by linarith) hnpos
  refine ⟨?_, ?_, ?_⟩
  · rw [abs_of_neg hneg, gt_iff_lt, ← neg_div, lt_div_iff₀ hnpos]
    linarith
  · apply div_pos_of_neg_of_neg (by norm_num) hneg
  · rw [div_lt_iff_of_neg hneg, ← mul_div_assoc, div_lt_iff₀ hnpos]
    linarith

/-- Every sample of a pixel whose direction points upwards and far to the side
returns the background colour. -/
theorem corner_sample_up (E : Env ℝ) (hE : E.sqrtf = Real.sqrt) (m : Material ℝ)
    (lights : List (Light ℝ)) (k : Nat) (x y z : ℝ)
    (hx : x ≤ -959 - 1 / 2 ∨ 959 ≤ x) (hy : 0 ≤ y) (hz1 : -936 < z) (hz2 : z < -935) :
    cast_ray E (aa_ray E k x y z) [Figure.sphere ⟨⟨0, 0, -10⟩, 2, m⟩] lights 0
      = background := by
  obtain ⟨⟨bx1, bx2⟩, ⟨by1, -⟩, bz1, bz2⟩ := aa_dir_box k x y z
  have hmiss : ∀ p ∈ [Figure.sphere (⟨⟨0, 0, -10⟩, 2, m⟩ : Sphere ℝ)],
      p.ray_intersect E.sqrtf (aa_ray E k x y z) = none := by
    intro p hp
    rw [List.mem_singleton] at hp
    rw [hp, hE]
    unfold aa_ray
    rw [hE]
    apply corner_sphere_miss
    · rcases hx with hx | hx <;> nlinarith
    · linarith
    · linarith
  apply cast_ray_of_no_hit
  apply scene_intersect_of_miss_up E _ _ _ _ _ hmiss
  · norm_num [aa_ray, Ray.make]
  · have hn : 0 ≤ 1 / E.sqrtf ((aa_dir k x y z).dot (aa_dir k x y z)) := by
      rw [hE]
      exact one_div_nonneg.mpr (Real.sqrt_nonneg _)
    simp only [aa_ray, Ray.make, Vec3f.normalize, Vec3f.norm, Vec3f.scale]
    exact mul_nonneg (le_trans hy by1) hn

/-- Every sample of a pixel whose direction points downwards and far to the
side hits the checkerboard plane. -/
theorem corner_sample_down (E : Env ℝ) (hE : E.sqrtf = Real.sqrt) (m : Material ℝ) (k : Nat)
    (x y z : ℝ) (hx : (x ≤ -959 - 1 / 2 ∧ -960 ≤ x) ∨ (959 ≤ x ∧ x ≤ 960 - 1 / 2))
    (hy1 : -540 ≤ y) (hy2 : y ≤ -539 - 1 / 2) (hz1 : -936 < z) (hz2 : z < -935) :
    scene_intersect E (aa_ray E k x y z) [Figure.sphere ⟨⟨0, 0, -10⟩, 2, m⟩]
        E.vec_default E.vec_default E.material_default =
      SceneResult.mk true
        ((aa_ray E k x y z).orig.add
          ((aa_ray E k x y z).dir.scale (plane_dist (aa_ray E k x y z)))) ⟨0, 1, 0⟩
        (Material.mk
          (checkerboard_color ((aa_ray E k x y z).orig.add
            ((aa_ray E k x y z).dir.scale (plane_dist (aa_ray E k x y z)))))
          E.material_default.albedo E.material_default.specular_exponent
          E.material_default.refractive_index) := by
  obtain ⟨⟨bx1, bx2⟩, ⟨by1, by2⟩, bz1, bz2⟩ := aa_dir_box k x y z
  have hxx : 919681 ≤ (aa_dir k x y z).x * (aa_dir k x y z).x := by
    rcases hx with hx | hx <;> nlinarith
  have hxx2 : (aa_dir k x y z).x * (aa_dir k x y z).x ≤ 921600 := by
    rcases hx with hx | hx <;> nlinarith
  have hyy2 : (aa_dir k x y z).y * (aa_dir k x y z).y ≤ 291600 := by nlinarith
  have hzz2 : (aa_dir k x y z).z * (aa_dir k x y z).z ≤ 877969 := by nlinarith
  have hmiss : ∀ p ∈ [Figure.sphere (⟨⟨0, 0, -10⟩, 2, m⟩ : Sphere ℝ)],
      p.ray_intersect E.sqrtf (aa_ray E k x y z) = none := by
    intro p hp
    rw [List.mem_singleton] at hp
    rw [hp, hE]
    unfold aa_ray
    rw [hE]
    apply corner_sphere_miss _ _ hxx
    · linarith
    · linarith
  have hpl : |(aa_ray E k x y z).dir.y| > 1 / 1000 ∧ 0 < plane_dist (aa_ray E k x y z) ∧
      plane_dist (aa_ray E k x y z) < 1000 := by
    unfold aa_ray
    rw [hE]
    apply plane_down
    · linarith
    · simp only [Vec3f.dot]
      linarith
  exact scene_intersect_of_miss_down E _ _ _ _ _ hmiss hpl.1 hpl.2.1 hpl.2.2

/-- The sum of five samples in the order of the loop of `anti_aliasing`. -/
theorem anti_aliasing_eq {α : Type} [LinearOrderedField α] [FloorRing α] (E : Env α)
    (x y z : α) (figures : List (Figure α)) (lights : List (Light α)) :
    anti_aliasing E x y z figures lights =
      ((((((⟨0, 0, 0⟩ : Vec3f α).add (cast_ray E (aa_ray E 0 x y z) figures lights 0)).add
        (cast_ray E (aa_ray E 1 x y z) figures lights 0)).add
        (cast_ray E (aa_ray E 2 x y z) figures lights 0)).add
        (cast_ray E (aa_ray E 3 x y z) figures lights 0)).add
        (cast_ray E (aa_ray E 4 x y z) figures lights 0)).div 5 := by
  rfl

end CornerHelpers

section CornerPixels

/-- A sample of a bottom corner pixel is shaded with a blue channel of at most
`3 / 20` when the default material has albedo `(1, 0, 0, 0)`. -/
theorem corner_sample_blue (E : Env ℝ) (hE : E.sqrtf = Real.sqrt)
    (ha : E.material_default.albedo = ⟨1, 0, 0, 0⟩) (m : Material ℝ) (k : Nat)
    (x y z : ℝ) (hx : (x ≤ -959 - 1 / 2 ∧ -960 ≤ x) ∨ (959 ≤ x ∧ x ≤ 960 - 1 / 2))
    (hy1 : -540 ≤ y) (hy2 : y ≤ -539 - 1 / 2) (hz1 : -936 < z) (hz2 : z < -935) :
    (cast_ray E (aa_ray E k x y z) [Figure.sphere ⟨⟨0, 0, -10⟩, 2, m⟩]
      [⟨⟨-20, 20, 20⟩, 3 / 2⟩] 0).z ≤ 3 / 20 := by
  have hr := corner_sample_down E hE m k x y z hx hy1 hy2 hz1 hz2
  have h := cast_ray_blue_le E hE (aa_ray E k x y z) [Figure.sphere ⟨⟨0, 0, -10⟩, 2, m⟩]
    ⟨⟨-20, 20, 20⟩, 3 / 2⟩ (by norm_num) (by rw [hr]) (by rw [hr]) (by rw [hr]; exact ha)
    (by rw [hr]; exact checkerboard_color_z _)
  norm_num at h ⊢
  exact h

/-- The top corner pixels of the end-to-end scene have the background colour. -/
theorem corner_pixel_top (E : Env ℝ) (hE : E.sqrtf = Real.sqrt) (m : Material ℝ)
    (lights : List (Light ℝ)) (i : Nat) (hi : i = 0 ∨ i = 1919) :
    render_pixel E Real.tan Real.pi i 0 [Figure.sphere ⟨⟨0, 0, -10⟩, 2, m⟩] lights
      = ⟨0, 127 / 255, 1⟩ := by
  obtain ⟨hx, hy, hz1, hz2⟩ := pixel_dir_corner i 0
  have hx2 : (pixel_dir Real.tan Real.pi i 0).x ≤ -959 - 1 / 2 ∨
      959 ≤ (pixel_dir Real.tan Real.pi i 0).x := by
    rw [hx]
    rcases hi with hi | hi <;> rw [hi] <;> norm_num
  have hy2 : 0 ≤ (pixel_dir Real.tan Real.pi i 0).y := by
    rw [hy]
    norm_num
  have hs := fun k => corner_sample_up E hE m lights k _ _ _ hx2 hy2 hz1 hz2
  unfold render_pixel
  rw [anti_aliasing_eq, hs 0, hs 1, hs 2, hs 3, hs 4]
  norm_num [background, Vec3f.add, Vec3f.div]

/-- The bottom corner pixels of the end-to-end scene have a blue channel of at
most `3 / 20` when the default material has albedo `(1, 0, 0, 0)`. -/
theorem corner_pixel_bottom (E : Env ℝ) (hE : E.sqrtf = Real.sqrt)
    (ha : E.material_default.albedo = ⟨1, 0, 0, 0⟩) (m : Material ℝ)
    (i : Nat) (hi : i = 0 ∨ i = 1919) :
    (render_pixel E Real.tan Real.pi i 1079 [Figure.sphere ⟨⟨0, 0, -10⟩, 2, m⟩]
      [⟨⟨-20, 20, 20⟩, 3 / 2⟩]).z ≤ 3 / 20 := by
  obtain ⟨hx, hy, hz1, hz2⟩ := pixel_dir_corner i 1079
  have hx2 : ((pixel_dir Real.tan Real.pi i 1079).x ≤ -959 - 1 / 2 ∧
        -960 ≤ (pixel_dir Real.tan Real.pi i 1079).x) ∨
      (959 ≤ (pixel_dir Real.tan Real.pi i 1079).x ∧
        (pixel_dir Real.tan Real.pi i 1079).x ≤ 960 - 1 / 2) := by
    rw [hx]
    rcases hi with hi | hi <;> rw [hi] <;> norm_num
  have hy1 : -540 ≤ (pixel_dir Real.tan Real.pi i 1079).y := by
    rw [hy]
    norm_num
  have hy2 : (pixel_dir Real.tan Real.pi i 1079).y ≤ -539 - 1 / 2 := by
    rw [hy]
    norm_num
  have hs := fun k => corner_sample_blue E hE ha m k _ _ _ hx2 hy1 hy2 hz1 hz2
  unfold render_pixel
  rw [anti_aliasing_eq]
  have h0 := hs 0
  have h1 := hs 1
  have h2 := hs 2
  have h3 := hs 3
  have h4 := hs 4
  simp only [Vec3f.add, Vec3f.div]
  rw [div_le_iff₀ (by norm_num)]
  linarith

/-- Every sample of a bottom corner pixel hits the checkerboard plane. -/
theorem corner_pixel_bottom_hit (E : Env ℝ) (hE : E.sqrtf = Real.sqrt) (m : Material ℝ)
    (i : Nat) (hi : i = 0 ∨ i = 1919) (k : Nat) :
    (scene_intersect E
        (aa_ray E k (pixel_dir Real.tan Real.pi i 1079).x (pixel_dir Real.tan Real.pi i 1079).y
          (pixel_dir Real.tan Real.pi i 1079).z)
        [Figure.sphere ⟨⟨0, 0, -10⟩, 2, m⟩] E.vec_default E.vec_default
        E.material_default).found = true ∧
      (scene_intersect E
        (aa_ray E k (pixel_dir Real.tan Real.pi i 1079).x (pixel_dir Real.tan Real.pi i 1079).y
          (pixel_dir Real.tan Real.pi i 1079).z)
        [Figure.sphere ⟨⟨0, 0, -10⟩, 2, m⟩] E.vec_default E.vec_default
        E.material_default).N = ⟨0, 1, 0⟩ := by
  obtain ⟨hx, hy, hz1, hz2⟩ := pixel_dir_corner i 1079
  have hx2 : ((pixel_dir Real.tan Real.pi i 1079).x ≤ -959 - 1 / 2 ∧
        -960 ≤ (pixel_dir Real.tan Real.pi i 1079).x) ∨
      (959 ≤ (pixel_dir Real.tan Real.pi i 1079).x ∧
        (pixel_dir Real.tan Real.pi i 1079).x ≤ 960 - 1 / 2) := by
    rw [hx]
    rcases hi with hi | hi <;> rw [hi] <;> norm_num
  have hy1 : -540 ≤ (pixel_dir Real.tan Real.pi i 1079).y := by
    rw [hy]
    norm_num
  have hy2 : (pixel_dir Real.tan Real.pi i 1079).y ≤ -539 - 1 / 2 := by
    rw [hy]
    norm_num
  rw [corner_sample_down E hE m k _ _ _ hx2 hy1 hy2 hz1 hz2]
  exact ⟨rfl, rfl⟩

/-- C14 (as stated, refuted): in the end-to-end scene the colour that
`anti_aliasing` computes for the bottom corner pixels `(0, 1079)` and
`(1919, 1079)` is not the background colour `(0, 127/255, 1)`: their rays hit
the checkerboard plane. -/
theorem render_corners_counterexample :
    render_pixel (envOf Real.sqrt (fun x y => x ^ y)) Real.tan Real.pi 0 1079
        [Figure.sphere sphereE2E] [lightE2E] ≠ ⟨0, 127 / 255, 1⟩ ∧
      render_pixel (envOf Real.sqrt (fun x y => x ^ y)) Real.tan Real.pi 1919 1079
        [Figure.sphere sphereE2E] [lightE2E] ≠ ⟨0, 127 / 255, 1⟩ := by
  constructor
  · intro h
    have hb := corner_pixel_bottom (envOf Real.sqrt (fun x y => x ^ y)) rfl rfl matte 0
      (Or.inl rfl)
    have hz := congrArg Vec3f.z h
    simp only [sphereE2E, lightE2E] at hz
    rw [hz] at hb
    norm_num at hb
  · intro h
    have hb := corner_pixel_bottom (envOf Real.sqrt (fun x y => x ^ y)) rfl rfl matte 1919
      (Or.inr rfl)
    have hz := congrArg Vec3f.z h
    simp only [sphereE2E, lightE2E] at hz
    rw [hz] at hb
    norm_num at hb

/-- Every sample of a top corner pixel of the end-to-end scene returns the
background colour. -/
theorem corner_pixel_top_samples (E : Env ℝ) (hE : E.sqrtf = Real.sqrt) (m : Material ℝ)
    (lights : List (Light ℝ)) (i : Nat) (hi : i = 0 ∨ i = 1919) (k : Nat) :
    cast_ray E
        (aa_ray E k (pixel_dir Real.tan Real.pi i 0).x (pixel_dir Real.tan Real.pi i 0).y
          (pixel_dir Real.tan Real.pi i 0).z)
        [Figure.sphere ⟨⟨0, 0, -10⟩, 2, m⟩] lights 0 = ⟨0, 127 / 255, 1⟩ := by
  obtain ⟨hx, hy, hz1, hz2⟩ := pixel_dir_corner i 0
  have hx2 : (pixel_dir Real.tan Real.pi i 0).x ≤ -959 - 1 / 2 ∨
      959 ≤ (pixel_dir Real.tan Real.pi i 0).x := by
    rw [hx]
    rcases hi with hi | hi <;> rw [hi] <;> norm_num
  have hy2 : 0 ≤ (pixel_dir Real.tan Real.pi i 0).y := by
    rw [hy]
    norm_num
  rw [corner_sample_up E hE m lights k _ _ _ hx2 hy2 hz1 hz2]
  norm_num [background]

set_option maxRecDepth 100000 in
/-- Five background colours accumulated and divided by 5 in binary32: the
green channel comes out one unit in the last place (`2^-25`) below the
background's. -/
theorem background32_average :
    background32 = ⟨F32.ofInt 0, F32.ofRat 16711423 33554432, F32.ofInt 1⟩ ∧
      anti_aliasing32 (fun _ => background32)
        = ⟨F32.ofInt 0, F32.ofRat 8355711 16777216, F32.ofInt 1⟩ ∧
      (anti_aliasing32 (fun _ => background32)).y.units + 2 ^ 124 = background32.y.units ∧
      (F32.ofRat 1 33554432).units = 2 ^ 124 := by
  decide

/-- C14 (amended): in the end-to-end scene (one sphere with centre `(0, 0, -10)`
and radius 2 of any material, one light at `(-20, 20, 20)` of intensity 1.5,
1920x1080, field of view `pi / 3`), over exact real arithmetic, every one of
the five sample rays of the top corner pixels `(0, 0)` and `(1919, 0)` returns
the background colour `(0, 127/255, 1)`, and their exact average, the colour
that `anti_aliasing` computes, is the background colour.  In binary32 the
background green is `16711423 / 2^25`, and five background colours accumulated
and divided by 5 give `(0, 8355711 / 2^24, 1)`, whose green channel is one
unit in the last place (`2^-25`) below the background's: there the top corners
are the background only up to that rounding.  For the bottom corner pixels
`(0, 1079)` and `(1919, 1079)` every one of the five sample rays hits the
checkerboard plane (found, normal `(0, 1, 0)`), and when the default material
has albedo `(1, 0, 0, 0)` the blue channel of these two pixels is at most
`3 / 20`. -/
theorem render_corners (E : Env ℝ) (hE : E.sqrtf = Real.sqrt) (m : Material ℝ) :
    (∀ i, i = 0 ∨ i = 1919 →
        (∀ k, cast_ray E
            (aa_ray E k (pixel_dir Real.tan Real.pi i 0).x (pixel_dir Real.tan Real.pi i 0).y
              (pixel_dir Real.tan Real.pi i 0).z)
            [Figure.sphere ⟨⟨0, 0, -10⟩, 2, m⟩] [⟨⟨-20, 20, 20⟩, 3 / 2⟩] 0
              = ⟨0, 127 / 255, 1⟩) ∧
          render_pixel E Real.tan Real.pi i 0 [Figure.sphere ⟨⟨0, 0, -10⟩, 2, m⟩]
            [⟨⟨-20, 20, 20⟩, 3 / 2⟩] = ⟨0, 127 / 255, 1⟩) ∧
      (background32 = ⟨F32.ofInt 0, F32.ofRat 16711423 33554432, F32.ofInt 1⟩ ∧
        anti_aliasing32 (fun _ => background32)
          = ⟨F32.ofInt 0, F32.ofRat 8355711 16777216, F32.ofInt 1⟩ ∧
        (anti_aliasing32 (fun _ => background32)).y.units + 2 ^ 124 = background32.y.units ∧
        (F32.ofRat 1 33554432).units = 2 ^ 124) ∧
      (∀ i, i = 0 ∨ i = 1919 → ∀ k,
        (scene_intersect E
            (aa_ray E k (pixel_dir Real.tan Real.pi i 1079).x
              (pixel_dir Real.tan Real.pi i 1079).y (pixel_dir Real.tan Real.pi i 1079).z)
            [Figure.sphere ⟨⟨0, 0, -10⟩, 2, m⟩] E.vec_default E.vec_default
            E.material_default).found = true ∧
          (scene_intersect E
            (aa_ray E k (pixel_dir Real.tan Real.pi i 1079).x
              (pixel_dir Real.tan Real.pi i 1079).y (pixel_dir Real.tan Real.pi i 1079).z)
            [Figure.sphere ⟨⟨0, 0, -10⟩, 2, m⟩] E.vec_default E.vec_default
            E.material_default).N = ⟨0, 1, 0⟩) ∧
      (E.material_default.albedo = ⟨1, 0, 0, 0⟩ →
        (render_pixel E Real.tan Real.pi 0 1079 [Figure.sphere ⟨⟨0, 0, -10⟩, 2, m⟩]
            [⟨⟨-20, 20, 20⟩, 3 / 2⟩]).z ≤ 3 / 20 ∧
          (render_pixel E Real.tan Real.pi 1919 1079 [Figure.sphere ⟨⟨0, 0, -10⟩, 2, m⟩]
            [⟨⟨-20, 20, 20⟩, 3 / 2⟩]).z ≤ 3 / 20) :=
  ⟨fun i hi => ⟨fun k => corner_pixel_top_samples E hE m _ i hi k, corner_pixel_top E hE m _ i hi⟩,
    background32_average,
    fun i hi k => corner_pixel_bottom_hit E hE m i hi k,
    fun ha => ⟨corner_pixel_bottom E hE ha m 0 (Or.inl rfl),
      corner_pixel_bottom E hE ha m 1919 (Or.inr rfl)⟩⟩

/-- The amended corner property evaluated with the real square root on the
matte sphere: in exact arithmetic the top corners are background, and the blue
channel of the bottom corners is at most `3 / 20`. -/
theorem render_corners_witness :
    (render_pixel (envOf Real.sqrt (fun x y => x ^ y)) Real.tan Real.pi 0 0
        [Figure.sphere sphereE2E] [lightE2E] = ⟨0, 127 / 255, 1⟩ ∧
      render_pixel (envOf Real.sqrt (fun x y => x ^ y)) Real.tan Real.pi 1919 0
        [Figure.sphere sphereE2E] [lightE2E] = ⟨0, 127 / 255, 1⟩) ∧
      ((render_pixel (envOf Real.sqrt (fun x y => x ^ y)) Real.tan Real.pi 0 1079
          [Figure.sphere sphereE2E] [lightE2E]).z ≤ 3 / 20 ∧
        (render_pixel (envOf Real.sqrt (fun x y => x ^ y)) Real.tan Real.pi 1919 1079
          [Figure.sphere sphereE2E] [lightE2E]).z ≤ 3 / 20) :=
  ⟨⟨((render_corners (envOf Real.sqrt (fun x y => x ^ y)) rfl matte).1 0 (Or.inl rfl)).2,
      ((render_corners (envOf Real.sqrt (fun x y => x ^ y)) rfl matte).1 1919 (Or.inr rfl)).2⟩,
    (render_corners (envOf Real.sqrt (fun x y => x ^ y)) rfl matte).2.2.2 rfl⟩

end CornerPixels

end Raytracer
